import Mathlib

/-!
# Page-split estimation (`filters/page_split/PageLayoutEstimator.cpp`)

A shallow embedding of the decision logic of `PageLayoutEstimator` and of the
helpers in its anonymous namespace, followed by theorems about it.

Conventions of the embedding

* C++ `int` is `Int`; the quantities are pixel coordinates and widths, far away
  from the 32-bit range.  Integer division `/` is `Int.tdiv` (truncation).
* C++ `double` is `ℚ`.  Every double of the decision logic is an integer, half
  an integer, or a quotient / product of such values; the embedding computes
  them exactly.  The one division whose divisor can be zero (`min / max` of a
  gap) is embedded with the IEEE special results, see `Ratio`.
* `std::deque<Span>` and `std::vector<QLineF>` are `List`s; `spans[i]` is
  `spanAt spans i`.
* `assert(...)` is a failure: the function returns `none`.
* The loops "just to be able to break from" are `Option`-valued helpers, `none`
  being `break`.
* The debug sink `dbg` is write-only and is left out of the functions below.
-/

namespace page_split

/-! ## Data model -/

/-- The C++ enumeration `Rule::LayoutType`. -/
inductive LayoutType where
  | AUTO_DETECT
  | SINGLE_PAGE_UNCUT
  | LEFT_PAGE_PLUS_OFFCUT
  | RIGHT_PAGE_PLUS_OFFCUT
  | TWO_PAGES
  deriving DecidableEq, Repr

/-- The C++ enumeration `PageLayout::Type`. -/
inductive PageLayoutType where
  | SINGLE_PAGE_UNCUT
  | LEFT_PAGE_PLUS_OFFCUT
  | RIGHT_PAGE_PLUS_OFFCUT
  | TWO_PAGES
  deriving DecidableEq, Repr

/-- The `PageLayout::Type` a forced `Rule::LayoutType` stands for; there is none
for `AUTO_DETECT`. -/
def LayoutType.toPageLayoutType : LayoutType → Option PageLayoutType
  | .AUTO_DETECT => none
  | .SINGLE_PAGE_UNCUT => some .SINGLE_PAGE_UNCUT
  | .LEFT_PAGE_PLUS_OFFCUT => some .LEFT_PAGE_PLUS_OFFCUT
  | .RIGHT_PAGE_PLUS_OFFCUT => some .RIGHT_PAGE_PLUS_OFFCUT
  | .TWO_PAGES => some .TWO_PAGES

/-- Qt's `QLineF`: a segment from `(x1, y1)` to `(x2, y2)`. -/
structure QLineF where
  x1 : ℚ
  y1 : ℚ
  x2 : ℚ
  y2 : ℚ
  deriving DecidableEq

/-- The default-constructed `QLineF()`, the null line. -/
def QLineF.null : QLineF := ⟨0, 0, 0, 0⟩

/-- Modelled from the spec: `foundation/Span.h` is not among the sources.  A span
is an interval `[begin, end)` on the x axis, stored as `m_begin`, `m_end`. -/
structure Span where
  m_begin : Int
  m_end : Int
  deriving DecidableEq, Repr

/-- Modelled from the spec: `Span::width()`, the length `end - begin`. -/
def Span.width (s : Span) : Int := s.m_end - s.m_begin

/-- Modelled from the spec: `Span::center()`, the midpoint as a double. -/
def Span.center (s : Span) : ℚ := (1 / 2 : ℚ) * ((s.m_begin + s.m_end : Int) : ℚ)

/-- Modelled from the spec: the constructor `Span(Span const& from, Span const& to)`,
the gap between the end of `from` and the beginning of `to`. -/
def Span.between (a b : Span) : Span := ⟨a.m_end, b.m_begin⟩

/-- Modelled from the spec: the constructor `Span(int begin, Span const& to)`, the
interval between a point and the beginning of a span. -/
def Span.fromPoint (b : Int) (s : Span) : Span := ⟨b, s.m_begin⟩

/-- Modelled from the spec: the constructor `Span(Span const& from, int end)`, the
interval between the end of a span and a point. -/
def Span.toPoint (a : Span) (e : Int) : Span := ⟨a.m_end, e⟩

/-- The element `spans[i]` of a deque of spans (`Span()` when `i` is out of range,
which no call below exercises). -/
def spanAt (spans : List Span) (i : Nat) : Span := spans.getD i ⟨0, 0⟩

/-- Modelled from the spec: `PageLayout.h` is not among the sources.  A layout is a
type together with a split line. -/
structure PageLayout where
  type : PageLayoutType
  splitLine : QLineF
  deriving DecidableEq

/-- Modelled from the spec: the default-constructed `PageLayout()`, of type
`SINGLE_PAGE_UNCUT` with the null line. -/
def PageLayout.default : PageLayout := ⟨.SINGLE_PAGE_UNCUT, QLineF.null⟩

/-- Modelled from the spec: `PageLayout::singlePageUncut()`. -/
def PageLayout.singlePageUncut : PageLayout := ⟨.SINGLE_PAGE_UNCUT, QLineF.null⟩

/-- Modelled from the spec: `PageLayout::leftPagePlusOffcut(line)`. -/
def PageLayout.leftPagePlusOffcut (line : QLineF) : PageLayout :=
  ⟨.LEFT_PAGE_PLUS_OFFCUT, line⟩

/-- Modelled from the spec: `PageLayout::rightPagePlusOffcut(line)`. -/
def PageLayout.rightPagePlusOffcut (line : QLineF) : PageLayout :=
  ⟨.RIGHT_PAGE_PLUS_OFFCUT, line⟩

/-! ## `PageLayoutEstimator`: the whitespace decisions -/

/-- `PageLayoutEstimator::vertLine`. -/
def vertLine (x : ℚ) : QLineF := ⟨x, 0, x, 1⟩

/-- `PageLayoutEstimator::processTwoPagesWithSingleSpan`. -/
def processTwoPagesWithSingleSpan (span : Span) (width : Int) : PageLayout :=
  let page_center : ℚ := (1 / 2 : ℚ) * (width : ℚ)
  let box_center : ℚ := span.center
  let box_half_width : ℚ := (1 / 2 : ℚ) * (span.width : ℚ)
  let distance_to_page_center : ℚ := |page_center - box_center| - box_half_width
  let x : ℚ :=
    if distance_to_page_center > 15 then
      page_center
    else
      let left_ws : Span := Span.fromPoint 0 span
      let right_ws : Span := Span.toPoint span width
      if left_ws.width > right_ws.width then
        ((max 0 (span.m_begin - 15) : Int) : ℚ)
      else
        ((min width (span.m_end + 15) : Int) : ℚ)
  ⟨.TWO_PAGES, vertLine x⟩

/-- The body of the first `while` of `processContentSpansSinglePage` (the
right-page-plus-offcut branch): `some x` when it reaches the `return`, `none`
when it leaves through `break`. -/
def rightOffcutX (layout_type : LayoutType) (spans : List Span) (width : Int) :
    Option ℚ :=
  if spans.isEmpty then
    some 0
  else if (spanAt spans 0).m_begin > 0 then
    some ((1 / 2 : ℚ) * ((spanAt spans 0).m_begin : ℚ))
  else if layout_type ≠ .RIGHT_PAGE_PLUS_OFFCUT ∧
      (spanAt spans 0).width > Int.tdiv width 2 then
    none
  else if spans.length > 1 then
    some (Span.between (spanAt spans 0) (spanAt spans 1)).center
  else
    some ((min ((spanAt spans 0).m_end + 20) width : Int) : ℚ)

/-- The body of the second `while` of `processContentSpansSinglePage` (the
left-page-plus-offcut branch): `some x` when it reaches the `return`, `none`
when it leaves through `break`. -/
def leftOffcutX (layout_type : LayoutType) (spans : List Span) (width : Int) :
    Option ℚ :=
  if spans.isEmpty then
    some (width : ℚ)
  else if (spanAt spans (spans.length - 1)).m_end < width then
    some (Span.toPoint (spanAt spans (spans.length - 1)) width).center
  else if layout_type ≠ .LEFT_PAGE_PLUS_OFFCUT ∧
      (spanAt spans (spans.length - 1)).width > Int.tdiv width 2 then
    none
  else if spans.length > 1 then
    some (Span.between (spanAt spans (spans.length - 2))
      (spanAt spans (spans.length - 1))).center
  else
    some ((max ((spanAt spans (spans.length - 1)).m_begin - 20) 0 : Int) : ℚ)

/-- The tail of `processContentSpansSinglePage`, reached when neither `while`
returned. -/
def noOffcutLayout (spans : List Span) (width : Int) : PageLayout :=
  if spans.isEmpty then
    PageLayout.singlePageUncut
  else if (spanAt spans 0).m_begin < width - (spanAt spans (spans.length - 1)).m_end then
    PageLayout.rightPagePlusOffcut (vertLine 0)
  else
    PageLayout.leftPagePlusOffcut (vertLine (width : ℚ))

/-- The second `while` of `processContentSpansSinglePage` and what follows it. -/
def leftOffcutOrNone (layout_type : LayoutType) (spans : List Span) (width : Int)
    (left_offcut right_offcut : Bool) : PageLayout :=
  if layout_type = .LEFT_PAGE_PLUS_OFFCUT ∨
      (layout_type = .AUTO_DETECT ∧ right_offcut = true ∧ left_offcut = false) then
    match leftOffcutX layout_type spans width with
    | some x => ⟨.LEFT_PAGE_PLUS_OFFCUT, vertLine x⟩
    | none => noOffcutLayout spans width
  else
    noOffcutLayout spans width

/-- `PageLayoutEstimator::processContentSpansSinglePage`; `none` is the failed
`assert` on the layout type. -/
def processContentSpansSinglePage (layout_type : LayoutType) (spans : List Span)
    (width _height : Int) (left_offcut right_offcut : Bool) : Option PageLayout :=
  if ¬ (layout_type = .AUTO_DETECT ∨ layout_type = .LEFT_PAGE_PLUS_OFFCUT
      ∨ layout_type = .RIGHT_PAGE_PLUS_OFFCUT) then
    none
  else if layout_type = .RIGHT_PAGE_PLUS_OFFCUT ∨
      (layout_type = .AUTO_DETECT ∧ left_offcut = true ∧ right_offcut = false) then
    match rightOffcutX layout_type spans width with
    | some x => some ⟨.RIGHT_PAGE_PLUS_OFFCUT, vertLine x⟩
    | none => some (leftOffcutOrNone layout_type spans width left_offcut right_offcut)
  else
    some (leftOffcutOrNone layout_type spans width left_offcut right_offcut)

/-! ### Two pages -/

/-- The value of the double division `min / max` in the gap loops of
`processContentSpansTwoPages`.  Both operands are integers converted to double
and `min ≤ max`, so the quotient is a finite number when `max ≠ 0`, NaN for
`0 / 0` and minus infinity for a negative `min` over `max = 0`. -/
inductive Ratio where
  | finite (q : ℚ)
  | negInf
  | nan
  deriving DecidableEq

/-- The double quotient `(double)mn / (double)mx` for `mn ≤ mx`. -/
def Ratio.div (mn mx : Int) : Ratio :=
  if mx = 0 then (if mn = 0 then .nan else .negInf)
  else .finite ((mn : ℚ) / (mx : ℚ))

/-- The comparison `ratio > q` against a finite double (false on NaN). -/
def Ratio.gt (r : Ratio) (q : ℚ) : Bool :=
  match r with
  | .finite p => decide (p > q)
  | .negInf => false
  | .nan => false

/-- The comparison `ratio < q` against a finite double (false on NaN). -/
def Ratio.lt (r : Ratio) (q : ℚ) : Bool :=
  match r with
  | .finite p => decide (p < q)
  | .negInf => true
  | .nan => false

/-- The vector `gaps` of `processContentSpansTwoPages` (the `#else` branch, the
one that is compiled): `first` is the content preceding the gap, `second` the
content following it. -/
def twoPagesGaps (spans : List Span) : List (Int × Int) :=
  let content_begin := (spanAt spans 0).m_begin
  let content_end := (spanAt spans (spans.length - 1)).m_end
  (List.range (spans.length - 1)).map fun i =>
    ((spanAt spans i).m_end - content_begin,
     content_end - (spanAt spans (i + 1)).m_begin)

/-- The expression `min / max` computed from `gaps[i]`. -/
def gapRatio (gaps : List (Int × Int)) (i : Nat) : Ratio :=
  let g := gaps.getD i (0, 0)
  Ratio.div (min g.1 g.2) (max g.1 g.2)

/-- One iteration of the loop that looks for the best gap; the state is
`(best_gap, best_ratio)`. -/
def bestGapStep (gaps : List (Int × Int)) (st : Nat × ℚ) (i : Nat) : Nat × ℚ :=
  match gapRatio gaps i with
  | .finite p => if p > st.2 then (i, p) else st
  | .negInf => st
  | .nan => st

/-- The loop `for (i = 0; i < gaps.size(); ++i)` that looks for the best gap,
started from `best_gap = 0`, `best_ratio = 0`. -/
def bestGap (gaps : List (Int × Int)) : Nat × ℚ :=
  (List.range gaps.length).foldl (bestGapStep gaps) (0, 0)

/-- The body shared by the two loops that look for the widest gap, after the
`break` test; the state is `(widest_gap, max_width)`. -/
def widestStep (spans : List Span) (st : Nat × Int) (i : Nat) : Nat × Int :=
  let width := (Span.between (spanAt spans i) (spanAt spans (i + 1))).width
  if width > st.2 then (i, width) else st

/-- The loop `for (i = best_gap - 1; i >= 0; --i)`; the first argument is the
number of indices still to visit, so the next index is one less. -/
def widestLeft (spans : List Span) (gaps : List (Int × Int)) (acceptable_ratio : ℚ) :
    Nat → Nat × Int → Nat × Int
  | 0, st => st
  | i + 1, st =>
    if (gapRatio gaps i).lt acceptable_ratio = true then st
    else widestLeft spans gaps acceptable_ratio i (widestStep spans st i)

/-- The loop `for (i = best_gap + 1; i < gaps.size(); ++i)`; the first argument
is the number of indices still to visit, the second the next index. -/
def widestRight (spans : List Span) (gaps : List (Int × Int)) (acceptable_ratio : ℚ) :
    Nat → Nat → Nat × Int → Nat × Int
  | 0, _, st => st
  | n + 1, i, st =>
    if (gapRatio gaps i).lt acceptable_ratio = true then st
    else widestRight spans gaps acceptable_ratio n (i + 1) (widestStep spans st i)

/-- `PageLayoutEstimator::processContentSpansTwoPages`; `none` is the failed
`assert` on the layout type. -/
def processContentSpansTwoPages (layout_type : LayoutType) (spans : List Span)
    (width _height : Int) : Option PageLayout :=
  if ¬ (layout_type = .AUTO_DETECT ∨ layout_type = .TWO_PAGES) then
    none
  else if spans.isEmpty then
    some ⟨.TWO_PAGES, vertLine ((1 / 2 : ℚ) * (width : ℚ))⟩
  else if spans.length = 1 then
    some (processTwoPagesWithSingleSpan (spanAt spans 0) width)
  else
    let gaps := twoPagesGaps spans
    let content_begin := (spanAt spans 0).m_begin
    let content_end := (spanAt spans (spans.length - 1)).m_end
    let best := bestGap gaps
    let best_gap := best.1
    let best_ratio := best.2
    if best_ratio < 1 / 4 then
      some (processTwoPagesWithSingleSpan ⟨content_begin, content_end⟩ width)
    else
      let acceptable_ratio : ℚ := best_ratio * (9 / 10 : ℚ)
      let st0 : Nat × Int :=
        (best_gap, (Span.between (spanAt spans best_gap) (spanAt spans (best_gap + 1))).width)
      let st1 := widestLeft spans gaps acceptable_ratio best_gap st0
      let st2 := widestRight spans gaps acceptable_ratio
        (gaps.length - (best_gap + 1)) (best_gap + 1) st1
      let widest_gap := st2.1
      let gap := Span.between (spanAt spans widest_gap) (spanAt spans (widest_gap + 1))
      some ⟨.TWO_PAGES, vertLine gap.center⟩

/-- The sum `total` computed at the head of `removeInsignificantEdgeSpans`: the
second loop adds up the widths of `spans[1 ..]`, from the back, and the width
of `spans[0]` is added at the end. -/
def totalWidth (spans : List Span) : Int :=
  let sum := ((List.range (spans.length - 1)).reverse).foldl
    (fun acc i => acc + (spanAt spans (i + 1)).width) 0
  sum + (spanAt spans 0).width

/-- The `do ... while (!spans.empty())` loop of `removeInsignificantEdgeSpans`.
The first argument bounds the number of iterations; `none` means the bound was
reached with the loop still running. -/
def removeLoop : Nat → Int → List Span → Option (List Span)
  | 0, _, _ => none
  | fuel + 1, may_be_removed, spans =>
    let first := spanAt spans 0
    let last := spanAt spans (spans.length - 1)
    if spans.length = 1 then
      some spans
    else if first.width < last.width then
      if first.width > may_be_removed then some spans
      else
        let spans1 := spans.tail
        if spans1.isEmpty then some spans1
        else removeLoop fuel (may_be_removed - first.width) spans1
    else
      if last.width > may_be_removed then some spans
      else
        let spans1 := spans.dropLast
        if spans1.isEmpty then some spans1
        else removeLoop fuel (may_be_removed - last.width) spans1

/-- `PageLayoutEstimator::removeInsignificantEdgeSpans`, returning the deque it
leaves behind.  Every iteration that does not leave the loop pops one span, so
`spans.length` iterations are enough. -/
def removeInsignificantEdgeSpans (spans : List Span) : Option (List Span) :=
  if spans.isEmpty then
    some spans
  else
    let total := totalWidth spans
    let may_be_removed := Int.tdiv total 15
    removeLoop spans.length may_be_removed spans

/-! ## Rasters and the fold-line stage -/

/-- Qt's `QSize`. -/
structure QSize where
  width : Int
  height : Int
  deriving DecidableEq

/-- Qt's `QRect`, stored as Qt stores it: the corners `(x1, y1)` and `(x2, y2)`,
both inside the rectangle. -/
structure QRect where
  x1 : Int
  y1 : Int
  x2 : Int
  y2 : Int
  deriving DecidableEq

/-- The constructor `QRect(x, y, width, height)`. -/
def QRect.ofXYWH (x y width height : Int) : QRect :=
  ⟨x, y, x + width - 1, y + height - 1⟩

/-- `QRect::width()`. -/
def QRect.width (r : QRect) : Int := r.x2 - r.x1 + 1

/-- `QRect::height()`. -/
def QRect.height (r : QRect) : Int := r.y2 - r.y1 + 1

/-- `QRect::right()`. -/
def QRect.right (r : QRect) : Int := r.x2

/-- `QRect::setWidth(w)`. -/
def QRect.setWidth (r : QRect) (w : Int) : QRect := { r with x2 := r.x1 + w - 1 }

/-- `QRect::moveRight(pos)`. -/
def QRect.moveRight (r : QRect) (pos : Int) : QRect :=
  { r with x1 := r.x1 + (pos - r.x2), x2 := pos }

/-- `QRect::adjust(dx1, dy1, dx2, dy2)`. -/
def QRect.adjust (r : QRect) (dx1 dy1 dx2 dy2 : Int) : QRect :=
  ⟨r.x1 + dx1, r.y1 + dy1, r.x2 + dx2, r.y2 + dy2⟩

/-- `QRect::contains(QPoint(x, y))`. -/
def QRect.contains (r : QRect) (x y : Int) : Bool :=
  decide (r.x1 ≤ x ∧ x ≤ r.x2 ∧ r.y1 ≤ y ∧ y ≤ r.y2)

/-- A grayscale `QImage`, as far as the estimator looks at it: its size and its
pixels. -/
structure QImage where
  width : Int
  height : Int
  gray : Int → Int → Int

/-- The default-constructed `QImage()`, the null image. -/
def QImage.null : QImage := ⟨0, 0, fun _ _ => 0⟩

/-- `QImage::rect()`. -/
def QImage.rect (img : QImage) : QRect := QRect.ofXYWH 0 0 img.width img.height

/-- `QImage::size()`. -/
def QImage.size (img : QImage) : QSize := ⟨img.width, img.height⟩

/-- Modelled from the spec: `imageproc/BinaryImage.h` is not among the sources.  A
bilevel raster: its size and, for the pixels inside it, whether they are black. -/
structure BinaryImage where
  width : Int
  height : Int
  black : Int → Int → Bool

/-- Modelled from the spec: the constructor `BinaryImage(size, WHITE)`. -/
def BinaryImage.white (width height : Int) : BinaryImage :=
  ⟨width, height, fun _ _ => false⟩

/-- `BinaryImage::rect()`. -/
def BinaryImage.rect (img : BinaryImage) : QRect :=
  QRect.ofXYWH 0 0 img.width img.height

/-- Modelled from the spec: `BinaryImage::fill(rect, BLACK)`, which blackens the
part of `rect` that lies inside the image. -/
def BinaryImage.fill (img : BinaryImage) (rect : QRect) : BinaryImage :=
  { img with black := fun x y =>
      if rect.contains x y && img.rect.contains x y then true else img.black x y }

/-- Modelled from the spec: `BinaryImage::countBlackPixels(rect)`, the number of
black pixels inside the intersection of `rect` with the image. -/
def BinaryImage.countBlackPixels (img : BinaryImage) (rect : QRect) : Nat :=
  ((List.range img.height.toNat).map fun y =>
    ((List.range img.width.toNat).filter fun x =>
      rect.contains (x : Int) (y : Int) && img.black (x : Int) (y : Int)).length).sum

/-- Modelled from the spec: `imageproc/ConnComp.h` is not among the sources.  A
connected component, as far as the estimator looks at it: its bounding box. -/
structure ConnComp where
  rect : QRect

/-- `ConnComp::width()`. -/
def ConnComp.width (cc : ConnComp) : Int := cc.rect.width

/-- `ConnComp::height()`. -/
def ConnComp.height (cc : ConnComp) : Int := cc.rect.height

/-- The horizontal centre of a line, the quantity `CenterComparator` and the
split-line selectors compare. -/
def QLineF.xCenter (line : QLineF) : ℚ := (1 / 2 : ℚ) * (line.x1 + line.x2)

/-- `selectSinglePageSplitLine`.  `binarizeOtsu` (of `imageproc/Binarize.h`) is
not among the sources and is a parameter. -/
def selectSinglePageSplitLine (binarizeOtsu : QImage → BinaryImage)
    (ltr_lines : List QLineF) (image_size : QSize) (hor_shadows : QImage) : PageLayout :=
  if ltr_lines.isEmpty then
    PageLayout.default
  else
    let left_area : QRect := (hor_shadows.rect).setWidth (min 20 hor_shadows.width)
    let right_area : QRect := left_area.moveRight (hor_shadows.rect).right
    let hor_shadows_bin := binarizeOtsu hor_shadows
    let left_sum := hor_shadows_bin.countBlackPixels left_area
    let right_sum := hor_shadows_bin.countBlackPixels right_area
    if left_sum = 0 ∧ right_sum = 0 then
      PageLayout.default
    else if ltr_lines.length = 1 then
      let line := ltr_lines.getD 0 QLineF.null
      let x_center := line.xCenter
      if x_center < (1 / 2 : ℚ) * (image_size.width : ℚ) then
        ⟨.RIGHT_PAGE_PLUS_OFFCUT, line⟩
      else
        ⟨.LEFT_PAGE_PLUS_OFFCUT, line⟩
    else if left_sum > right_sum then
      ⟨.RIGHT_PAGE_PLUS_OFFCUT, ltr_lines.getD 0 QLineF.null⟩
    else
      ⟨.LEFT_PAGE_PLUS_OFFCUT, ltr_lines.getD (ltr_lines.length - 1) QLineF.null⟩

/-- The constant `std::numeric_limits<double>::max()`. -/
def DBL_MAX : ℚ := 2 ^ 1024 - 2 ^ 971

/-- One iteration of the loop of `selectTwoPageSplitLine`; the state is
`(min_distance, best_line)`. -/
def closestStep (global_center : ℚ) (st : ℚ × Option QLineF) (line : QLineF) :
    ℚ × Option QLineF :=
  let line_center := line.xCenter
  let distance := |line_center - global_center|
  if distance < st.1 then (distance, some line) else st

/-- `selectTwoPageSplitLine`; `none` is the dereference of a `best_line` that is
still null after the loop. -/
def selectTwoPageSplitLine (ltr_lines : List QLineF) (image_size : QSize) :
    Option PageLayout :=
  let width := image_size.width
  if ltr_lines.isEmpty then
    some PageLayout.default
  else if ltr_lines.length = 1 then
    some ⟨.TWO_PAGES, ltr_lines.getD 0 QLineF.null⟩
  else
    let global_center : ℚ := (1 / 2 : ℚ) * (width : ℚ)
    let st := ltr_lines.foldl (closestStep global_center) (DBL_MAX, none)
    match st.2 with
    | some best_line => some ⟨.TWO_PAGES, best_line⟩
    | none => none

/-- `numPages`.  `PageSequence::adviseNumberOfLogicalPages` is not among the
sources; its result for the image at hand is the parameter `advised`. -/
def numPages (layout_type : LayoutType) (advised : Int) : Int :=
  match layout_type with
  | .AUTO_DETECT => advised
  | .SINGLE_PAGE_UNCUT => 1
  | .LEFT_PAGE_PLUS_OFFCUT => 1
  | .RIGHT_PAGE_PLUS_OFFCUT => 1
  | .TWO_PAGES => 2

/-- The C++ enumeration `imageproc::Connectivity`. -/
inductive Connectivity where
  | CONN4
  | CONN8
  deriving DecidableEq, Repr

/-- The denoised mask `cc_img` of `cutAtWhitespaceDeskewed150`: the bounding boxes
of the components that pass the size and aspect tests, filled black.
`conn_comps` is the sequence `ConnCompEraser(input, CONN8)` enumerates. -/
def ccImg (conn_comps : List ConnComp) (input : BinaryImage) : BinaryImage :=
  conn_comps.foldl
    (fun cc_img cc =>
      if cc.width < 5 ∨ cc.height < 5 then cc_img
      else if (cc.height : ℚ) / (cc.width : ℚ) > 6 then cc_img
      else cc_img.fill cc.rect)
    (BinaryImage.white input.width input.height)

/-- `PageLayoutEstimator::cutAtWhitespaceDeskewed150`.  The component enumeration
(`ConnCompEraser`) and the span finder (`SlicedHistogram` over the columns
followed by `ContentSpanFinder::find`, given the minimal content width and the
minimal whitespace width) are not among the sources and are parameters;
`connComps img conn` is the sequence of components `ConnCompEraser(img, conn)`
enumerates. -/
def cutAtWhitespaceDeskewed150 (connComps : BinaryImage → Connectivity → List ConnComp)
    (findSpans : Int → Int → BinaryImage → List Span)
    (layout_type : LayoutType) (num_pages : Int) (input : BinaryImage)
    (left_offcut right_offcut : Bool) : Option PageLayout :=
  let width := input.width
  let height := input.height
  let cc_img := ccImg (connComps input .CONN8) input
  let spans := findSpans 2 8 cc_img
  if num_pages = 1 then
    processContentSpansSinglePage layout_type spans width height left_offcut right_offcut
  else
    match removeInsignificantEdgeSpans spans with
    | some spans1 => processContentSpansTwoPages layout_type spans1 width height
    | none => none

/-- `PageLayoutEstimator::cutAtFoldingLine`.  `VertLineFinder::findLines` is not
among the sources and is a parameter: given the input, the maximal number of
lines and whether the horizontal shadows are asked for, it returns the lines and
the shadow image (which stays the null image when it is not asked for).
`std::sort` with `CenterComparator` is an insertion sort by horizontal centre. -/
def cutAtFoldingLine (findLines : QImage → Int → Bool → List QLineF × QImage)
    (binarizeOtsu : QImage → BinaryImage) (advised : Int)
    (layout_type : LayoutType) (input : QImage) : Option PageLayout :=
  let num_pages := numPages layout_type advised
  let max_lines : Int := 8
  let found := findLines input max_lines (decide (num_pages = 1))
  let hor_shadows : QImage := if num_pages = 1 then found.2 else QImage.null
  if found.1.isEmpty then
    some PageLayout.default
  else
    let lines := found.1.insertionSort (fun a b => a.xCenter ≤ b.xCenter)
    if num_pages = 1 then
      some (selectSinglePageSplitLine binarizeOtsu lines input.size hor_shadows)
    else
      selectTwoPageSplitLine lines input.size

/-! ## The whitespace stage and the entry point -/

/-- `PageLayoutEstimator::checkForLeftOffcut`. -/
def checkForLeftOffcut (image : BinaryImage) : Bool :=
  let margin : Int := 2
  let width : Int := 3
  let rect := (QRect.ofXYWH margin 0 width image.height).adjust 0 margin 0 (-margin)
  decide (image.countBlackPixels rect ≠ 0)

/-- `PageLayoutEstimator::checkForRightOffcut`. -/
def checkForRightOffcut (image : BinaryImage) : Bool :=
  let margin : Int := 2
  let width : Int := 3
  let rect := (QRect.ofXYWH (image.width - margin - width) 0 width image.height).adjust
    0 margin 0 (-margin)
  decide (image.countBlackPixels rect ≠ 0)

/-- The routines the estimator calls that are not among the sources, or that
are built from nothing but such routines, for a fixed `pre_xform`,
`bw_threshold` and `dbg`. -/
structure Imaging where
  /-- `VertLineFinder::findLines`, as in `cutAtFoldingLine`. -/
  findLines : QImage → Int → Bool → List QLineF × QImage
  /-- `binarizeOtsu` of `imageproc/Binarize.h`. -/
  binarizeOtsu : QImage → BinaryImage
  /-- `to300DpiBinary`: binarisation and scaling to 300 dpi. -/
  to300DpiBinary : QImage → BinaryImage
  /-- `orthogonalRotation` by the pre-rotation of `pre_xform`. -/
  orthogonalRotation : BinaryImage → BinaryImage
  /-- `removeGarbageAnd2xDownscale`. -/
  removeGarbageAnd2xDownscale : BinaryImage → BinaryImage
  /-- The skew detection and horizontal shear of `cutAtWhitespace`. -/
  deskew : BinaryImage → BinaryImage
  /-- The sequence of components `ConnCompEraser` enumerates. -/
  connComps : BinaryImage → Connectivity → List ConnComp
  /-- `SlicedHistogram` over the columns followed by `ContentSpanFinder::find`. -/
  findSpans : Int → Int → BinaryImage → List Span
  /-- `layout.transformed(xform.inverted())`, for the transformation `xform` that
  `cutAtWhitespace` accumulates on the given input. -/
  transformed : QImage → PageLayout → PageLayout

/-- `PageLayoutEstimator::cutAtWhitespace`.  The off-cut checks are made on the
150 dpi image before it is deskewed, as in the source. -/
def cutAtWhitespace (env : Imaging) (advised : Int) (layout_type : LayoutType)
    (input : QImage) : Option PageLayout :=
  let img := env.removeGarbageAnd2xDownscale
    (env.orthogonalRotation (env.to300DpiBinary input))
  let left_offcut := checkForLeftOffcut img
  let right_offcut := checkForRightOffcut img
  let img := env.deskew img
  let num_pages := numPages layout_type advised
  match cutAtWhitespaceDeskewed150 env.connComps env.findSpans layout_type num_pages img
      left_offcut right_offcut with
  | some layout => some (env.transformed input layout)
  | none => none

/-- The two stages of `estimatePageLayout`. -/
inductive Stage where
  | foldingLine
  | whitespace
  deriving DecidableEq, Repr

/-- What a call of `estimatePageLayout` does: the stages it runs, in order, and
the layout it returns (`none` when a stage fails). -/
structure Estimate where
  stages : List Stage
  layout : Option PageLayout

/-- `PageLayoutEstimator::estimatePageLayout`, with the record of the stages it
calls. -/
def estimatePageLayout (env : Imaging) (advised : Int) (layout_type : LayoutType)
    (input : QImage) : Estimate :=
  if layout_type = .SINGLE_PAGE_UNCUT then
    ⟨[], some ⟨.SINGLE_PAGE_UNCUT, QLineF.null⟩⟩
  else
    match cutAtFoldingLine env.findLines env.binarizeOtsu advised layout_type input with
    | none => ⟨[.foldingLine], none⟩
    | some layout =>
      if layout.type = .SINGLE_PAGE_UNCUT then
        ⟨[.foldingLine, .whitespace], cutAtWhitespace env advised layout_type input⟩
      else
        ⟨[.foldingLine], some layout⟩

/-! ## Notions used to state the properties -/

/-- The invariant of a `PageLayout`: the split line is the null line exactly for
`SINGLE_PAGE_UNCUT`, and every other layout carries a line built by `vertLine`. -/
def PageLayout.SplitLineInvariant (l : PageLayout) : Prop :=
  (l.splitLine = QLineF.null ↔ l.type = .SINGLE_PAGE_UNCUT) ∧
  (l.type ≠ .SINGLE_PAGE_UNCUT → ∃ x : ℚ, l.splitLine = vertLine x)

/-- The two-page decision of `cutAtWhitespaceDeskewed150`:
`removeInsignificantEdgeSpans` followed by `processContentSpansTwoPages`. -/
def twoPagesDecision (layout_type : LayoutType) (spans : List Span)
    (width height : Int) : Option PageLayout :=
  match removeInsignificantEdgeSpans spans with
  | some spans1 => processContentSpansTwoPages layout_type spans1 width height
  | none => none

/-- A strictly ordered, non-overlapping list of spans: every span has
`begin < end` and ends no later than the next one begins. -/
def SpansOrdered : List Span → Prop
  | [] => True
  | [s] => s.m_begin < s.m_end
  | s :: t :: rest => s.m_begin < s.m_end ∧ s.m_end ≤ t.m_begin ∧ SpansOrdered (t :: rest)

/-- The content before gap `i`: `spans[i].end - spans[0].begin`. -/
def contentBefore (spans : List Span) (i : Nat) : Int :=
  (spanAt spans i).m_end - (spanAt spans 0).m_begin

/-- The content after gap `i`: `spans[last].end - spans[i+1].begin`. -/
def contentAfter (spans : List Span) (i : Nat) : Int :=
  (spanAt spans (spans.length - 1)).m_end - (spanAt spans (i + 1)).m_begin

/-- The balance ratio of gap `i`: `min(a, b) / max(a, b)` for the content `a`
before and `b` after the gap. -/
def balanceRatio (spans : List Span) (i : Nat) : ℚ :=
  ((min (contentBefore spans i) (contentAfter spans i) : Int) : ℚ) /
    ((max (contentBefore spans i) (contentAfter spans i) : Int) : ℚ)

/-- `best` is the best balance ratio of the gaps of `spans`: it is the ratio of
some gap and no gap has a larger one. -/
def IsBestRatio (spans : List Span) (best : ℚ) : Prop :=
  (∃ i, i + 1 < spans.length ∧ balanceRatio spans i = best) ∧
  ∀ i, i + 1 < spans.length → balanceRatio spans i ≤ best

/-- A shadow raster of 4 by 2 pixels, dark at `(0, 0)` and light elsewhere. -/
def shadowsDarkCorner : QImage :=
  ⟨4, 2, fun x y => if x = 0 ∧ y = 0 then 0 else 255⟩

/-- A binarisation by the fixed threshold 128, standing for `binarizeOtsu`. -/
def binarizeAt128 (img : QImage) : BinaryImage :=
  ⟨img.width, img.height, fun x y => decide (img.gray x y < 128)⟩

/-- The sum of the widths of a list of spans. -/
def sumWidths (spans : List Span) : Int := (spans.map Span.width).sum

/-- One removal step on a deque of at least two spans: the narrower of the two
edge spans is discarded, the back one when they are equally wide. -/
def NarrowerEdgeStep (s t : List Span) : Prop :=
  2 ≤ s.length ∧
  (((spanAt s 0).width < (spanAt s (s.length - 1)).width ∧ t = s.tail) ∨
   ((spanAt s (s.length - 1)).width ≤ (spanAt s 0).width ∧ t = s.dropLast))

/-- The horizontal mirror image of a bilevel raster. -/
def BinaryImage.mirrored (img : BinaryImage) : BinaryImage :=
  ⟨img.width, img.height, fun x y => img.black (img.width - 1 - x) y⟩

/-- The image has a black pixel `(x, y)` with `xlo ≤ x ≤ xhi` and
`ylo ≤ y ≤ yhi`. -/
def BinaryImage.HasBlackIn (img : BinaryImage) (xlo xhi ylo yhi : Int) : Prop :=
  ∃ x y : Int, 0 ≤ x ∧ x < img.width ∧ 0 ≤ y ∧ y < img.height ∧
    img.black x y = true ∧ xlo ≤ x ∧ x ≤ xhi ∧ ylo ≤ y ∧ y ≤ yhi

/-- The left margin strip of a shadow raster: its leftmost 20 columns (all of
them when it is narrower). -/
def leftStrip (hor_shadows : QImage) : QRect :=
  QRect.ofXYWH 0 0 (min 20 hor_shadows.width) hor_shadows.height

/-- The right margin strip of a shadow raster: its rightmost 20 columns (all of
them when it is narrower). -/
def rightStrip (hor_shadows : QImage) : QRect :=
  QRect.ofXYWH (hor_shadows.width - min 20 hor_shadows.width) 0
    (min 20 hor_shadows.width) hor_shadows.height

/-- An instance of the absent routines for the examples: no fold line is ever
found, every image is normalised to a white raster of 100 by 100 pixels in
which the span finder reports the span `[10, 60)`, and the layout is already in
the caller's coordinates. -/
def blankImaging : Imaging where
  findLines := fun _ _ _ => ([], QImage.null)
  binarizeOtsu := binarizeAt128
  to300DpiBinary := fun _ => BinaryImage.white 200 200
  orthogonalRotation := fun img => img
  removeGarbageAnd2xDownscale := fun _ => BinaryImage.white 100 100
  deskew := fun img => img
  connComps := fun _ _ => []
  findSpans := fun _ _ _ => [⟨10, 60⟩]
  transformed := fun _ layout => layout

/-- The order of `CenterComparator` is total. -/
instance centerLE_total : IsTotal QLineF (fun a b => a.xCenter ≤ b.xCenter) :=
  ⟨fun a b => le_total a.xCenter b.xCenter⟩

/-- The order of `CenterComparator` is transitive. -/
instance centerLE_trans : IsTrans QLineF (fun a b => a.xCenter ≤ b.xCenter) :=
  ⟨fun _ _ _ h1 h2 => le_trans h1 h2⟩

/-! ## Morphology (`imageproc/Morphology.h`, exercised by `tests/TestMorphology.cpp`) -/

/-- The C++ enumeration `BWColor`; black is the foreground. -/
inductive BWColor where
  | WHITE
  | BLACK
  deriving DecidableEq, Repr

/-- The other colour. -/
def BWColor.inverted : BWColor → BWColor
  | .WHITE => .BLACK
  | .BLACK => .WHITE

/-- Qt's `QPoint`. -/
structure QPoint where
  x : Int
  y : Int
  deriving DecidableEq

/-- `QRect::translated(dx, dy)`. -/
def QRect.translated (r : QRect) (dx dy : Int) : QRect :=
  ⟨r.x1 + dx, r.y1 + dy, r.x2 + dx, r.y2 + dy⟩

/-- `QRect::adjusted(dx1, dy1, dx2, dy2)`. -/
def QRect.adjusted (r : QRect) (dx1 dy1 dx2 dy2 : Int) : QRect :=
  ⟨r.x1 + dx1, r.y1 + dy1, r.x2 + dx2, r.y2 + dy2⟩

/-- Modelled from the spec: `makeBinaryImage` of the test utilities is not among
the sources.  The raster of the given size whose pixel `(x, y)` is black iff
entry `y * width + x` of the row-major data is not zero. -/
def makeBinaryImage (data : List Nat) (width height : Int) : BinaryImage :=
  ⟨width, height, fun x y => data.getD (y * width + x).toNat 0 != 0⟩

/-- The row-major data of a raster, 1 for black and 0 for white: what
`makeBinaryImage` is built from. -/
def BinaryImage.bits (img : BinaryImage) : List Nat :=
  (List.range img.height.toNat).flatMap fun y =>
    (List.range img.width.toNat).map fun x =>
      if img.black (x : Int) (y : Int) then 1 else 0

/-- Modelled from the spec: `BinaryImage::operator==`, equal sizes and equal
pixels. -/
def BinaryImage.SameAs (a b : BinaryImage) : Prop :=
  a.width = b.width ∧ a.height = b.height ∧
  ∀ x y : Int, 0 ≤ x → x < a.width → 0 ≤ y → y < a.height → a.black x y = b.black x y

/-- Modelled from the spec: `BinaryImage::inverted()`, the pixel-wise
complement. -/
def BinaryImage.inverted (img : BinaryImage) : BinaryImage :=
  ⟨img.width, img.height, fun x y => !img.black x y⟩

/-- The source sample at `(x, y)`: the pixel of the raster inside its canvas, the
colour of the surroundings outside of it. -/
def BinaryImage.sample (img : BinaryImage) (src_surroundings : BWColor) (x y : Int) :
    Bool :=
  if img.rect.contains x y then img.black x y else decide (src_surroundings = .BLACK)

/-- Modelled from the spec: the class `Brick` of `imageproc/Morphology.h`, which
is not among the sources.  A rectangular structuring element, kept as the
inclusive bounds of the offsets of its cells from its origin (`minX()`,
`minY()`, `maxX()`, `maxY()`). -/
structure Brick where
  minX : Int
  minY : Int
  maxX : Int
  maxY : Int
  deriving DecidableEq

/-- Modelled from the spec: the constructor `Brick(size, origin)`; the cell
`(bx, by)` of the brick, `0 ≤ bx < width`, `0 ≤ by < height`, has the offset
`(bx, by) - origin`. -/
def Brick.ofSizeOrigin (size : QSize) (origin : QPoint) : Brick :=
  ⟨-origin.x, -origin.y, size.width - 1 - origin.x, size.height - 1 - origin.y⟩

/-- Modelled from the spec: the constructor `Brick(size)`, with the origin at the
centre cell `(width / 2, height / 2)`. -/
def Brick.ofSize (size : QSize) : Brick :=
  Brick.ofSizeOrigin size ⟨Int.tdiv size.width 2, Int.tdiv size.height 2⟩

/-- Modelled from the spec: `Brick::isEmpty()`, a brick without cells. -/
def Brick.isEmpty (brick : Brick) : Bool :=
  decide (brick.minX > brick.maxX ∨ brick.minY > brick.maxY)

/-- Modelled from the spec: `Brick::flip()`, the brick reflected through its
origin. -/
def Brick.flipped (brick : Brick) : Brick :=
  ⟨-brick.maxX, -brick.maxY, -brick.minX, -brick.minY⟩

/-- The integers from `lo` to `hi`, both included. -/
def intRange (lo hi : Int) : List Int :=
  (List.range (hi - lo + 1).toNat).map fun (i : Nat) => lo + (i : Int)

/-- Dilation of an unbounded raster `f` by a brick: `(x, y)` is black iff `f` is
black at `(x, y) - d` for some offset `d` of the brick, so that a black pixel
at `s` blackens `s + d` for every offset `d` (the direction that
`test_dilate_3x1_out_of_brick_white` and `test_large_dilate` fix). -/
def planeDilate (f : Int → Int → Bool) (brick : Brick) (x y : Int) : Bool :=
  (intRange brick.minY brick.maxY).any fun dy =>
    (intRange brick.minX brick.maxX).any fun dx => f (x - dx) (y - dy)

/-- Erosion of an unbounded raster `f` by a brick: `(x, y)` is black iff `f` is
black at `(x, y) - d` for every offset `d` of the brick, so that a white pixel
at `s` whitens `s + d` for every offset `d` (the direction that
`test_erode_3x3_assymmetric_black` fixes). -/
def planeErode (f : Int → Int → Bool) (brick : Brick) (x y : Int) : Bool :=
  (intRange brick.minY brick.maxY).all fun dy =>
    (intRange brick.minX brick.maxX).all fun dx => f (x - dx) (y - dy)

/-- The part of an unbounded raster inside `dst_area`, as a raster of the size of
`dst_area`. -/
def cropPlane (f : Int → Int → Bool) (dst_area : QRect) : BinaryImage :=
  ⟨dst_area.width, dst_area.height, fun x y => f (dst_area.x1 + x) (dst_area.y1 + y)⟩

/-- Modelled from the spec: `dilateBrick(src, brick, dst_area, src_surroundings)`
of `imageproc/Morphology.h`, which is not among the sources.  The source is
continued by `src_surroundings` outside its canvas, dilated, and the part in
`dst_area` is returned; an empty brick is an error (`none`). -/
def dilateBrick (src : BinaryImage) (brick : Brick) (dst_area : QRect)
    (src_surroundings : BWColor) : Option BinaryImage :=
  if brick.isEmpty then none
  else some (cropPlane (planeDilate (src.sample src_surroundings) brick) dst_area)

/-- Modelled from the spec: `erodeBrick(src, brick, dst_area, src_surroundings)`
of `imageproc/Morphology.h`, which is not among the sources.  The source is
continued by `src_surroundings` outside its canvas, eroded, and the part in
`dst_area` is returned; an empty brick is an error (`none`). -/
def erodeBrick (src : BinaryImage) (brick : Brick) (dst_area : QRect)
    (src_surroundings : BWColor) : Option BinaryImage :=
  if brick.isEmpty then none
  else some (cropPlane (planeErode (src.sample src_surroundings) brick) dst_area)

/-- Modelled from the spec: `openBrick(src, brick, dst_area, src_surroundings)`
of `imageproc/Morphology.h`, which is not among the sources: an erosion by the
brick followed by the dilation that puts the brick back where it fitted (by
the flipped brick, in the direction of `planeDilate`), on the source continued
by `src_surroundings`. -/
def openBrick (src : BinaryImage) (brick : Brick) (dst_area : QRect)
    (src_surroundings : BWColor) : Option BinaryImage :=
  if brick.isEmpty then none
  else some (cropPlane
    (planeDilate (planeErode (src.sample src_surroundings) brick) brick.flipped) dst_area)

/-- Modelled from the spec: `closeBrick(src, brick, dst_area, src_surroundings)`
of `imageproc/Morphology.h`, which is not among the sources: a dilation by the
brick followed by the erosion by the flipped brick, on the source continued by
`src_surroundings`. -/
def closeBrick (src : BinaryImage) (brick : Brick) (dst_area : QRect)
    (src_surroundings : BWColor) : Option BinaryImage :=
  if brick.isEmpty then none
  else some (cropPlane
    (planeErode (planeDilate (src.sample src_surroundings) brick) brick.flipped) dst_area)

/-- An input raster of the dilate tests of `TestMorphology.cpp`, first used by
`test_dilate_1x1`. -/
def testDilateInput : BinaryImage :=
  makeBinaryImage
    [0, 0, 0, 0, 0, 0, 0, 0, 1,
     0, 0, 0, 0, 0, 0, 0, 0, 0,
     0, 1, 0, 0, 0, 0, 0, 0, 0,
     0, 0, 0, 0, 0, 0, 0, 0, 0,
     0, 0, 1, 1, 0, 0, 0, 0, 0,
     0, 0, 0, 0, 0, 0, 0, 1, 0,
     0, 0, 0, 1, 0, 0, 0, 0, 0,
     0, 0, 0, 0, 0, 0, 0, 0, 0,
     0, 0, 0, 0, 0, 0, 0, 0, 0] 9 9

/-- An input raster of the dilate tests of `TestMorphology.cpp`, first used by
`test_dilate_5x5_white`. -/
def testDilateInput2 : BinaryImage :=
  makeBinaryImage
    [0, 0, 0, 0, 0, 0, 0, 0, 1,
     0, 0, 0, 0, 0, 0, 0, 0, 0,
     0, 1, 0, 0, 0, 0, 0, 0, 0,
     0, 0, 0, 0, 0, 0, 0, 0, 0,
     0, 0, 0, 0, 0, 0, 0, 0, 0,
     0, 0, 0, 0, 0, 0, 0, 0, 0,
     0, 0, 0, 0, 0, 0, 0, 0, 0,
     0, 0, 0, 0, 0, 0, 0, 1, 0,
     0, 0, 0, 0, 0, 0, 0, 0, 0] 9 9

/-- An input raster of the dilate tests of `TestMorphology.cpp`, first used by
`test_dilate_5x5_narrowing_white`. -/
def testDilateInput3 : BinaryImage :=
  makeBinaryImage
    [0, 0, 0, 0, 0, 0, 0, 0, 0, 0, 1,
     0, 0, 0, 0, 0, 0, 0, 0, 0, 0, 0,
     0, 0, 0, 1, 0, 0, 0, 0, 0, 0, 0,
     0, 0, 0, 0, 0, 0, 0, 0, 0, 0, 0,
     0, 0, 0, 0, 0, 0, 0, 0, 0, 0, 0,
     0, 0, 0, 0, 0, 0, 0, 0, 0, 0, 0,
     0, 0, 0, 0, 0, 0, 0, 0, 0, 0, 0,
     0, 0, 0, 0, 0, 0, 0, 0, 0, 1, 0,
     0, 0, 0, 0, 0, 0, 0, 0, 0, 0, 0] 11 9

/-- An input raster of the erode tests of `TestMorphology.cpp`, first used by
`test_erode_1x1`. -/
def testErodeInput : BinaryImage :=
  makeBinaryImage
    [1, 1, 1, 1, 1, 1, 1, 1, 1,
     1, 1, 1, 1, 1, 1, 1, 1, 1,
     1, 1, 1, 1, 0, 1, 1, 1, 1,
     1, 1, 1, 1, 1, 1, 1, 1, 1,
     1, 1, 1, 1, 1, 1, 1, 1, 0,
     1, 1, 1, 1, 1, 1, 1, 1, 1,
     1, 1, 1, 1, 1, 1, 1, 1, 1,
     1, 1, 1, 1, 0, 0, 1, 1, 1,
     0, 1, 1, 1, 1, 1, 1, 1, 1] 9 9

/-- An input raster of the open tests of `TestMorphology.cpp`, first used by
`test_open_2x2_white`. -/
def testOpenInput : BinaryImage :=
  makeBinaryImage
    [0, 0, 0, 0, 0, 0, 0, 0, 1,
     0, 0, 0, 0, 0, 0, 0, 0, 1,
     0, 1, 0, 0, 0, 0, 0, 0, 0,
     0, 0, 0, 0, 0, 1, 1, 0, 0,
     0, 0, 0, 0, 0, 1, 1, 0, 0,
     0, 0, 1, 0, 0, 0, 0, 0, 0,
     0, 0, 0, 1, 0, 0, 0, 0, 0,
     1, 1, 0, 0, 0, 0, 0, 0, 0,
     1, 1, 0, 0, 0, 0, 0, 0, 1] 9 9

/-- An input raster of the close tests of `TestMorphology.cpp`, first used by
`test_close_2x2_white`. -/
def testCloseInput : BinaryImage :=
  makeBinaryImage
    [1, 1, 1, 1, 1, 1, 1, 1, 1,
     1, 1, 1, 1, 1, 1, 1, 1, 1,
     1, 0, 0, 0, 1, 1, 1, 1, 1,
     1, 0, 0, 0, 1, 1, 1, 0, 1,
     1, 1, 1, 1, 1, 1, 1, 1, 1,
     0, 0, 0, 0, 1, 1, 1, 1, 1,
     0, 1, 0, 0, 1, 0, 0, 1, 1,
     0, 1, 0, 0, 1, 1, 1, 1, 1,
     0, 0, 0, 0, 1, 1, 1, 1, 0] 9 9

/-- Two results of a morphological operation agree: both fail, or both return
rasters that are equal in the sense of `operator==`. -/
def SameResult : Option BinaryImage → Option BinaryImage → Prop
  | none, none => True
  | some a, some b => a.SameAs b
  | _, _ => False

/-! ## The debug sink -/

/-- An image handed to the debug sink: a grayscale image, a bilevel raster, or a
bilevel raster with translucent rectangles painted over it (the picture that
`visualizeSpans` draws). -/
inductive DebugImage where
  | gray (img : QImage)
  | binary (img : BinaryImage)
  | painted (img : BinaryImage) (rects : List QRect)

/-- Modelled from the spec: the class `DebugImages` is not among the sources.  The
sink is the sequence of labelled images added to it so far. -/
structure DebugImages where
  entries : List (DebugImage × String)

/-- Modelled from the spec: `DebugImages::add(image, label)`. -/
def DebugImages.add (dbg : DebugImages) (image : DebugImage) (label : String) :
    DebugImages :=
  ⟨dbg.entries ++ [(image, label)]⟩

/-- The guarded call `if (dbg) { dbg->add(image, label); }`; the null pointer is
`none`. -/
def dbgAdd (dbg : Option DebugImages) (image : DebugImage) (label : String) :
    Option DebugImages :=
  match dbg with
  | some sink => some (sink.add image label)
  | none => none

/-- `PageLayoutEstimator::visualizeSpans`: the image with a translucent rectangle
of full height over every span, added to the sink under the label. -/
def visualizeSpans (dbg : DebugImages) (spans : List Span) (image : BinaryImage)
    (label : String) : DebugImages :=
  let height := image.height
  dbg.add (.painted image (spans.map fun span => QRect.ofXYWH span.m_begin 0 span.width height))
    label

/-- The guarded call `if (dbg) { visualizeSpans(*dbg, spans, image, label); }`. -/
def dbgVisualizeSpans (dbg : Option DebugImages) (spans : List Span) (image : BinaryImage)
    (label : String) : Option DebugImages :=
  match dbg with
  | some sink => some (visualizeSpans sink spans image label)
  | none => none

/-- `selectSinglePageSplitLine` with its `dbg` argument: the layout returned and
the sink as the call leaves it. -/
def selectSinglePageSplitLineDbg (binarizeOtsu : QImage → BinaryImage)
    (ltr_lines : List QLineF) (image_size : QSize) (hor_shadows : QImage)
    (dbg : Option DebugImages) : PageLayout × Option DebugImages :=
  let dbg1 := dbgAdd dbg (.gray hor_shadows) ("hor_shadows")
  if ltr_lines.isEmpty then
    (PageLayout.default, dbg1)
  else
    let left_area : QRect := (hor_shadows.rect).setWidth (min 20 hor_shadows.width)
    let right_area : QRect := left_area.moveRight (hor_shadows.rect).right
    let hor_shadows_bin := binarizeOtsu hor_shadows
    let dbg2 := dbgAdd dbg1 (.binary hor_shadows_bin) ("hor_shadows_bin")
    let left_sum := hor_shadows_bin.countBlackPixels left_area
    let right_sum := hor_shadows_bin.countBlackPixels right_area
    if left_sum = 0 ∧ right_sum = 0 then
      (PageLayout.default, dbg2)
    else if ltr_lines.length = 1 then
      let line := ltr_lines.getD 0 QLineF.null
      let x_center := line.xCenter
      if x_center < (1 / 2 : ℚ) * (image_size.width : ℚ) then
        (⟨.RIGHT_PAGE_PLUS_OFFCUT, line⟩, dbg2)
      else
        (⟨.LEFT_PAGE_PLUS_OFFCUT, line⟩, dbg2)
    else if left_sum > right_sum then
      (⟨.RIGHT_PAGE_PLUS_OFFCUT, ltr_lines.getD 0 QLineF.null⟩, dbg2)
    else
      (⟨.LEFT_PAGE_PLUS_OFFCUT, ltr_lines.getD (ltr_lines.length - 1) QLineF.null⟩, dbg2)

/-- `PageLayoutEstimator::cutAtFoldingLine` with its `dbg` argument.
`VertLineFinder::findLines` receives the sink as well; it is not among the
sources, so it is a parameter that returns its result and the sink as it leaves
it. -/
def cutAtFoldingLineDbg
    (findLines : QImage → Int → Option DebugImages → Bool →
      (List QLineF × QImage) × Option DebugImages)
    (binarizeOtsu : QImage → BinaryImage) (advised : Int)
    (layout_type : LayoutType) (input : QImage) (dbg : Option DebugImages) :
    Option PageLayout × Option DebugImages :=
  let num_pages := numPages layout_type advised
  let max_lines : Int := 8
  let call := findLines input max_lines dbg (decide (num_pages = 1))
  let found := call.1
  let dbg1 := call.2
  let hor_shadows : QImage := if num_pages = 1 then found.2 else QImage.null
  if found.1.isEmpty then
    (some PageLayout.default, dbg1)
  else
    let lines := found.1.insertionSort (fun a b => a.xCenter ≤ b.xCenter)
    if num_pages = 1 then
      let r := selectSinglePageSplitLineDbg binarizeOtsu lines input.size hor_shadows dbg1
      (some r.1, r.2)
    else
      (selectTwoPageSplitLine lines input.size, dbg1)

/-- `PageLayoutEstimator::cutAtWhitespaceDeskewed150` with its `dbg` argument: the
layout returned and the sink as the call leaves it. -/
def cutAtWhitespaceDeskewed150Dbg
    (connComps : BinaryImage → Connectivity → List ConnComp)
    (findSpans : Int → Int → BinaryImage → List Span)
    (layout_type : LayoutType) (num_pages : Int) (input : BinaryImage)
    (left_offcut right_offcut : Bool) (dbg : Option DebugImages) :
    Option PageLayout × Option DebugImages :=
  let width := input.width
  let height := input.height
  let cc_img := ccImg (connComps input .CONN8) input
  let dbg1 := dbgAdd dbg (.binary cc_img) ("cc_img")
  let spans := findSpans 2 8 cc_img
  let dbg2 := dbgVisualizeSpans dbg1 spans input ("spans")
  if num_pages = 1 then
    (processContentSpansSinglePage layout_type spans width height left_offcut right_offcut,
      dbg2)
  else
    match removeInsignificantEdgeSpans spans with
    | some spans1 =>
      (processContentSpansTwoPages layout_type spans1 width height,
        dbgVisualizeSpans dbg2 spans1 input ("spans_refined"))
    | none => (none, dbg2)

/-- A line finder for the examples: it reports the vertical line at `x = 30` and
the input as the shadow image, and adds the input to the sink. -/
def exampleFindLines (input : QImage) (_max_lines : Int) (dbg : Option DebugImages)
    (_want_shadows : Bool) : (List QLineF × QImage) × Option DebugImages :=
  (([vertLine 30], input), dbgAdd dbg (.gray input) ("vert_lines"))

theorem vertLine_ne_null (x : ℚ) : vertLine x ≠ QLineF.null := by
  intro h
  have h2 : (vertLine x).y2 = QLineF.null.y2 := by rw [h]
  simp [vertLine, QLineF.null] at h2

theorem splitLineInvariant_vertLine (t : PageLayoutType) (x : ℚ)
    (ht : t ≠ .SINGLE_PAGE_UNCUT) :
    PageLayout.SplitLineInvariant ⟨t, vertLine x⟩ := by
  refine ⟨⟨fun h => absurd h (vertLine_ne_null x), fun h => absurd h ht⟩, fun _ => ⟨x, rfl⟩⟩

theorem splitLineInvariant_uncut :
    PageLayout.SplitLineInvariant PageLayout.singlePageUncut := by
  refine ⟨⟨fun _ => rfl, fun _ => rfl⟩, fun h => absurd rfl h⟩

theorem splitLineInvariant_noOffcutLayout (spans : List Span) (width : Int) :
    PageLayout.SplitLineInvariant (noOffcutLayout spans width) := by
  unfold noOffcutLayout
  split_ifs
  · exact splitLineInvariant_uncut
  · exact splitLineInvariant_vertLine _ _ (by decide)
  · exact splitLineInvariant_vertLine _ _ (by decide)

theorem splitLineInvariant_leftOffcutOrNone (layout_type : LayoutType)
    (spans : List Span) (width : Int) (left_offcut right_offcut : Bool) :
    PageLayout.SplitLineInvariant
      (leftOffcutOrNone layout_type spans width left_offcut right_offcut) := by
  unfold leftOffcutOrNone
  split_ifs
  · cases leftOffcutX layout_type spans width with
    | none => exact splitLineInvariant_noOffcutLayout spans width
    | some x => exact splitLineInvariant_vertLine _ _ (by decide)
  · exact splitLineInvariant_noOffcutLayout spans width

theorem processTwoPagesWithSingleSpan_eq (span : Span) (width : Int) :
    ∃ x, processTwoPagesWithSingleSpan span width = ⟨.TWO_PAGES, vertLine x⟩ :=
  ⟨_, rfl⟩

theorem processContentSpansTwoPages_eq (layout_type : LayoutType) (spans : List Span)
    (width height : Int)
    (ht : layout_type = .AUTO_DETECT ∨ layout_type = .TWO_PAGES) :
    ∃ x, processContentSpansTwoPages layout_type spans width height
      = some ⟨.TWO_PAGES, vertLine x⟩ := by
  unfold processContentSpansTwoPages
  rw [if_neg (not_not.mpr ht)]
  split_ifs
  · exact ⟨_, rfl⟩
  · exact ⟨_, rfl⟩
  · dsimp only
    split_ifs
    · exact ⟨_, rfl⟩
    · exact ⟨_, rfl⟩

/-- C1: for every span list, width, height, pair of off-cut flags and admissible
layout type, `processContentSpansSinglePage` and `processContentSpansTwoPages`
return a layout whose split line is the null line if and only if its type is
`SINGLE_PAGE_UNCUT`, and whose split line is otherwise `vertLine x` for some
`x`, the segment from `(x, 0)` to `(x, 1)`. -/
theorem processContentSpans_splitLineInvariant (layout_type : LayoutType)
    (spans : List Span) (width height : Int) (left_offcut right_offcut : Bool) :
    ((layout_type = .AUTO_DETECT ∨ layout_type = .LEFT_PAGE_PLUS_OFFCUT
        ∨ layout_type = .RIGHT_PAGE_PLUS_OFFCUT) →
      ∃ l, processContentSpansSinglePage layout_type spans width height
          left_offcut right_offcut = some l ∧ l.SplitLineInvariant) ∧
    ((layout_type = .AUTO_DETECT ∨ layout_type = .TWO_PAGES) →
      ∃ l, processContentSpansTwoPages layout_type spans width height = some l
        ∧ l.SplitLineInvariant) := by
  constructor
  · intro ht
    unfold processContentSpansSinglePage
    rw [if_neg (not_not.mpr ht)]
    split_ifs
    · cases rightOffcutX layout_type spans width with
      | none => exact ⟨_, rfl, splitLineInvariant_leftOffcutOrNone _ _ _ _ _⟩
      | some x => exact ⟨_, rfl, splitLineInvariant_vertLine _ _ (by decide)⟩
    · exact ⟨_, rfl, splitLineInvariant_leftOffcutOrNone _ _ _ _ _⟩
  · intro ht
    obtain ⟨x, hx⟩ := processContentSpansTwoPages_eq layout_type spans width height ht
    exact ⟨_, hx, splitLineInvariant_vertLine _ _ (by decide)⟩

/-- C1, at an input: automatic detection on the spans `[10, 60)` and `[70, 90)`
of a raster 100 pixels wide, off-cut evidence on the left only. -/
theorem processContentSpans_splitLineInvariant_witness :
    (∃ l, processContentSpansSinglePage .AUTO_DETECT [⟨10, 60⟩, ⟨70, 90⟩] 100 100
        true false = some l ∧ l.SplitLineInvariant) ∧
    (∃ l, processContentSpansTwoPages .AUTO_DETECT [⟨10, 60⟩, ⟨70, 90⟩] 100 100 = some l
        ∧ l.SplitLineInvariant) :=
  ⟨(processContentSpans_splitLineInvariant .AUTO_DETECT [⟨10, 60⟩, ⟨70, 90⟩] 100 100
      true false).1 (Or.inl rfl),
   (processContentSpans_splitLineInvariant .AUTO_DETECT [⟨10, 60⟩, ⟨70, 90⟩] 100 100
      true false).2 (Or.inl rfl)⟩

theorem removeLoop_some (fuel : Nat) : ∀ (may_be_removed : Int) (spans : List Span),
    spans ≠ [] → spans.length ≤ fuel →
    ∃ r, removeLoop fuel may_be_removed spans = some r := by
  induction fuel with
  | zero =>
    intro _ spans hne hlen
    cases spans with
    | nil => exact absurd rfl hne
    | cons a t => simp at hlen
  | succ fuel ih =>
    intro mbr spans hne hlen
    unfold removeLoop
    dsimp only
    split_ifs with h1 h2 h3 h4 h5 h6
    · exact ⟨_, rfl⟩
    · exact ⟨_, rfl⟩
    · exact ⟨_, rfl⟩
    · apply ih
      · intro h; apply h4; simp [h]
      · simp only [List.length_tail]; omega
    · exact ⟨_, rfl⟩
    · exact ⟨_, rfl⟩
    · apply ih
      · intro h; apply h6; simp [h]
      · simp only [List.length_dropLast]; omega

theorem removeInsignificantEdgeSpans_some (spans : List Span) :
    ∃ r, removeInsignificantEdgeSpans spans = some r := by
  unfold removeInsignificantEdgeSpans
  split_ifs with h
  · exact ⟨_, rfl⟩
  · exact removeLoop_some _ _ _ (by intro h2; apply h; simp [h2]) le_rfl

/-- C2, as amended: for every layout type other than `AUTO_DETECT` and
`SINGLE_PAGE_UNCUT`, every input raster, pair of off-cut flags, component
enumeration and span finder, with `num_pages = numPages layout_type _`, the
function `cutAtWhitespaceDeskewed150` returns a layout, and its type is the
requested one. -/
theorem cutAtWhitespaceDeskewed150_forced_type
    (connComps : BinaryImage → Connectivity → List ConnComp)
    (findSpans : Int → Int → BinaryImage → List Span)
    (layout_type : LayoutType) (advised : Int) (input : BinaryImage)
    (left_offcut right_offcut : Bool)
    (hauto : layout_type ≠ .AUTO_DETECT) (huncut : layout_type ≠ .SINGLE_PAGE_UNCUT) :
    ∃ l, cutAtWhitespaceDeskewed150 connComps findSpans layout_type
        (numPages layout_type advised) input left_offcut right_offcut = some l ∧
      some l.type = layout_type.toPageLayoutType := by
  cases layout_type with
  | AUTO_DETECT => exact absurd rfl hauto
  | SINGLE_PAGE_UNCUT => exact absurd rfl huncut
  | LEFT_PAGE_PLUS_OFFCUT =>
    simp only [cutAtWhitespaceDeskewed150, numPages, processContentSpansSinglePage,
      leftOffcutOrNone, leftOffcutX]
    simp
    split_ifs <;> simp [LayoutType.toPageLayoutType]
  | RIGHT_PAGE_PLUS_OFFCUT =>
    simp only [cutAtWhitespaceDeskewed150, numPages, processContentSpansSinglePage,
      rightOffcutX]
    simp
    split_ifs <;> simp [LayoutType.toPageLayoutType]
  | TWO_PAGES =>
    obtain ⟨r, hr⟩ := removeInsignificantEdgeSpans_some
      (findSpans 2 8 (ccImg (connComps input .CONN8) input))
    obtain ⟨x, hx⟩ := processContentSpansTwoPages_eq .TWO_PAGES r input.width input.height
      (Or.inr rfl)
    refine ⟨⟨.TWO_PAGES, vertLine x⟩, ?_, ?_⟩
    · simp only [cutAtWhitespaceDeskewed150, numPages]
      rw [if_neg (by decide), hr]
      exact hx
    · rfl

/-- C2, as amended, at an input: a forced `LEFT_PAGE_PLUS_OFFCUT` on a white
raster 100 pixels wide for which the span finder reports the span `[10, 60)`. -/
theorem cutAtWhitespaceDeskewed150_forced_type_witness :
    ∃ l, cutAtWhitespaceDeskewed150 (fun _ _ => []) (fun _ _ _ => [⟨10, 60⟩])
        .LEFT_PAGE_PLUS_OFFCUT (numPages .LEFT_PAGE_PLUS_OFFCUT 2)
        (BinaryImage.white 100 100) false false = some l ∧
      some l.type = LayoutType.toPageLayoutType .LEFT_PAGE_PLUS_OFFCUT :=
  cutAtWhitespaceDeskewed150_forced_type (fun _ _ => []) (fun _ _ _ => [⟨10, 60⟩])
    .LEFT_PAGE_PLUS_OFFCUT 2 (BinaryImage.white 100 100) false false
    (by decide) (by decide)

/-- C2 fails for `SINGLE_PAGE_UNCUT`: with `num_pages = numPages SINGLE_PAGE_UNCUT _
= 1` the call reaches `processContentSpansSinglePage`, whose `assert` rejects the
type, so no layout of type `SINGLE_PAGE_UNCUT` is returned; and the code behind
the `assert` answers `RIGHT_PAGE_PLUS_OFFCUT` for the span `[10, 60)` of a
raster 100 pixels wide. -/
theorem cutAtWhitespaceDeskewed150_single_page_uncut_counterexample :
    (¬ ∃ l, cutAtWhitespaceDeskewed150 (fun _ _ => []) (fun _ _ _ => [⟨10, 60⟩])
        .SINGLE_PAGE_UNCUT (numPages .SINGLE_PAGE_UNCUT 2)
        (BinaryImage.white 100 100) false false = some l ∧
      some l.type = LayoutType.toPageLayoutType .SINGLE_PAGE_UNCUT) ∧
    (leftOffcutOrNone .SINGLE_PAGE_UNCUT [⟨10, 60⟩] 100 false false).type
      = .RIGHT_PAGE_PLUS_OFFCUT := by
  constructor
  · rintro ⟨l, hl, -⟩
    simp [cutAtWhitespaceDeskewed150, numPages, processContentSpansSinglePage] at hl
  · simp [leftOffcutOrNone, noOffcutLayout, spanAt, PageLayout.rightPagePlusOffcut]

/-- C3 fails on the code: with the forced type `LEFT_PAGE_PLUS_OFFCUT`, one
candidate line at `x = 1` in an image 4 pixels wide and a shadow raster with a
black pixel in its margin strips, `cutAtFoldingLine` finds a folding line and
returns a layout of type `RIGHT_PAGE_PLUS_OFFCUT`. -/
theorem cutAtFoldingLine_forced_left_returns_right :
    cutAtFoldingLine (fun _ _ _ => ([⟨1, 0, 1, 2⟩], shadowsDarkCorner)) binarizeAt128 2
        .LEFT_PAGE_PLUS_OFFCUT ⟨4, 2, fun _ _ => 255⟩
      = some ⟨.RIGHT_PAGE_PLUS_OFFCUT, ⟨1, 0, 1, 2⟩⟩ ∧
    (⟨.RIGHT_PAGE_PLUS_OFFCUT, ⟨1, 0, 1, 2⟩⟩ : PageLayout) ≠ PageLayout.default ∧
    some PageLayoutType.RIGHT_PAGE_PLUS_OFFCUT
      ≠ LayoutType.toPageLayoutType .LEFT_PAGE_PLUS_OFFCUT := by
  refine ⟨?_, by decide, by decide⟩
  simp [cutAtFoldingLine, numPages, selectSinglePageSplitLine, QImage.size,
    QLineF.xCenter, shadowsDarkCorner, binarizeAt128, BinaryImage.countBlackPixels,
    QImage.rect, QRect.ofXYWH, QRect.setWidth, QRect.moveRight, QRect.right,
    QRect.contains, List.range_succ]
  norm_num

/-- C7 fails on the code: for the single span `[0, 400)` of a raster 1000 pixels
wide the two-page decision does not split at `x = 415`. -/
theorem twoPagesDecision_left_span_counterexample :
    twoPagesDecision .TWO_PAGES [⟨0, 400⟩] 1000 1000
      ≠ some ⟨.TWO_PAGES, vertLine 415⟩ := by
  simp [twoPagesDecision, removeInsignificantEdgeSpans, removeLoop,
    processContentSpansTwoPages, processTwoPagesWithSingleSpan, spanAt, Span.center,
    Span.width, vertLine]
  norm_num [abs_of_nonneg]

/-- C7, as amended: for the single span `[0, 400)` of a raster 1000 pixels wide,
in two-page mode (forced or detected), the two-page decision
(`removeInsignificantEdgeSpans` followed by `processContentSpansTwoPages`) keeps
the span and splits at the horizontal centre of the image, `x = 500`: the
distance from the centre to the span is `100 > 15`. -/
theorem twoPagesDecision_left_span (height : Int) :
    removeInsignificantEdgeSpans [⟨0, 400⟩] = some [⟨0, 400⟩] ∧
    twoPagesDecision .TWO_PAGES [⟨0, 400⟩] 1000 height
      = some ⟨.TWO_PAGES, vertLine 500⟩ ∧
    twoPagesDecision .AUTO_DETECT [⟨0, 400⟩] 1000 height
      = some ⟨.TWO_PAGES, vertLine 500⟩ := by
  refine ⟨by decide, ?_, ?_⟩ <;>
  · simp [twoPagesDecision, removeInsignificantEdgeSpans, removeLoop,
      processContentSpansTwoPages, processTwoPagesWithSingleSpan, spanAt, Span.center,
      Span.width, vertLine]
    norm_num [abs_of_nonneg]

theorem lt_tdiv_double (w : Int) (hw : 0 < w) : Int.tdiv (w + w) 15 < w := by
  have h : Int.tdiv (w + w) 15 = (w + w) / 15 :=
    Int.tdiv_eq_ediv (by omega) (by omega)
  rw [h]
  omega

/-- C8: for every pair of ordered, non-overlapping spans of equal positive
width, in auto or two-pages mode, `removeInsignificantEdgeSpans` removes neither
span and `processContentSpansTwoPages` returns `TWO_PAGES` split at the midpoint
of the gap between them, `(spans[0].end + spans[1].begin) / 2`. -/
theorem twoPages_equal_spans (layout_type : LayoutType) (s0 s1 : Span)
    (width height : Int)
    (ht : layout_type = .AUTO_DETECT ∨ layout_type = .TWO_PAGES)
    (hpos : 0 < s0.width) (heq : s0.width = s1.width)
    (_hord : s0.m_end ≤ s1.m_begin) :
    removeInsignificantEdgeSpans [s0, s1] = some [s0, s1] ∧
    processContentSpansTwoPages layout_type [s0, s1] width height
      = some ⟨.TWO_PAGES, vertLine (((s0.m_end : ℚ) + (s1.m_begin : ℚ)) / 2)⟩ := by
  constructor
  · have h1 : ¬ (s0.width < s1.width) := by omega
    have h2 : s1.width > Int.tdiv (s1.width + s0.width) 15 := by
      rw [← heq]; exact lt_tdiv_double _ hpos
    simp [removeInsignificantEdgeSpans, removeLoop, totalWidth, spanAt, h1, h2,
      List.range_succ]
  · have hw : s1.m_end - s1.m_begin = s0.m_end - s0.m_begin := by
      simp only [Span.width] at heq; omega
    have hne : s0.m_end - s0.m_begin ≠ 0 := by
      simp only [Span.width] at hpos; omega
    have hneq : ((s0.m_end : ℚ) - (s0.m_begin : ℚ)) ≠ 0 := by
      intro h; apply hne; exact_mod_cast h
    have hgaps : twoPagesGaps [s0, s1]
        = [(s0.m_end - s0.m_begin, s0.m_end - s0.m_begin)] := by
      simp [twoPagesGaps, spanAt, List.range_succ, hw]
    have hbest : bestGap [(s0.m_end - s0.m_begin, s0.m_end - s0.m_begin)] = (0, 1) := by
      simp [bestGap, bestGapStep, gapRatio, Ratio.div, hne, hneq, List.range_succ]
    unfold processContentSpansTwoPages
    rw [if_neg (not_not.mpr ht)]
    simp only [hgaps, hbest]
    norm_num [widestLeft, widestRight, Span.between, Span.center, spanAt]
    congr 1
    ring

/-- C8, at an input: two spans of width 100, `[100, 200)` and `[700, 800)`, in a
raster 1000 pixels wide. -/
theorem twoPages_equal_spans_witness :
    removeInsignificantEdgeSpans [⟨100, 200⟩, ⟨700, 800⟩]
      = some [⟨100, 200⟩, ⟨700, 800⟩] ∧
    processContentSpansTwoPages .TWO_PAGES [⟨100, 200⟩, ⟨700, 800⟩] 1000 1000
      = some ⟨.TWO_PAGES, vertLine ((((200 : Int) : ℚ) + ((700 : Int) : ℚ)) / 2)⟩ :=
  twoPages_equal_spans .TWO_PAGES ⟨100, 200⟩ ⟨700, 800⟩ 1000 1000 (Or.inr rfl)
    (by decide) (by decide) (by decide)

theorem spanAt_cons_succ (s : Span) (t : List Span) (i : Nat) :
    spanAt (s :: t) (i + 1) = spanAt t i := by
  simp [spanAt]

theorem spansOrdered_tail (s : Span) (t : List Span) (h : SpansOrdered (s :: t)) :
    SpansOrdered t := by
  cases t with
  | nil => trivial
  | cons a r => exact h.2.2

theorem spansOrdered_begin_lt_end (spans : List Span) (h : SpansOrdered spans) :
    ∀ i, i < spans.length → (spanAt spans i).m_begin < (spanAt spans i).m_end := by
  induction spans with
  | nil => intro i hi; simp at hi
  | cons s t ih =>
    intro i hi
    cases i with
    | zero =>
      cases t with
      | nil => exact h
      | cons a r => exact h.1
    | succ i =>
      rw [spanAt_cons_succ]
      exact ih (spansOrdered_tail s t h) i (by simpa using hi)

theorem spansOrdered_end_le_next (spans : List Span) (h : SpansOrdered spans) :
    ∀ i, i + 1 < spans.length →
      (spanAt spans i).m_end ≤ (spanAt spans (i + 1)).m_begin := by
  induction spans with
  | nil => intro i hi; simp at hi
  | cons s t ih =>
    intro i hi
    cases i with
    | zero =>
      cases t with
      | nil => simp at hi
      | cons a r => exact h.2.1
    | succ i =>
      rw [spanAt_cons_succ, spanAt_cons_succ]
      exact ih (spansOrdered_tail s t h) i (by simpa using hi)

theorem spansOrdered_begin_mono (spans : List Span) (h : SpansOrdered spans)
    (i j : Nat) (hij : i ≤ j) (hj : j < spans.length) :
    (spanAt spans i).m_begin ≤ (spanAt spans j).m_begin := by
  induction j, hij using Nat.le_induction with
  | base => exact le_rfl
  | succ k hik ih =>
    have h1 := ih (by omega)
    have h2 := spansOrdered_begin_lt_end spans h k (by omega)
    have h3 := spansOrdered_end_le_next spans h k hj
    omega

theorem spansOrdered_end_mono (spans : List Span) (h : SpansOrdered spans)
    (i j : Nat) (hij : i ≤ j) (hj : j < spans.length) :
    (spanAt spans i).m_end ≤ (spanAt spans j).m_end := by
  induction j, hij using Nat.le_induction with
  | base => exact le_rfl
  | succ k hik ih =>
    have h1 := ih (by omega)
    have h2 := spansOrdered_begin_lt_end spans h (k + 1) hj
    have h3 := spansOrdered_end_le_next spans h k hj
    omega

theorem contentBefore_pos (spans : List Span) (h : SpansOrdered spans) (i : Nat)
    (hi : i + 1 < spans.length) : 0 < contentBefore spans i := by
  have h1 := spansOrdered_begin_mono spans h 0 i (Nat.zero_le _) (by omega)
  have h2 := spansOrdered_begin_lt_end spans h i (by omega)
  unfold contentBefore
  omega

theorem contentAfter_pos (spans : List Span) (h : SpansOrdered spans) (i : Nat)
    (hi : i + 1 < spans.length) : 0 < contentAfter spans i := by
  have h1 := spansOrdered_end_mono spans h (i + 1) (spans.length - 1) (by omega) (by omega)
  have h2 := spansOrdered_begin_lt_end spans h (i + 1) hi
  unfold contentAfter
  omega

theorem balanceRatio_pos (spans : List Span) (h : SpansOrdered spans) (i : Nat)
    (hi : i + 1 < spans.length) : 0 < balanceRatio spans i := by
  have ha := contentBefore_pos spans h i hi
  have hb := contentAfter_pos spans h i hi
  unfold balanceRatio
  apply div_pos
  · exact_mod_cast lt_min ha hb
  · exact_mod_cast lt_max_of_lt_left ha

theorem twoPagesGaps_length (spans : List Span) :
    (twoPagesGaps spans).length = spans.length - 1 := by
  simp [twoPagesGaps]

theorem twoPagesGaps_getD (spans : List Span) (i : Nat) (hi : i + 1 < spans.length) :
    (twoPagesGaps spans).getD i (0, 0) = (contentBefore spans i, contentAfter spans i) := by
  have hi2 : i < spans.length - 1 := by omega
  simp [twoPagesGaps, List.getD_eq_getElem?_getD, List.getElem?_map, List.getElem?_range hi2,
    contentBefore, contentAfter]

theorem gapRatio_ordered (spans : List Span) (h : SpansOrdered spans) (i : Nat)
    (hi : i + 1 < spans.length) :
    gapRatio (twoPagesGaps spans) i = .finite (balanceRatio spans i) := by
  have ha := contentBefore_pos spans h i hi
  have hmax : max (contentBefore spans i) (contentAfter spans i) ≠ 0 :=
    ne_of_gt (lt_max_of_lt_left ha)
  simp only [gapRatio, twoPagesGaps_getD spans i hi, Ratio.div, if_neg hmax, balanceRatio]

/-- The state of the best-gap loop after the first `k` gaps, for gaps with
finite positive ratios `q`: `best_ratio` bounds the ratios seen, and from the
first gap on it is the ratio of `best_gap`. -/
theorem bestGap_fold (gaps : List (Int × Int)) (q : Nat → ℚ) (n : Nat)
    (hq : ∀ i, i < n → gapRatio gaps i = .finite (q i)) (hpos : ∀ i, i < n → 0 < q i) :
    ∀ k, k ≤ n →
      (∀ i, i < k → q i ≤ ((List.range k).foldl (bestGapStep gaps) (0, 0)).2) ∧
      (0 ≤ ((List.range k).foldl (bestGapStep gaps) (0, 0)).2) ∧
      (k = 0 → ((List.range k).foldl (bestGapStep gaps) (0, 0)).2 = 0) ∧
      (0 < k → ((List.range k).foldl (bestGapStep gaps) (0, 0)).1 < k ∧
        q ((List.range k).foldl (bestGapStep gaps) (0, 0)).1
          = ((List.range k).foldl (bestGapStep gaps) (0, 0)).2) := by
  intro k
  induction k with
  | zero =>
    intro _
    refine ⟨fun i hi => absurd hi (Nat.not_lt_zero i), le_rfl, fun _ => rfl,
      fun h => absurd h (lt_irrefl 0)⟩
  | succ k ih =>
    intro hk
    obtain ⟨h1, h2, h4, h3⟩ := ih (by omega)
    rw [List.range_succ, List.foldl_append]
    simp only [List.foldl_cons, List.foldl_nil]
    generalize (List.range k).foldl (bestGapStep gaps) (0, 0) = st at h1 h2 h3 h4
    unfold bestGapStep
    rw [hq k (by omega)]
    dsimp only
    by_cases hgt : q k > st.2
    · rw [if_pos hgt]
      refine ⟨?_, ?_, fun h => absurd h (Nat.succ_ne_zero k), fun _ => ⟨Nat.lt_succ_self k, rfl⟩⟩
      · intro i hi
        rcases Nat.lt_succ_iff_lt_or_eq.mp hi with h | h
        · exact le_trans (h1 i h) hgt.le
        · rw [h]
      · exact le_trans h2 hgt.le
    · rw [if_neg hgt]
      refine ⟨?_, h2, fun h => absurd h (Nat.succ_ne_zero k), ?_⟩
      · intro i hi
        rcases Nat.lt_succ_iff_lt_or_eq.mp hi with h | h
        · exact h1 i h
        · rw [h]; exact not_lt.mp hgt
      · intro _
        have hk0 : 0 < k := by
          by_contra hneg
          have hk0 : k = 0 := by omega
          apply hgt
          rw [h4 hk0]
          exact hpos k (by omega)
        exact ⟨Nat.lt_succ_of_lt (h3 hk0).1, (h3 hk0).2⟩

theorem bestGap_ordered (spans : List Span) (h : SpansOrdered spans)
    (hlen : 2 ≤ spans.length) :
    (bestGap (twoPagesGaps spans)).1 + 1 < spans.length ∧
    balanceRatio spans (bestGap (twoPagesGaps spans)).1 = (bestGap (twoPagesGaps spans)).2 ∧
    ∀ i, i + 1 < spans.length → balanceRatio spans i ≤ (bestGap (twoPagesGaps spans)).2 := by
  have hfold := bestGap_fold (twoPagesGaps spans) (balanceRatio spans) (spans.length - 1)
    (fun i hi => gapRatio_ordered spans h i (by omega))
    (fun i hi => balanceRatio_pos spans h i (by omega))
    (spans.length - 1) le_rfl
  unfold bestGap
  rw [twoPagesGaps_length]
  obtain ⟨h1, -, -, h3⟩ := hfold
  have h3 := h3 (by omega)
  exact ⟨by omega, h3.2, fun i hi => h1 i (by omega)⟩

theorem isBestRatio_eq_bestGap (spans : List Span) (h : SpansOrdered spans)
    (hlen : 2 ≤ spans.length) (best : ℚ) (hbest : IsBestRatio spans best) :
    (bestGap (twoPagesGaps spans)).2 = best := by
  obtain ⟨hlt, heq, hle⟩ := bestGap_ordered spans h hlen
  obtain ⟨⟨i, hi, hib⟩, hmax⟩ := hbest
  apply le_antisymm
  · rw [← heq]; exact hmax _ hlt
  · rw [← hib]; exact hle i hi

/-- C5: for every ordered list of at least two spans whose best gap balance
ratio is below 0.25, `processContentSpansTwoPages` returns exactly what
`processTwoPagesWithSingleSpan` returns for the combined span
`[first.begin, last.end)` and the same width. -/
theorem processContentSpansTwoPages_imbalanced (layout_type : LayoutType)
    (spans : List Span) (width height : Int) (best : ℚ)
    (ht : layout_type = .AUTO_DETECT ∨ layout_type = .TWO_PAGES)
    (hord : SpansOrdered spans) (hlen : 2 ≤ spans.length)
    (hbest : IsBestRatio spans best) (hlt : best < 1 / 4) :
    processContentSpansTwoPages layout_type spans width height
      = some (processTwoPagesWithSingleSpan
          ⟨(spanAt spans 0).m_begin, (spanAt spans (spans.length - 1)).m_end⟩ width) := by
  have hb := isBestRatio_eq_bestGap spans hord hlen best hbest
  have hne : spans.isEmpty = false := by
    cases spans with
    | nil => simp at hlen
    | cons a t => rfl
  have hne1 : spans.length ≠ 1 := by omega
  unfold processContentSpansTwoPages
  rw [if_neg (not_not.mpr ht)]
  simp only [hne, if_neg hne1, hb, if_pos hlt]
  simp

/-- C5, at an input: the spans `[0, 10)`, `[20, 30)` and `[500, 1000)` of a raster
1000 pixels wide, whose two gaps have the ratios `1/98` and `3/50`. -/
theorem processContentSpansTwoPages_imbalanced_witness :
    processContentSpansTwoPages .TWO_PAGES [⟨0, 10⟩, ⟨20, 30⟩, ⟨500, 1000⟩] 1000 1000
      = some (processTwoPagesWithSingleSpan
          ⟨(spanAt [⟨0, 10⟩, ⟨20, 30⟩, ⟨500, 1000⟩] 0).m_begin,
           (spanAt [⟨0, 10⟩, ⟨20, 30⟩, ⟨500, 1000⟩]
              ([(⟨0, 10⟩ : Span), ⟨20, 30⟩, ⟨500, 1000⟩].length - 1)).m_end⟩ 1000) :=
  processContentSpansTwoPages_imbalanced .TWO_PAGES [⟨0, 10⟩, ⟨20, 30⟩, ⟨500, 1000⟩]
    1000 1000 (3 / 50) (Or.inr rfl) (by simp [SpansOrdered]) (by simp)
    ⟨⟨1, by simp, by norm_num [balanceRatio, contentBefore, contentAfter, spanAt]⟩,
     fun i hi => by
      have hi2 : i = 0 ∨ i = 1 := by simp at hi; omega
      rcases hi2 with h | h <;> subst h <;>
        norm_num [balanceRatio, contentBefore, contentAfter, spanAt]⟩
    (by norm_num)

theorem spanAt_zero_of_head (spans : List Span) (first : Span)
    (h : spans.head? = some first) : spanAt spans 0 = first := by
  cases spans with
  | nil => simp at h
  | cons a t => simpa [spanAt] using h

theorem spanAt_last_of_getLast (spans : List Span) (last : Span)
    (h : spans.getLast? = some last) : spanAt spans (spans.length - 1) = last := by
  cases spans with
  | nil => simp at h
  | cons a t =>
    rw [List.getLast?_eq_getElem?] at h
    simp only [spanAt, List.getD_eq_getElem?_getD, h, Option.getD_some]

/-- C12: in `processContentSpansSinglePage` in `AUTO_DETECT` mode with no off-cut
evidence on either side, the result is `SINGLE_PAGE_UNCUT` when there are no
spans; otherwise it is `RIGHT_PAGE_PLUS_OFFCUT` cut at `x = 0` when the leading
margin `first.begin` is strictly smaller than the trailing margin
`width - last.end`, and `LEFT_PAGE_PLUS_OFFCUT` cut at `x = width` when it is
not. -/
theorem processContentSpansSinglePage_no_evidence (spans : List Span)
    (width height : Int) :
    (spans = [] →
      processContentSpansSinglePage .AUTO_DETECT spans width height false false
        = some ⟨.SINGLE_PAGE_UNCUT, QLineF.null⟩) ∧
    (∀ first last : Span, spans.head? = some first → spans.getLast? = some last →
      processContentSpansSinglePage .AUTO_DETECT spans width height false false
        = some (if first.m_begin < width - last.m_end
            then ⟨.RIGHT_PAGE_PLUS_OFFCUT, vertLine 0⟩
            else ⟨.LEFT_PAGE_PLUS_OFFCUT, vertLine (width : ℚ)⟩)) := by
  constructor
  · intro h
    subst h
    simp [processContentSpansSinglePage, leftOffcutOrNone, noOffcutLayout,
      PageLayout.singlePageUncut]
  · intro first last hf hl
    have hne : spans.isEmpty = false := by
      cases spans with
      | nil => simp at hf
      | cons a t => rfl
    simp [processContentSpansSinglePage, leftOffcutOrNone, noOffcutLayout, hne,
      spanAt_zero_of_head spans first hf, spanAt_last_of_getLast spans last hl,
      PageLayout.rightPagePlusOffcut, PageLayout.leftPagePlusOffcut]

/-- C12, at an input: the spans `[10, 60)` and `[70, 80)` of a raster 100 pixels
wide, with the leading margin 10 and the trailing margin 20. -/
theorem processContentSpansSinglePage_no_evidence_witness :
    processContentSpansSinglePage .AUTO_DETECT [⟨10, 60⟩, ⟨70, 80⟩] 100 100 false false
      = some (if (10 : Int) < 100 - 80
          then ⟨.RIGHT_PAGE_PLUS_OFFCUT, vertLine 0⟩
          else ⟨.LEFT_PAGE_PLUS_OFFCUT, vertLine ((100 : Int) : ℚ)⟩) :=
  (processContentSpansSinglePage_no_evidence [⟨10, 60⟩, ⟨70, 80⟩] 100 100).2
    ⟨10, 60⟩ ⟨70, 80⟩ rfl rfl

/-- C14: for every input image and every instance of the routines behind the
transform, the threshold and the debug sink, `estimatePageLayout` called with
`SINGLE_PAGE_UNCUT` returns the layout of type `SINGLE_PAGE_UNCUT` with the null
split line and runs neither the fold-line nor the whitespace stage. -/
theorem estimatePageLayout_single_page_uncut (env : Imaging) (advised : Int)
    (input : QImage) :
    (estimatePageLayout env advised .SINGLE_PAGE_UNCUT input).layout
      = some ⟨.SINGLE_PAGE_UNCUT, QLineF.null⟩ ∧
    (estimatePageLayout env advised .SINGLE_PAGE_UNCUT input).stages = [] := by
  simp [estimatePageLayout]

/-- C15: for every layout type other than `SINGLE_PAGE_UNCUT`, with `fold` the
layout of the fold-line stage, `estimatePageLayout` returns `fold` and runs the
fold-line stage only when the type of `fold` is not `SINGLE_PAGE_UNCUT`, and
returns the layout of the whitespace stage, run after the fold-line stage,
when it is; the whitespace stage is run exactly in the second case. -/
theorem estimatePageLayout_stages (env : Imaging) (advised : Int)
    (layout_type : LayoutType) (input : QImage) (fold : PageLayout)
    (hne : layout_type ≠ .SINGLE_PAGE_UNCUT)
    (hfold : cutAtFoldingLine env.findLines env.binarizeOtsu advised layout_type input
      = some fold) :
    (fold.type ≠ .SINGLE_PAGE_UNCUT →
      (estimatePageLayout env advised layout_type input).layout = some fold ∧
      (estimatePageLayout env advised layout_type input).stages = [.foldingLine]) ∧
    (fold.type = .SINGLE_PAGE_UNCUT →
      (estimatePageLayout env advised layout_type input).layout
        = cutAtWhitespace env advised layout_type input ∧
      (estimatePageLayout env advised layout_type input).stages
        = [.foldingLine, .whitespace]) ∧
    (Stage.whitespace ∈ (estimatePageLayout env advised layout_type input).stages
      ↔ fold.type = .SINGLE_PAGE_UNCUT) := by
  unfold estimatePageLayout
  rw [if_neg hne, hfold]
  by_cases ht : fold.type = .SINGLE_PAGE_UNCUT
  · simp [ht]
  · simp [ht]

/-- C15, at an input: a forced `TWO_PAGES` on an image in which no fold line is
found, so that the fold-line stage returns the default layout. -/
theorem estimatePageLayout_stages_witness :
    (PageLayout.default.type ≠ .SINGLE_PAGE_UNCUT →
      (estimatePageLayout blankImaging 2 .TWO_PAGES QImage.null).layout
        = some PageLayout.default ∧
      (estimatePageLayout blankImaging 2 .TWO_PAGES QImage.null).stages
        = [.foldingLine]) ∧
    (PageLayout.default.type = .SINGLE_PAGE_UNCUT →
      (estimatePageLayout blankImaging 2 .TWO_PAGES QImage.null).layout
        = cutAtWhitespace blankImaging 2 .TWO_PAGES QImage.null ∧
      (estimatePageLayout blankImaging 2 .TWO_PAGES QImage.null).stages
        = [.foldingLine, .whitespace]) ∧
    (Stage.whitespace ∈ (estimatePageLayout blankImaging 2 .TWO_PAGES QImage.null).stages
      ↔ PageLayout.default.type = .SINGLE_PAGE_UNCUT) :=
  estimatePageLayout_stages blankImaging 2 .TWO_PAGES QImage.null PageLayout.default
    (by decide) (by simp [cutAtFoldingLine, blankImaging])

theorem selectSinglePageSplitLine_areas (hor_shadows : QImage) :
    (hor_shadows.rect).setWidth (min 20 hor_shadows.width) = leftStrip hor_shadows ∧
    ((hor_shadows.rect).setWidth (min 20 hor_shadows.width)).moveRight
      (hor_shadows.rect).right = rightStrip hor_shadows := by
  constructor
  · simp [QImage.rect, QRect.setWidth, QRect.ofXYWH, leftStrip]
  · simp only [QImage.rect, QRect.setWidth, QRect.ofXYWH, QRect.moveRight, QRect.right,
      rightStrip, QRect.mk.injEq]
    refine ⟨by ring, trivial, by ring, trivial⟩

/-- C17: whenever the binarised shadow raster has no black pixel in its left
margin strip and none in its right margin strip, `selectSinglePageSplitLine`
returns the default layout (`SINGLE_PAGE_UNCUT`, null line) for every list of
candidate lines, and `estimatePageLayout`, in a single-page mode other than
`SINGLE_PAGE_UNCUT`, goes on to the whitespace stage and returns its layout. -/
theorem selectSinglePageSplitLine_empty_strips (binarizeOtsu : QImage → BinaryImage)
    (hor_shadows : QImage)
    (hl : (binarizeOtsu hor_shadows).countBlackPixels (leftStrip hor_shadows) = 0)
    (hr : (binarizeOtsu hor_shadows).countBlackPixels (rightStrip hor_shadows) = 0) :
    (∀ (ltr_lines : List QLineF) (image_size : QSize),
      selectSinglePageSplitLine binarizeOtsu ltr_lines image_size hor_shadows
        = PageLayout.default) ∧
    (∀ (env : Imaging) (advised : Int) (layout_type : LayoutType) (input : QImage),
      env.binarizeOtsu = binarizeOtsu → (env.findLines input 8 true).2 = hor_shadows →
      layout_type ≠ .SINGLE_PAGE_UNCUT → numPages layout_type advised = 1 →
      (estimatePageLayout env advised layout_type input).layout
        = cutAtWhitespace env advised layout_type input ∧
      (estimatePageLayout env advised layout_type input).stages
        = [.foldingLine, .whitespace]) := by
  have hsel : ∀ (ltr_lines : List QLineF) (image_size : QSize),
      selectSinglePageSplitLine binarizeOtsu ltr_lines image_size hor_shadows
        = PageLayout.default := by
    intro ltr_lines image_size
    unfold selectSinglePageSplitLine
    by_cases h1 : ltr_lines.isEmpty = true
    · rw [if_pos h1]
    · rw [if_neg h1]
      dsimp only
      rw [(selectSinglePageSplitLine_areas hor_shadows).2,
        (selectSinglePageSplitLine_areas hor_shadows).1, hl, hr]
      simp
  refine ⟨hsel, ?_⟩
  intro env advised layout_type input hb hs hne h1
  have hfold : cutAtFoldingLine env.findLines env.binarizeOtsu advised layout_type input
      = some PageLayout.default := by
    unfold cutAtFoldingLine
    simp only [h1, decide_True, if_true, hs, hb, hsel]
    split_ifs <;> rfl
  unfold estimatePageLayout
  rw [if_neg hne, hfold]
  simp [PageLayout.default]

/-- C17, at an input: a shadow raster of 4 by 2 pixels without a dark pixel, one
candidate line, and automatic detection advised to expect a single page. -/
theorem selectSinglePageSplitLine_empty_strips_witness :
    (∀ (ltr_lines : List QLineF) (image_size : QSize),
      selectSinglePageSplitLine binarizeAt128 ltr_lines image_size
          ⟨4, 2, fun _ _ => 255⟩
        = PageLayout.default) ∧
    (∀ (env : Imaging) (advised : Int) (layout_type : LayoutType) (input : QImage),
      env.binarizeOtsu = binarizeAt128 →
      (env.findLines input 8 true).2 = ⟨4, 2, fun _ _ => 255⟩ →
      layout_type ≠ .SINGLE_PAGE_UNCUT → numPages layout_type advised = 1 →
      (estimatePageLayout env advised layout_type input).layout
        = cutAtWhitespace env advised layout_type input ∧
      (estimatePageLayout env advised layout_type input).stages
        = [.foldingLine, .whitespace]) :=
  selectSinglePageSplitLine_empty_strips binarizeAt128 ⟨4, 2, fun _ _ => 255⟩
    (by simp [binarizeAt128, BinaryImage.countBlackPixels])
    (by simp [binarizeAt128, BinaryImage.countBlackPixels])

theorem foldl_add_eq_sum (f : Nat → Int) (l : List Nat) (c : Int) :
    l.foldl (fun acc i => acc + f i) c = c + (l.map f).sum := by
  induction l generalizing c with
  | nil => simp
  | cons a t ih => simp [ih, add_assoc]

theorem sum_map_spanAt_range (spans : List Span) :
    ((List.range spans.length).map (fun i => (spanAt spans i).width)).sum
      = sumWidths spans := by
  induction spans with
  | nil => simp [sumWidths]
  | cons a t ih =>
    rw [List.length_cons, List.range_succ_eq_map, List.map_cons, List.map_map, List.sum_cons]
    have hfun : ((fun i => (spanAt (a :: t) i).width) ∘ Nat.succ)
        = fun i => (spanAt t i).width := by
      funext i
      simp [spanAt]
    rw [hfun, ih]
    simp [sumWidths, spanAt]

theorem totalWidth_eq_sumWidths (spans : List Span) (hne : spans ≠ []) :
    totalWidth spans = sumWidths spans := by
  cases spans with
  | nil => exact absurd rfl hne
  | cons a t =>
    unfold totalWidth
    simp only [List.length_cons, Nat.add_sub_cancel, spanAt_cons_succ]
    rw [foldl_add_eq_sum, List.map_reverse, List.sum_reverse, sum_map_spanAt_range]
    simp [sumWidths, spanAt]
    ring

theorem sumWidths_eq_head_add_tail (spans : List Span) (hne : spans ≠ []) :
    sumWidths spans = (spanAt spans 0).width + sumWidths spans.tail := by
  cases spans with
  | nil => exact absurd rfl hne
  | cons a t => simp [sumWidths, spanAt]

theorem sumWidths_eq_dropLast_add_last (spans : List Span) (hne : spans ≠ []) :
    sumWidths spans = sumWidths spans.dropLast + (spanAt spans (spans.length - 1)).width := by
  have hlast : spanAt spans (spans.length - 1) = spans.getLast hne :=
    spanAt_last_of_getLast spans _ (List.getLast?_eq_getLast _ hne)
  rw [hlast]
  conv_lhs => rw [← List.dropLast_append_getLast hne]
  simp [sumWidths]

/-- The loop of `removeInsignificantEdgeSpans` ends within `spans.length`
iterations; it leaves a non-empty deque reached by removals of the narrower
edge span, and the removed widths fit in `may_be_removed`. -/
theorem removeLoop_spec (fuel : Nat) : ∀ (may_be_removed : Int) (spans : List Span),
    spans ≠ [] → spans.length ≤ fuel → 0 ≤ may_be_removed →
    ∃ r, removeLoop fuel may_be_removed spans = some r ∧ r ≠ [] ∧
      Relation.ReflTransGen NarrowerEdgeStep spans r ∧
      sumWidths spans - sumWidths r ≤ may_be_removed := by
  induction fuel with
  | zero =>
    intro _ spans hne hlen
    cases spans with
    | nil => exact absurd rfl hne
    | cons a t => simp at hlen
  | succ fuel ih =>
    intro mbr spans hne hlen hmbr
    have hpos : 0 < spans.length := List.length_pos.mpr hne
    unfold removeLoop
    dsimp only
    by_cases h1 : spans.length = 1
    · rw [if_pos h1]
      exact ⟨spans, rfl, hne, Relation.ReflTransGen.refl, by simpa using hmbr⟩
    · rw [if_neg h1]
      have h2 : 2 ≤ spans.length := by omega
      by_cases hlt : (spanAt spans 0).width < (spanAt spans (spans.length - 1)).width
      · rw [if_pos hlt]
        by_cases hgt : (spanAt spans 0).width > mbr
        · rw [if_pos hgt]
          exact ⟨spans, rfl, hne, Relation.ReflTransGen.refl, by simpa using hmbr⟩
        · rw [if_neg hgt]
          have htl : spans.tail ≠ [] := by
            intro h
            have := congrArg List.length h
            simp only [List.length_tail, List.length_nil] at this
            omega
          have hemp : ¬ (spans.tail.isEmpty = true) := by
            simpa [List.isEmpty_iff] using htl
          rw [if_neg hemp]
          obtain ⟨r, hr, hrne, hchain, hsum⟩ := ih (mbr - (spanAt spans 0).width) spans.tail
            htl (by simp only [List.length_tail]; omega) (by omega)
          refine ⟨r, hr, hrne, Relation.ReflTransGen.head ⟨h2, Or.inl ⟨hlt, rfl⟩⟩ hchain, ?_⟩
          rw [sumWidths_eq_head_add_tail spans hne]
          omega
      · rw [if_neg hlt]
        by_cases hgt : (spanAt spans (spans.length - 1)).width > mbr
        · rw [if_pos hgt]
          exact ⟨spans, rfl, hne, Relation.ReflTransGen.refl, by simpa using hmbr⟩
        · rw [if_neg hgt]
          have hdl : spans.dropLast ≠ [] := by
            intro h
            have := congrArg List.length h
            simp only [List.length_dropLast, List.length_nil] at this
            omega
          have hemp : ¬ (spans.dropLast.isEmpty = true) := by
            simpa [List.isEmpty_iff] using hdl
          rw [if_neg hemp]
          obtain ⟨r, hr, hrne, hchain, hsum⟩ :=
            ih (mbr - (spanAt spans (spans.length - 1)).width) spans.dropLast
              hdl (by simp only [List.length_dropLast]; omega) (by omega)
          refine ⟨r, hr, hrne,
            Relation.ReflTransGen.head ⟨h2, Or.inr ⟨not_lt.mp hlt, rfl⟩⟩ hchain, ?_⟩
          rw [sumWidths_eq_dropLast_add_last spans hne]
          omega

/-- C13: for every non-empty list of spans with positive widths,
`removeInsignificantEdgeSpans` returns a list reached from the input by removal
steps each of which discards the narrower of the two current edge spans (the
back one when they are equally wide), and the removed spans have a total width
of at most `floor(total / 15)`, `total` being the sum of the widths of all input
spans. -/
theorem removeInsignificantEdgeSpans_budget (spans : List Span) (hne : spans ≠ [])
    (hpos : ∀ s ∈ spans, 0 < s.width) :
    ∃ r, removeInsignificantEdgeSpans spans = some r ∧
      Relation.ReflTransGen NarrowerEdgeStep spans r ∧
      sumWidths spans - sumWidths r ≤ sumWidths spans / 15 := by
  have htotal : 0 ≤ sumWidths spans := by
    unfold sumWidths
    apply List.sum_nonneg
    intro x hx
    obtain ⟨s, hs, rfl⟩ := List.mem_map.mp hx
    exact (hpos s hs).le
  have hdiv : Int.tdiv (sumWidths spans) 15 = sumWidths spans / 15 :=
    Int.tdiv_eq_ediv htotal (by omega)
  have hemp : ¬ (spans.isEmpty = true) := by simpa [List.isEmpty_iff] using hne
  obtain ⟨r, hr, -, hchain, hsum⟩ := removeLoop_spec spans.length
    (sumWidths spans / 15) spans hne le_rfl (by omega)
  refine ⟨r, ?_, hchain, hsum⟩
  unfold removeInsignificantEdgeSpans
  rw [if_neg hemp]
  simp only [totalWidth_eq_sumWidths spans hne, hdiv]
  exact hr

/-- C13, at an input: the spans `[0, 5)`, `[110, 200)`, `[300, 400)` and
`[405, 410)`, of total width 200, from which both edge spans of width 5 are
removed. -/
theorem removeInsignificantEdgeSpans_budget_witness :
    ∃ r, removeInsignificantEdgeSpans [⟨0, 5⟩, ⟨110, 200⟩, ⟨300, 400⟩, ⟨405, 410⟩] = some r ∧
      Relation.ReflTransGen NarrowerEdgeStep
        [⟨0, 5⟩, ⟨110, 200⟩, ⟨300, 400⟩, ⟨405, 410⟩] r ∧
      sumWidths [⟨0, 5⟩, ⟨110, 200⟩, ⟨300, 400⟩, ⟨405, 410⟩] - sumWidths r
        ≤ sumWidths [⟨0, 5⟩, ⟨110, 200⟩, ⟨300, 400⟩, ⟨405, 410⟩] / 15 :=
  removeInsignificantEdgeSpans_budget [⟨0, 5⟩, ⟨110, 200⟩, ⟨300, 400⟩, ⟨405, 410⟩]
    (by simp) (by simp [Span.width])

theorem mem_castRange (n : Nat) (x : Int) :
    x ∈ (do let a ← List.range n; pure (a : Int) : List Int) ↔ 0 ≤ x ∧ x < (n : Int) := by
  have hmem : x ∈ (do let a ← List.range n; pure (a : Int) : List Int)
      ↔ ∃ a, a < n ∧ x = (a : Int) := by simp
  rw [hmem]
  constructor
  · rintro ⟨a, ha, rfl⟩
    omega
  · rintro ⟨h0, hn⟩
    exact ⟨x.toNat, by omega, by omega⟩

theorem countBlackPixels_ne_zero_iff (img : BinaryImage) (rect : QRect) :
    img.countBlackPixels rect ≠ 0 ↔
      ∃ x y : Int, 0 ≤ x ∧ x < img.width ∧ 0 ≤ y ∧ y < img.height ∧
        rect.contains x y = true ∧ img.black x y = true := by
  unfold BinaryImage.countBlackPixels
  rw [Ne, List.sum_eq_zero_iff]
  constructor
  · intro h
    by_contra hcon
    apply h
    intro n hn
    obtain ⟨y, hy, rfl⟩ := List.mem_map.mp hn
    rw [List.length_eq_zero, List.filter_eq_nil_iff]
    intro x hx hpred
    apply hcon
    rw [mem_castRange] at hx hy
    rw [Bool.and_eq_true] at hpred
    exact ⟨x, y, hx.1, by omega, hy.1, by omega, hpred.1, hpred.2⟩
  · rintro ⟨x, y, hx0, hxw, hy0, hyh, hc, hb⟩ hzero
    have hz := hzero _ (List.mem_map.mpr ⟨y, (mem_castRange _ y).mpr ⟨hy0, by omega⟩, rfl⟩)
    rw [List.length_eq_zero, List.filter_eq_nil_iff] at hz
    apply hz x ((mem_castRange _ x).mpr ⟨hx0, by omega⟩)
    rw [hc, hb]
    rfl

theorem checkForLeftOffcut_iff (img : BinaryImage) :
    checkForLeftOffcut img = true ↔ img.HasBlackIn 2 4 2 (img.height - 3) := by
  unfold checkForLeftOffcut BinaryImage.HasBlackIn
  simp only [decide_eq_true_eq, countBlackPixels_ne_zero_iff, QRect.contains, QRect.adjust,
    QRect.ofXYWH]
  constructor
  · rintro ⟨x, y, h1, h2, h3, h4, h5, h6⟩
    exact ⟨x, y, h1, h2, h3, h4, h6, by omega, by omega, by omega, by omega⟩
  · rintro ⟨x, y, h1, h2, h3, h4, h5, h6, h7, h8, h9⟩
    exact ⟨x, y, h1, h2, h3, h4, ⟨by omega, by omega, by omega, by omega⟩, h5⟩

theorem checkForRightOffcut_iff (img : BinaryImage) :
    checkForRightOffcut img = true
      ↔ img.HasBlackIn (img.width - 5) (img.width - 3) 2 (img.height - 3) := by
  unfold checkForRightOffcut BinaryImage.HasBlackIn
  simp only [decide_eq_true_eq, countBlackPixels_ne_zero_iff, QRect.contains, QRect.adjust,
    QRect.ofXYWH]
  constructor
  · rintro ⟨x, y, h1, h2, h3, h4, h5, h6⟩
    exact ⟨x, y, h1, h2, h3, h4, h6, by omega, by omega, by omega, by omega⟩
  · rintro ⟨x, y, h1, h2, h3, h4, h5, h6, h7, h8, h9⟩
    exact ⟨x, y, h1, h2, h3, h4, ⟨by omega, by omega, by omega, by omega⟩, h5⟩

/-- C19: for every bilevel image of width `w` and height `h`,
`checkForLeftOffcut` is true iff the image has a black pixel `(x, y)` with
`2 ≤ x ≤ 4` and `2 ≤ y ≤ h - 3`, and `checkForRightOffcut` is true iff it has a
black pixel with `w - 5 ≤ x ≤ w - 3` and `2 ≤ y ≤ h - 3`; hence
`checkForRightOffcut` of an image equals `checkForLeftOffcut` of its horizontal
mirror image. -/
theorem checkForOffcut_strips (img : BinaryImage) :
    (checkForLeftOffcut img = true ↔ img.HasBlackIn 2 4 2 (img.height - 3)) ∧
    (checkForRightOffcut img = true
      ↔ img.HasBlackIn (img.width - 5) (img.width - 3) 2 (img.height - 3)) ∧
    checkForRightOffcut img = checkForLeftOffcut img.mirrored := by
  refine ⟨checkForLeftOffcut_iff img, checkForRightOffcut_iff img, ?_⟩
  rw [Bool.eq_iff_iff, checkForRightOffcut_iff, checkForLeftOffcut_iff]
  unfold BinaryImage.HasBlackIn BinaryImage.mirrored
  dsimp only
  constructor
  · rintro ⟨x, y, h1, h2, h3, h4, h5, h6, h7, h8, h9⟩
    refine ⟨img.width - 1 - x, y, by omega, by omega, h3, h4, ?_, by omega, by omega, h8, h9⟩
    have : img.width - 1 - (img.width - 1 - x) = x := by ring
    rw [this]
    exact h5
  · rintro ⟨x, y, h1, h2, h3, h4, h5, h6, h7, h8, h9⟩
    exact ⟨img.width - 1 - x, y, by omega, by omega, h3, h4, h5, by omega, by omega, h8, h9⟩

theorem aspect_gt_six_iff (cc : ConnComp) (hw : 5 ≤ cc.width) :
    (cc.height : ℚ) / (cc.width : ℚ) > 6 ↔ 6 * cc.width < cc.height := by
  have hpos : (0 : ℚ) < (cc.width : ℚ) := by
    have : (0 : Int) < cc.width := by omega
    exact_mod_cast this
  rw [gt_iff_lt, lt_div_iff₀ hpos]
  exact_mod_cast Iff.rfl

/-- The mask after the components `conn_comps` were looked at, starting from any
mask: the pixels that were black, and the pixels of the mask that lie in the
bounding box of a component that passes the tests. -/
theorem ccImg_fold (conn_comps : List ConnComp) : ∀ (base : BinaryImage) (x y : Int),
    (conn_comps.foldl
      (fun cc_img cc =>
        if cc.width < 5 ∨ cc.height < 5 then cc_img
        else if (cc.height : ℚ) / (cc.width : ℚ) > 6 then cc_img
        else cc_img.fill cc.rect) base).black x y = true ↔
      (base.black x y = true ∨
        (base.rect.contains x y = true ∧
          ∃ cc ∈ conn_comps, cc.rect.contains x y = true ∧
            5 ≤ cc.width ∧ 5 ≤ cc.height ∧ cc.height ≤ 6 * cc.width)) := by
  induction conn_comps with
  | nil => intro base x y; simp
  | cons c rest ih =>
    intro base x y
    rw [List.foldl_cons]
    by_cases hsmall : c.width < 5 ∨ c.height < 5
    · rw [if_pos hsmall, ih]
      constructor
      · rintro (h | ⟨hr, cc, hcc, hin, hk⟩)
        · exact Or.inl h
        · exact Or.inr ⟨hr, cc, List.mem_cons_of_mem c hcc, hin, hk⟩
      · rintro (h | ⟨hr, cc, hcc, hin, hk⟩)
        · exact Or.inl h
        · rcases List.mem_cons.mp hcc with h | h
          · subst h; omega
          · exact Or.inr ⟨hr, cc, h, hin, hk⟩
    · rw [if_neg hsmall]
      have hw : 5 ≤ c.width := by omega
      by_cases htall : (c.height : ℚ) / (c.width : ℚ) > 6
      · rw [if_pos htall, ih]
        have htall2 := (aspect_gt_six_iff c hw).mp htall
        constructor
        · rintro (h | ⟨hr, cc, hcc, hin, hk⟩)
          · exact Or.inl h
          · exact Or.inr ⟨hr, cc, List.mem_cons_of_mem c hcc, hin, hk⟩
        · rintro (h | ⟨hr, cc, hcc, hin, hk⟩)
          · exact Or.inl h
          · rcases List.mem_cons.mp hcc with h | h
            · subst h; omega
            · exact Or.inr ⟨hr, cc, h, hin, hk⟩
      · rw [if_neg htall, ih]
        have hkeep : c.height ≤ 6 * c.width := by
          have := (aspect_gt_six_iff c hw).not.mp htall
          omega
        have hrect : (base.fill c.rect).rect = base.rect := rfl
        have hfill : (base.fill c.rect).black x y = true ↔
            (base.black x y = true ∨
              (c.rect.contains x y = true ∧ base.rect.contains x y = true)) := by
          simp only [BinaryImage.fill]
          by_cases hc : (c.rect.contains x y && base.rect.contains x y) = true
          · rw [if_pos hc]
            rw [Bool.and_eq_true] at hc
            simp [hc]
          · rw [if_neg hc]
            rw [Bool.and_eq_true] at hc
            simp [hc]
        rw [hrect, hfill]
        constructor
        · rintro ((h | ⟨hin, hr⟩) | ⟨hr, cc, hcc, hin, hk⟩)
          · exact Or.inl h
          · exact Or.inr ⟨hr, c, List.mem_cons_self c rest, hin, hw, by omega, hkeep⟩
          · exact Or.inr ⟨hr, cc, List.mem_cons_of_mem c hcc, hin, hk⟩
        · rintro (h | ⟨hr, cc, hcc, hin, hk⟩)
          · exact Or.inl (Or.inl h)
          · rcases List.mem_cons.mp hcc with h | h
            · subst h; exact Or.inl (Or.inr ⟨hin, hr⟩)
            · exact Or.inr ⟨hr, cc, h, hin, hk⟩

/-- C20: in `cutAtWhitespaceDeskewed150` the denoised mask `cc_img` is black at a
pixel iff the pixel lies inside the bounding box of some 8-connected component
of the input whose bounding box has width at least 5, height at least 5 and
height at most 6 times its width; the other components leave no trace in the
mask. -/
theorem ccImg_black_iff (connComps : BinaryImage → Connectivity → List ConnComp)
    (input : BinaryImage) (x y : Int) :
    (ccImg (connComps input .CONN8) input).black x y = true ↔
      (0 ≤ x ∧ x < input.width ∧ 0 ≤ y ∧ y < input.height) ∧
      ∃ cc ∈ connComps input .CONN8, cc.rect.contains x y = true ∧
        5 ≤ cc.width ∧ 5 ≤ cc.height ∧ cc.height ≤ 6 * cc.width := by
  unfold ccImg
  rw [ccImg_fold]
  have hwhite : (BinaryImage.white input.width input.height).black x y = false := rfl
  have hrect : (BinaryImage.white input.width input.height).rect.contains x y = true ↔
      (0 ≤ x ∧ x < input.width ∧ 0 ≤ y ∧ y < input.height) := by
    simp only [BinaryImage.rect, BinaryImage.white, QRect.ofXYWH, QRect.contains,
      decide_eq_true_eq]
    omega
  rw [hwhite, hrect]
  simp

/-! ### Morphology on the model -/

theorem mem_intRange (lo hi x : Int) : x ∈ intRange lo hi ↔ lo ≤ x ∧ x ≤ hi := by
  unfold intRange
  simp only [List.mem_map, List.mem_range]
  constructor
  · rintro ⟨i, hi, rfl⟩
    omega
  · rintro ⟨h1, h2⟩
    exact ⟨(x - lo).toNat, by omega, by omega⟩

theorem planeDilate_iff (f : Int → Int → Bool) (brick : Brick) (x y : Int) :
    planeDilate f brick x y = true ↔
      ∃ dx dy : Int, brick.minX ≤ dx ∧ dx ≤ brick.maxX ∧ brick.minY ≤ dy ∧ dy ≤ brick.maxY ∧
        f (x - dx) (y - dy) = true := by
  unfold planeDilate
  simp only [List.any_eq_true, mem_intRange]
  constructor
  · rintro ⟨dy, hy, dx, hx, h⟩
    exact ⟨dx, dy, hx.1, hx.2, hy.1, hy.2, h⟩
  · rintro ⟨dx, dy, h1, h2, h3, h4, h⟩
    exact ⟨dy, ⟨h3, h4⟩, dx, ⟨h1, h2⟩, h⟩

theorem planeErode_iff (f : Int → Int → Bool) (brick : Brick) (x y : Int) :
    planeErode f brick x y = true ↔
      ∀ dx dy : Int, brick.minX ≤ dx → dx ≤ brick.maxX → brick.minY ≤ dy → dy ≤ brick.maxY →
        f (x - dx) (y - dy) = true := by
  unfold planeErode
  simp only [List.all_eq_true, mem_intRange]
  constructor
  · intro h dx dy h1 h2 h3 h4
    exact h dy ⟨h3, h4⟩ dx ⟨h1, h2⟩
  · intro h dy hy dx hx
    exact h dx dy hx.1 hx.2 hy.1 hy.2

theorem brick_isEmpty_eq_false (brick : Brick) :
    brick.isEmpty = false ↔ brick.minX ≤ brick.maxX ∧ brick.minY ≤ brick.maxY := by
  unfold Brick.isEmpty
  simp only [decide_eq_false_iff_not]
  omega

theorem sample_of_inside (img : BinaryImage) (c : BWColor) (x y : Int)
    (hx0 : 0 ≤ x) (hxw : x < img.width) (hy0 : 0 ≤ y) (hyh : y < img.height) :
    img.sample c x y = img.black x y := by
  have h : img.rect.contains x y = true := by
    simp only [BinaryImage.rect, QRect.ofXYWH, QRect.contains, decide_eq_true_eq]
    omega
  unfold BinaryImage.sample
  rw [if_pos h]

theorem sample_of_outside (img : BinaryImage) (c : BWColor) (x y : Int)
    (hout : ¬ (0 ≤ x ∧ x < img.width ∧ 0 ≤ y ∧ y < img.height)) :
    img.sample c x y = decide (c = .BLACK) := by
  have h : ¬ (img.rect.contains x y = true) := by
    simp only [BinaryImage.rect, QRect.ofXYWH, QRect.contains, decide_eq_true_eq]
    omega
  unfold BinaryImage.sample
  rw [if_neg h]

theorem sample_inverted (img : BinaryImage) (c : BWColor) (x y : Int) :
    img.inverted.sample c.inverted x y = !img.sample c x y := by
  unfold BinaryImage.sample
  have hrect : img.inverted.rect = img.rect := rfl
  rw [hrect]
  by_cases h : img.rect.contains x y = true
  · rw [if_pos h, if_pos h]
    rfl
  · rw [if_neg h, if_neg h]
    cases c <;> decide

/-- C23 fails on the tests: in `test_dilate_3x1_out_of_brick_white` (brick of
size 3 x 1 with origin `(-1, 0)`) the pixel `p = (2, 2)` of the result is black,
although none of the positions `p - (ox, oy) + (bx, by)`, `0 ≤ bx < 3`,
`0 ≤ by < 1`, that is `(3, 2)`, `(4, 2)` and `(5, 2)`, holds a black pixel of the
source. -/
theorem dilateBrick_claimed_samples_counterexample :
    ∃ r, dilateBrick testDilateInput (Brick.ofSizeOrigin ⟨3, 1⟩ ⟨-1, 0⟩)
        testDilateInput.rect .WHITE = some r ∧
      r.black 2 2 = true ∧
      ¬ ∃ bx cy : Int, 0 ≤ bx ∧ bx < 3 ∧ 0 ≤ cy ∧ cy < 1 ∧
        testDilateInput.sample .WHITE (2 - (-1) + bx) (2 - 0 + cy) = true := by
  refine ⟨_, rfl, by decide, ?_⟩
  rintro ⟨bx, cy, h1, h2, h3, h4, h⟩
  have hcy : cy = 0 := by omega
  subst hcy
  interval_cases bx <;> revert h <;> decide

/-- C23, as amended: for every source raster, every brick of size `w x h` (both
at least 1) with origin `(ox, oy)`, every destination rectangle and every fill
colour, `dilateBrick` returns a raster of the size of the destination
rectangle whose pixel at the position `p` is foreground iff some sample position
`p + (ox, oy) - (bx, by)`, with `0 ≤ bx < w` and `0 ≤ by < h`, holds a foreground
pixel, where sample positions outside the source canvas count as the fill
colour. -/
theorem dilateBrick_samples (src : BinaryImage) (size : QSize) (origin : QPoint)
    (dst_area : QRect) (c : BWColor) (hw : 1 ≤ size.width) (hh : 1 ≤ size.height) :
    ∃ r, dilateBrick src (Brick.ofSizeOrigin size origin) dst_area c = some r ∧
      r.width = dst_area.width ∧ r.height = dst_area.height ∧
      ∀ x y : Int, r.black x y = true ↔
        ∃ bx cy : Int, 0 ≤ bx ∧ bx < size.width ∧ 0 ≤ cy ∧ cy < size.height ∧
          src.sample c (dst_area.x1 + x + origin.x - bx) (dst_area.y1 + y + origin.y - cy)
            = true := by
  have hne : (Brick.ofSizeOrigin size origin).isEmpty = false := by
    rw [brick_isEmpty_eq_false]
    simp only [Brick.ofSizeOrigin]
    omega
  refine ⟨_, by simp only [dilateBrick, hne]; rfl, rfl, rfl, ?_⟩
  intro x y
  simp only [cropPlane, planeDilate_iff, Brick.ofSizeOrigin]
  constructor
  · rintro ⟨dx, dy, h1, h2, h3, h4, h⟩
    refine ⟨dx + origin.x, dy + origin.y, by omega, by omega, by omega, by omega, ?_⟩
    have e1 : dst_area.x1 + x + origin.x - (dx + origin.x) = dst_area.x1 + x - dx := by ring
    have e2 : dst_area.y1 + y + origin.y - (dy + origin.y) = dst_area.y1 + y - dy := by ring
    rw [e1, e2]
    exact h
  · rintro ⟨bx, cy, h1, h2, h3, h4, h⟩
    refine ⟨bx - origin.x, cy - origin.y, by omega, by omega, by omega, by omega, ?_⟩
    have e1 : dst_area.x1 + x - (bx - origin.x) = dst_area.x1 + x + origin.x - bx := by ring
    have e2 : dst_area.y1 + y - (cy - origin.y) = dst_area.y1 + y + origin.y - cy := by ring
    rw [e1, e2]
    exact h

/-- C23, as amended, at an input: the brick of size 3 x 1 with origin `(-1, 0)`
of `test_dilate_3x1_out_of_brick_white`. -/
theorem dilateBrick_samples_witness :
    ∃ r, dilateBrick testDilateInput (Brick.ofSizeOrigin ⟨3, 1⟩ ⟨-1, 0⟩)
        testDilateInput.rect .WHITE = some r ∧
      r.width = testDilateInput.rect.width ∧ r.height = testDilateInput.rect.height ∧
      ∀ x y : Int, r.black x y = true ↔
        ∃ bx cy : Int, 0 ≤ bx ∧ bx < (3 : Int) ∧ 0 ≤ cy ∧ cy < (1 : Int) ∧
          testDilateInput.sample .WHITE (testDilateInput.rect.x1 + x + (-1) - bx)
            (testDilateInput.rect.y1 + y + 0 - cy) = true :=
  dilateBrick_samples testDilateInput ⟨3, 1⟩ ⟨-1, 0⟩ testDilateInput.rect .WHITE
    (by decide) (by decide)

/-- C24: for every image that is white except for one black pixel at `s` and
every brick `B`, `dilateBrick(img, B, img.rect(), WHITE)` is black exactly on
the pixels `(s.x + dx, s.y + dy)` of the image with `B.minX() ≤ dx ≤ B.maxX()` and
`B.minY() ≤ dy ≤ B.maxY()`, and white on all its other pixels. -/
theorem dilateBrick_single_pixel (img : BinaryImage) (s : QPoint) (brick : Brick)
    (hne : brick.isEmpty = false)
    (hs : 0 ≤ s.x ∧ s.x < img.width ∧ 0 ≤ s.y ∧ s.y < img.height)
    (hblack : ∀ x y : Int, 0 ≤ x → x < img.width → 0 ≤ y → y < img.height →
      (img.black x y = true ↔ (x = s.x ∧ y = s.y))) :
    ∃ r, dilateBrick img brick img.rect .WHITE = some r ∧
      r.width = img.width ∧ r.height = img.height ∧
      ∀ x y : Int, 0 ≤ x → x < img.width → 0 ≤ y → y < img.height →
        (r.black x y = true ↔
          (brick.minX ≤ x - s.x ∧ x - s.x ≤ brick.maxX ∧
            brick.minY ≤ y - s.y ∧ y - s.y ≤ brick.maxY)) := by
  refine ⟨_, by simp only [dilateBrick, hne]; rfl, ?_, ?_, ?_⟩
  · simp only [cropPlane, BinaryImage.rect, QRect.ofXYWH, QRect.width]; ring
  · simp only [cropPlane, BinaryImage.rect, QRect.ofXYWH, QRect.height]; ring
  · intro x y _ _ _ _
    simp only [cropPlane, planeDilate_iff, BinaryImage.rect, QRect.ofXYWH, zero_add]
    constructor
    · rintro ⟨dx, dy, h1, h2, h3, h4, h⟩
      by_cases hin : 0 ≤ x - dx ∧ x - dx < img.width ∧ 0 ≤ y - dy ∧ y - dy < img.height
      · rw [sample_of_inside img _ _ _ hin.1 hin.2.1 hin.2.2.1 hin.2.2.2] at h
        have := (hblack _ _ hin.1 hin.2.1 hin.2.2.1 hin.2.2.2).mp h
        omega
      · rw [sample_of_outside img _ _ _ hin] at h
        simp at h
    · rintro ⟨h1, h2, h3, h4⟩
      refine ⟨x - s.x, y - s.y, h1, h2, h3, h4, ?_⟩
      have e1 : x - (x - s.x) = s.x := by ring
      have e2 : y - (y - s.y) = s.y := by ring
      rw [e1, e2, sample_of_inside img _ _ _ hs.1 hs.2.1 hs.2.2.1 hs.2.2.2]
      exact (hblack _ _ hs.1 hs.2.1 hs.2.2.1 hs.2.2.2).mpr ⟨rfl, rfl⟩

/-- C24, at an input: the raster of 9 by 9 pixels with its one black pixel at
`(4, 4)` and the centred brick of size 3 x 3. -/
theorem dilateBrick_single_pixel_witness :
    ∃ r, dilateBrick ⟨9, 9, fun x y => decide (x = 4 ∧ y = 4)⟩ (Brick.ofSize ⟨3, 3⟩)
        (BinaryImage.rect ⟨9, 9, fun x y => decide (x = 4 ∧ y = 4)⟩) .WHITE = some r ∧
      r.width = 9 ∧ r.height = 9 ∧
      ∀ x y : Int, 0 ≤ x → x < 9 → 0 ≤ y → y < 9 →
        (r.black x y = true ↔
          ((Brick.ofSize ⟨3, 3⟩).minX ≤ x - 4 ∧ x - 4 ≤ (Brick.ofSize ⟨3, 3⟩).maxX ∧
            (Brick.ofSize ⟨3, 3⟩).minY ≤ y - 4 ∧ y - 4 ≤ (Brick.ofSize ⟨3, 3⟩).maxY)) :=
  dilateBrick_single_pixel ⟨9, 9, fun x y => decide (x = 4 ∧ y = 4)⟩ ⟨4, 4⟩
    (Brick.ofSize ⟨3, 3⟩) (by decide) (by decide)
    (by intro x y _ _ _ _; simp)

/-- C25: morphology duality with the same brick.  For every raster `R`, brick `B`
(whatever its origin), destination rectangle `D` and boundary fill `c`,
`erodeBrick(R, B, D, c)` equals the pixel-wise complement of
`dilateBrick(NOT R, B, D, c')`, `c'` being the complement of `c`; both fail on
an empty brick. -/
theorem erodeBrick_dual (R : BinaryImage) (B : Brick) (D : QRect) (c : BWColor) :
    SameResult (erodeBrick R B D c)
      ((dilateBrick R.inverted B D c.inverted).map BinaryImage.inverted) := by
  unfold erodeBrick dilateBrick
  by_cases hB : B.isEmpty = true
  · rw [if_pos hB, if_pos hB]
    trivial
  · rw [if_neg hB, if_neg hB]
    refine ⟨rfl, rfl, ?_⟩
    intro x y _ _ _ _
    show planeErode (R.sample c) B (D.x1 + x) (D.y1 + y)
      = !planeDilate (R.inverted.sample c.inverted) B (D.x1 + x) (D.y1 + y)
    rw [Bool.eq_iff_iff, planeErode_iff, Bool.not_eq_true']
    constructor
    · intro h
      cases hdil : planeDilate (R.inverted.sample c.inverted) B (D.x1 + x) (D.y1 + y) with
      | false => rfl
      | true =>
        obtain ⟨dx, dy, h1, h2, h3, h4, hs⟩ := (planeDilate_iff _ _ _ _).mp hdil
        rw [sample_inverted, h dx dy h1 h2 h3 h4] at hs
        exact absurd hs (by decide)
    · intro h dx dy h1 h2 h3 h4
      cases hs : R.sample c (D.x1 + x - dx) (D.y1 + y - dy) with
      | true => rfl
      | false =>
        have hdil : planeDilate (R.inverted.sample c.inverted) B (D.x1 + x) (D.y1 + y)
            = true := by
          rw [planeDilate_iff]
          exact ⟨dx, dy, h1, h2, h3, h4, by rw [sample_inverted, hs]; rfl⟩
        rw [h] at hdil
        exact absurd hdil (by decide)

/-- C26: extent independence of dilation.  For every source raster, non-empty
brick, fill colour and rectangles `D'` contained in `D`, `dilateBrick` into
`D'` returns a raster with exactly the width and height of `D'` whose pixels
equal the pixels of `dilateBrick` into `D` at the offset `D'.topLeft - D.topLeft`,
which lie in the latter raster. -/
theorem dilateBrick_extent (src : BinaryImage) (B : Brick) (c : BWColor) (D D1 : QRect)
    (hne : B.isEmpty = false)
    (hsub : D.x1 ≤ D1.x1 ∧ D1.x2 ≤ D.x2 ∧ D.y1 ≤ D1.y1 ∧ D1.y2 ≤ D.y2) :
    ∃ r r1, dilateBrick src B D c = some r ∧ dilateBrick src B D1 c = some r1 ∧
      r1.width = D1.width ∧ r1.height = D1.height ∧
      ∀ x y : Int, 0 ≤ x → x < D1.width → 0 ≤ y → y < D1.height →
        (0 ≤ x + (D1.x1 - D.x1) ∧ x + (D1.x1 - D.x1) < r.width ∧
          0 ≤ y + (D1.y1 - D.y1) ∧ y + (D1.y1 - D.y1) < r.height) ∧
        r1.black x y = r.black (x + (D1.x1 - D.x1)) (y + (D1.y1 - D.y1)) := by
  refine ⟨_, _, by simp only [dilateBrick, hne]; rfl, by simp only [dilateBrick, hne]; rfl,
    rfl, rfl, ?_⟩
  intro x y hx0 hxw hy0 hyh
  simp only [cropPlane, QRect.width, QRect.height] at hxw hyh ⊢
  refine ⟨by omega, ?_⟩
  have e1 : D.x1 + (x + (D1.x1 - D.x1)) = D1.x1 + x := by ring
  have e2 : D.y1 + (y + (D1.y1 - D.y1)) = D1.y1 + y := by ring
  rw [e1, e2]

/-- C27: out-of-bounds fill in dilation.  For every source raster, non-empty
brick and destination rectangle: with fill `BLACK` every destination pixel
that has a brick sample outside the source canvas is foreground; with fill
`WHITE` a destination pixel is foreground only if one of its brick samples
inside the source canvas is foreground; and a destination pixel all of whose
samples lie outside the canvas is foreground iff the fill is `BLACK`. -/
theorem dilateBrick_out_of_bounds (src : BinaryImage) (B : Brick) (D : QRect)
    (hne : B.isEmpty = false) :
    (∃ r, dilateBrick src B D .BLACK = some r ∧
      ∀ x y dx dy : Int, B.minX ≤ dx → dx ≤ B.maxX → B.minY ≤ dy → dy ≤ B.maxY →
        ¬ (0 ≤ D.x1 + x - dx ∧ D.x1 + x - dx < src.width ∧
            0 ≤ D.y1 + y - dy ∧ D.y1 + y - dy < src.height) →
        r.black x y = true) ∧
    (∃ r, dilateBrick src B D .WHITE = some r ∧
      ∀ x y : Int, r.black x y = true →
        ∃ dx dy : Int, B.minX ≤ dx ∧ dx ≤ B.maxX ∧ B.minY ≤ dy ∧ dy ≤ B.maxY ∧
          (0 ≤ D.x1 + x - dx ∧ D.x1 + x - dx < src.width ∧
            0 ≤ D.y1 + y - dy ∧ D.y1 + y - dy < src.height) ∧
          src.black (D.x1 + x - dx) (D.y1 + y - dy) = true) ∧
    (∀ c : BWColor, ∃ r, dilateBrick src B D c = some r ∧
      ∀ x y : Int,
        (∀ dx dy : Int, B.minX ≤ dx → dx ≤ B.maxX → B.minY ≤ dy → dy ≤ B.maxY →
          ¬ (0 ≤ D.x1 + x - dx ∧ D.x1 + x - dx < src.width ∧
              0 ≤ D.y1 + y - dy ∧ D.y1 + y - dy < src.height)) →
        (r.black x y = true ↔ c = .BLACK)) := by
  have hB := (brick_isEmpty_eq_false B).mp hne
  refine ⟨⟨_, by simp only [dilateBrick, hne]; rfl, ?_⟩,
    ⟨_, by simp only [dilateBrick, hne]; rfl, ?_⟩,
    fun c => ⟨_, by simp only [dilateBrick, hne]; rfl, ?_⟩⟩
  · intro x y dx dy h1 h2 h3 h4 hout
    simp only [cropPlane, planeDilate_iff]
    refine ⟨dx, dy, h1, h2, h3, h4, ?_⟩
    rw [sample_of_outside src _ _ _ hout]
    rfl
  · intro x y h
    simp only [cropPlane, planeDilate_iff] at h
    obtain ⟨dx, dy, h1, h2, h3, h4, hs⟩ := h
    by_cases hin : 0 ≤ D.x1 + x - dx ∧ D.x1 + x - dx < src.width ∧
        0 ≤ D.y1 + y - dy ∧ D.y1 + y - dy < src.height
    · rw [sample_of_inside src _ _ _ hin.1 hin.2.1 hin.2.2.1 hin.2.2.2] at hs
      exact ⟨dx, dy, h1, h2, h3, h4, hin, hs⟩
    · rw [sample_of_outside src _ _ _ hin] at hs
      simp at hs
  · intro x y hall
    simp only [cropPlane, planeDilate_iff]
    constructor
    · rintro ⟨dx, dy, h1, h2, h3, h4, hs⟩
      rw [sample_of_outside src _ _ _ (hall dx dy h1 h2 h3 h4)] at hs
      simpa using hs
    · intro hc
      refine ⟨B.minX, B.minY, le_rfl, hB.1, le_rfl, hB.2, ?_⟩
      rw [sample_of_outside src _ _ _ (hall _ _ le_rfl hB.1 le_rfl hB.2)]
      simpa using hc

/-- C26, at an input: the narrowing of `test_dilate_3x3_narrowing_white`, from the
image rectangle to the rectangle `(5, 0, 4, 9)`. -/
theorem dilateBrick_extent_witness :
    ∃ r r1, dilateBrick testDilateInput (Brick.ofSize ⟨3, 3⟩) testDilateInput.rect .WHITE
          = some r ∧
      dilateBrick testDilateInput (Brick.ofSize ⟨3, 3⟩) (QRect.ofXYWH 5 0 4 9) .WHITE
          = some r1 ∧
      r1.width = (QRect.ofXYWH 5 0 4 9).width ∧ r1.height = (QRect.ofXYWH 5 0 4 9).height ∧
      ∀ x y : Int, 0 ≤ x → x < (QRect.ofXYWH 5 0 4 9).width →
        0 ≤ y → y < (QRect.ofXYWH 5 0 4 9).height →
        (0 ≤ x + ((QRect.ofXYWH 5 0 4 9).x1 - testDilateInput.rect.x1) ∧
          x + ((QRect.ofXYWH 5 0 4 9).x1 - testDilateInput.rect.x1) < r.width ∧
          0 ≤ y + ((QRect.ofXYWH 5 0 4 9).y1 - testDilateInput.rect.y1) ∧
          y + ((QRect.ofXYWH 5 0 4 9).y1 - testDilateInput.rect.y1) < r.height) ∧
        r1.black x y = r.black (x + ((QRect.ofXYWH 5 0 4 9).x1 - testDilateInput.rect.x1))
          (y + ((QRect.ofXYWH 5 0 4 9).y1 - testDilateInput.rect.y1)) :=
  dilateBrick_extent testDilateInput (Brick.ofSize ⟨3, 3⟩) .WHITE testDilateInput.rect
    (QRect.ofXYWH 5 0 4 9) (by decide) (by decide)

/-- C27, at an input: the widening of `test_dilate_3x3_widening_black`, into the
image rectangle grown by one pixel on every side. -/
theorem dilateBrick_out_of_bounds_witness :
    (∃ r, dilateBrick testDilateInput (Brick.ofSize ⟨3, 3⟩)
        (testDilateInput.rect.adjusted (-1) (-1) 1 1) .BLACK = some r ∧
      ∀ x y dx dy : Int, (Brick.ofSize ⟨3, 3⟩).minX ≤ dx → dx ≤ (Brick.ofSize ⟨3, 3⟩).maxX →
        (Brick.ofSize ⟨3, 3⟩).minY ≤ dy → dy ≤ (Brick.ofSize ⟨3, 3⟩).maxY →
        ¬ (0 ≤ (testDilateInput.rect.adjusted (-1) (-1) 1 1).x1 + x - dx ∧
            (testDilateInput.rect.adjusted (-1) (-1) 1 1).x1 + x - dx < testDilateInput.width ∧
            0 ≤ (testDilateInput.rect.adjusted (-1) (-1) 1 1).y1 + y - dy ∧
            (testDilateInput.rect.adjusted (-1) (-1) 1 1).y1 + y - dy
              < testDilateInput.height) →
        r.black x y = true) ∧
    (∃ r, dilateBrick testDilateInput (Brick.ofSize ⟨3, 3⟩)
        (testDilateInput.rect.adjusted (-1) (-1) 1 1) .WHITE = some r ∧
      ∀ x y : Int, r.black x y = true →
        ∃ dx dy : Int, (Brick.ofSize ⟨3, 3⟩).minX ≤ dx ∧ dx ≤ (Brick.ofSize ⟨3, 3⟩).maxX ∧
          (Brick.ofSize ⟨3, 3⟩).minY ≤ dy ∧ dy ≤ (Brick.ofSize ⟨3, 3⟩).maxY ∧
          (0 ≤ (testDilateInput.rect.adjusted (-1) (-1) 1 1).x1 + x - dx ∧
            (testDilateInput.rect.adjusted (-1) (-1) 1 1).x1 + x - dx < testDilateInput.width ∧
            0 ≤ (testDilateInput.rect.adjusted (-1) (-1) 1 1).y1 + y - dy ∧
            (testDilateInput.rect.adjusted (-1) (-1) 1 1).y1 + y - dy
              < testDilateInput.height) ∧
          testDilateInput.black ((testDilateInput.rect.adjusted (-1) (-1) 1 1).x1 + x - dx)
            ((testDilateInput.rect.adjusted (-1) (-1) 1 1).y1 + y - dy) = true) ∧
    (∀ c : BWColor, ∃ r, dilateBrick testDilateInput (Brick.ofSize ⟨3, 3⟩)
        (testDilateInput.rect.adjusted (-1) (-1) 1 1) c = some r ∧
      ∀ x y : Int,
        (∀ dx dy : Int, (Brick.ofSize ⟨3, 3⟩).minX ≤ dx → dx ≤ (Brick.ofSize ⟨3, 3⟩).maxX →
          (Brick.ofSize ⟨3, 3⟩).minY ≤ dy → dy ≤ (Brick.ofSize ⟨3, 3⟩).maxY →
          ¬ (0 ≤ (testDilateInput.rect.adjusted (-1) (-1) 1 1).x1 + x - dx ∧
              (testDilateInput.rect.adjusted (-1) (-1) 1 1).x1 + x - dx
                < testDilateInput.width ∧
              0 ≤ (testDilateInput.rect.adjusted (-1) (-1) 1 1).y1 + y - dy ∧
              (testDilateInput.rect.adjusted (-1) (-1) 1 1).y1 + y - dy
                < testDilateInput.height)) →
        (r.black x y = true ↔ c = .BLACK)) :=
  dilateBrick_out_of_bounds testDilateInput (Brick.ofSize ⟨3, 3⟩)
    (testDilateInput.rect.adjusted (-1) (-1) 1 1) (by decide)

/-- C29: the brick origin acts as a translation.  For every source raster, brick
size, origin `o`, displacement `d`, destination rectangle `D` and fill colour,
`dilateBrick` with `Brick(size, o + d)` into `D` returns the same raster as
`dilateBrick` with `Brick(size, o)` into `D` translated by `d` (and fails when
the other does). -/
theorem dilateBrick_origin_translation (src : BinaryImage) (size : QSize) (o d : QPoint)
    (D : QRect) (c : BWColor) :
    SameResult (dilateBrick src (Brick.ofSizeOrigin size ⟨o.x + d.x, o.y + d.y⟩) D c)
      (dilateBrick src (Brick.ofSizeOrigin size o) (D.translated d.x d.y) c) := by
  have hemp : (Brick.ofSizeOrigin size ⟨o.x + d.x, o.y + d.y⟩).isEmpty
      = (Brick.ofSizeOrigin size o).isEmpty := by
    simp only [Brick.isEmpty, Brick.ofSizeOrigin]
    apply decide_eq_decide.mpr
    omega
  unfold dilateBrick
  rw [hemp]
  by_cases hB : (Brick.ofSizeOrigin size o).isEmpty = true
  · rw [if_pos hB, if_pos hB]
    trivial
  · rw [if_neg hB, if_neg hB]
    refine ⟨?_, ?_, ?_⟩
    · simp only [cropPlane, QRect.translated, QRect.width]; ring
    · simp only [cropPlane, QRect.translated, QRect.height]; ring
    · intro x y _ _ _ _
      simp only [cropPlane, QRect.translated]
      rw [Bool.eq_iff_iff, planeDilate_iff, planeDilate_iff]
      simp only [Brick.ofSizeOrigin]
      constructor
      · rintro ⟨dx, dy, h1, h2, h3, h4, h⟩
        refine ⟨dx + d.x, dy + d.y, by omega, by omega, by omega, by omega, ?_⟩
        have e1 : D.x1 + d.x + x - (dx + d.x) = D.x1 + x - dx := by ring
        have e2 : D.y1 + d.y + y - (dy + d.y) = D.y1 + y - dy := by ring
        rw [e1, e2]
        exact h
      · rintro ⟨dx, dy, h1, h2, h3, h4, h⟩
        refine ⟨dx - d.x, dy - d.y, by omega, by omega, by omega, by omega, ?_⟩
        have e1 : D.x1 + x - (dx - d.x) = D.x1 + d.x + x - dx := by ring
        have e2 : D.y1 + y - (dy - d.y) = D.y1 + d.y + y - dy := by ring
        rw [e1, e2]
        exact h

/-- C30: a 1 x 1 brick is the identity.  For every raster `img` and either colour
of the surroundings, `dilateBrick(img, QSize(1,1), img.rect())` equals `img` and
`erodeBrick(img, QSize(1,1), img.rect())` equals `img`. -/
theorem brick_1x1_identity (img : BinaryImage) (c : BWColor) :
    (∃ r, dilateBrick img (Brick.ofSize ⟨1, 1⟩) img.rect c = some r ∧ r.SameAs img) ∧
    (∃ r, erodeBrick img (Brick.ofSize ⟨1, 1⟩) img.rect c = some r ∧ r.SameAs img) := by
  have hbrick : Brick.ofSize ⟨1, 1⟩ = ⟨0, 0, 0, 0⟩ := by decide
  have hne : (Brick.ofSize ⟨1, 1⟩).isEmpty = false := by decide
  have hw : (img.rect).width = img.width := by
    simp only [BinaryImage.rect, QRect.ofXYWH, QRect.width]; ring
  have hh : (img.rect).height = img.height := by
    simp only [BinaryImage.rect, QRect.ofXYWH, QRect.height]; ring
  have hx1 : (img.rect).x1 = 0 := rfl
  have hy1 : (img.rect).y1 = 0 := rfl
  constructor
  · refine ⟨_, by simp only [dilateBrick, hne]; rfl, hw, hh, ?_⟩
    intro x y hx0 hxw hy0 hyh
    simp only [cropPlane, hw, hh, hx1, hy1, zero_add] at hxw hyh ⊢
    rw [Bool.eq_iff_iff, planeDilate_iff, hbrick]
    dsimp only
    constructor
    · rintro ⟨dx, dy, h1, h2, h3, h4, h⟩
      have hdx : dx = 0 := by omega
      have hdy : dy = 0 := by omega
      subst hdx hdy
      simpa [sample_of_inside img c x y hx0 hxw hy0 hyh] using h
    · intro h
      exact ⟨0, 0, le_rfl, le_rfl, le_rfl, le_rfl,
        by simpa [sample_of_inside img c x y hx0 hxw hy0 hyh] using h⟩
  · refine ⟨_, by simp only [erodeBrick, hne]; rfl, hw, hh, ?_⟩
    intro x y hx0 hxw hy0 hyh
    simp only [cropPlane, hw, hh, hx1, hy1, zero_add] at hxw hyh ⊢
    rw [Bool.eq_iff_iff, planeErode_iff, hbrick]
    dsimp only
    constructor
    · intro h
      simpa [sample_of_inside img c x y hx0 hxw hy0 hyh] using h 0 0 le_rfl le_rfl le_rfl le_rfl
    · intro h dx dy h1 h2 h3 h4
      have hdx : dx = 0 := by omega
      have hdy : dy = 0 := by omega
      subst hdx hdy
      simpa [sample_of_inside img c x y hx0 hxw hy0 hyh] using h

theorem planeOpen_iff (f : Int → Int → Bool) (brick : Brick) (x y : Int) :
    planeDilate (planeErode f brick) brick.flipped x y = true ↔
      ∃ bx by_ : Int, brick.minX ≤ bx ∧ bx ≤ brick.maxX ∧ brick.minY ≤ by_ ∧
        by_ ≤ brick.maxY ∧
        ∀ dx dy : Int, brick.minX ≤ dx → dx ≤ brick.maxX → brick.minY ≤ dy →
          dy ≤ brick.maxY → f (x + bx - dx) (y + by_ - dy) = true := by
  rw [planeDilate_iff]
  simp only [Brick.flipped]
  constructor
  · rintro ⟨ex, ey, h1, h2, h3, h4, h⟩
    rw [planeErode_iff] at h
    refine ⟨-ex, -ey, by omega, by omega, by omega, by omega, ?_⟩
    intro dx dy k1 k2 k3 k4
    have e1 : x + -ex - dx = x - ex - dx := by ring
    have e2 : y + -ey - dy = y - ey - dy := by ring
    rw [e1, e2]
    exact h dx dy k1 k2 k3 k4
  · rintro ⟨bx, by_, h1, h2, h3, h4, h⟩
    refine ⟨-bx, -by_, by omega, by omega, by omega, by omega, ?_⟩
    rw [planeErode_iff]
    intro dx dy k1 k2 k3 k4
    have e1 : x - -bx - dx = x + bx - dx := by ring
    have e2 : y - -by_ - dy = y + by_ - dy := by ring
    rw [e1, e2]
    exact h dx dy k1 k2 k3 k4

theorem planeClose_iff (f : Int → Int → Bool) (brick : Brick) (x y : Int) :
    planeErode (planeDilate f brick) brick.flipped x y = true ↔
      ∀ bx by_ : Int, brick.minX ≤ bx → bx ≤ brick.maxX → brick.minY ≤ by_ →
        by_ ≤ brick.maxY →
        ∃ dx dy : Int, brick.minX ≤ dx ∧ dx ≤ brick.maxX ∧ brick.minY ≤ dy ∧
          dy ≤ brick.maxY ∧ f (x + bx - dx) (y + by_ - dy) = true := by
  rw [planeErode_iff]
  simp only [Brick.flipped]
  constructor
  · intro h bx by_ h1 h2 h3 h4
    have h5 := h (-bx) (-by_) (by omega) (by omega) (by omega) (by omega)
    rw [planeDilate_iff] at h5
    obtain ⟨dx, dy, k1, k2, k3, k4, k⟩ := h5
    refine ⟨dx, dy, k1, k2, k3, k4, ?_⟩
    have e1 : x + bx - dx = x - -bx - dx := by ring
    have e2 : y + by_ - dy = y - -by_ - dy := by ring
    rw [e1, e2]
    exact k
  · intro h ex ey h1 h2 h3 h4
    obtain ⟨dx, dy, k1, k2, k3, k4, k⟩ :=
      h (-ex) (-ey) (by omega) (by omega) (by omega) (by omega)
    rw [planeDilate_iff]
    refine ⟨dx, dy, k1, k2, k3, k4, ?_⟩
    have e1 : x - ex - dx = x + -ex - dx := by ring
    have e2 : y - ey - dy = y + -ey - dy := by ring
    rw [e1, e2]
    exact k

/-- Opening an unbounded raster twice is opening it once. -/
theorem planeOpen_idempotent (f : Int → Int → Bool) (brick : Brick) (x y : Int) :
    planeDilate (planeErode (planeDilate (planeErode f brick) brick.flipped) brick)
        brick.flipped x y
      = planeDilate (planeErode f brick) brick.flipped x y := by
  rw [Bool.eq_iff_iff, planeOpen_iff, planeOpen_iff]
  constructor
  · rintro ⟨bx, by_, h1, h2, h3, h4, h⟩
    have h5 := h bx by_ h1 h2 h3 h4
    rw [planeOpen_iff] at h5
    obtain ⟨cx, cy, k1, k2, k3, k4, k⟩ := h5
    refine ⟨cx, cy, k1, k2, k3, k4, ?_⟩
    intro dx dy l1 l2 l3 l4
    have e1 : x + cx - dx = x + bx - bx + cx - dx := by ring
    have e2 : y + cy - dy = y + by_ - by_ + cy - dy := by ring
    rw [e1, e2]
    exact k dx dy l1 l2 l3 l4
  · rintro ⟨bx, by_, h1, h2, h3, h4, h⟩
    refine ⟨bx, by_, h1, h2, h3, h4, ?_⟩
    intro dx dy l1 l2 l3 l4
    rw [planeOpen_iff]
    refine ⟨dx, dy, l1, l2, l3, l4, ?_⟩
    intro ex ey m1 m2 m3 m4
    have e1 : x + bx - dx + dx - ex = x + bx - ex := by ring
    have e2 : y + by_ - dy + dy - ey = y + by_ - ey := by ring
    rw [e1, e2]
    exact h ex ey m1 m2 m3 m4

/-- Closing an unbounded raster twice is closing it once. -/
theorem planeClose_idempotent (f : Int → Int → Bool) (brick : Brick) (x y : Int) :
    planeErode (planeDilate (planeErode (planeDilate f brick) brick.flipped) brick)
        brick.flipped x y
      = planeErode (planeDilate f brick) brick.flipped x y := by
  rw [Bool.eq_iff_iff, planeClose_iff, planeClose_iff]
  constructor
  · intro h bx by_ h1 h2 h3 h4
    obtain ⟨cx, cy, k1, k2, k3, k4, k⟩ := h bx by_ h1 h2 h3 h4
    rw [planeClose_iff] at k
    obtain ⟨dx, dy, l1, l2, l3, l4, l⟩ := k cx cy k1 k2 k3 k4
    refine ⟨dx, dy, l1, l2, l3, l4, ?_⟩
    have e1 : x + bx - dx = x + bx - cx + cx - dx := by ring
    have e2 : y + by_ - dy = y + by_ - cy + cy - dy := by ring
    rw [e1, e2]
    exact l
  · intro h bx by_ h1 h2 h3 h4
    refine ⟨bx, by_, h1, h2, h3, h4, ?_⟩
    rw [planeClose_iff]
    intro cx cy k1 k2 k3 k4
    obtain ⟨dx, dy, l1, l2, l3, l4, l⟩ := h cx cy k1 k2 k3 k4
    refine ⟨dx, dy, l1, l2, l3, l4, ?_⟩
    have e1 : x + bx - bx + cx - dx = x + cx - dx := by ring
    have e2 : y + by_ - by_ + cy - dy = y + cy - dy := by ring
    rw [e1, e2]
    exact l

/-- Outside the canvas of a raster, a non-empty brick has a position that holds the
given point and lies wholly outside the canvas. -/
theorem brick_fits_outside (width height : Int) (brick : Brick)
    (hne : brick.isEmpty = false) (x y : Int)
    (hout : ¬ (0 ≤ x ∧ x < width ∧ 0 ≤ y ∧ y < height)) :
    ∃ bx by_ : Int, brick.minX ≤ bx ∧ bx ≤ brick.maxX ∧ brick.minY ≤ by_ ∧
      by_ ≤ brick.maxY ∧
      ∀ dx dy : Int, brick.minX ≤ dx → dx ≤ brick.maxX → brick.minY ≤ dy →
        dy ≤ brick.maxY →
        ¬ (0 ≤ x + bx - dx ∧ x + bx - dx < width ∧ 0 ≤ y + by_ - dy ∧
          y + by_ - dy < height) := by
  obtain ⟨hX, hY⟩ := (brick_isEmpty_eq_false brick).mp hne
  by_cases hx0 : x < 0
  · exact ⟨brick.minX, brick.minY, le_rfl, hX, le_rfl, hY, fun dx dy _ _ _ _ => by omega⟩
  by_cases hxw : width ≤ x
  · exact ⟨brick.maxX, brick.minY, hX, le_rfl, le_rfl, hY, fun dx dy _ _ _ _ => by omega⟩
  by_cases hy0 : y < 0
  · exact ⟨brick.minX, brick.minY, le_rfl, hX, le_rfl, hY, fun dx dy _ _ _ _ => by omega⟩
  · exact ⟨brick.minX, brick.maxY, le_rfl, hX, hY, le_rfl, fun dx dy _ _ _ _ => by omega⟩

/-- The opened raster, continued by the colour of the surroundings, is the opening
of the continued source. -/
theorem sample_opened (R : BinaryImage) (brick : Brick) (c : BWColor)
    (hne : brick.isEmpty = false) (x y : Int) :
    (cropPlane (planeDilate (planeErode (R.sample c) brick) brick.flipped) R.rect).sample c
        x y
      = planeDilate (planeErode (R.sample c) brick) brick.flipped x y := by
  have hw : (R.rect).width = R.width := by
    simp only [BinaryImage.rect, QRect.ofXYWH, QRect.width]; ring
  have hh : (R.rect).height = R.height := by
    simp only [BinaryImage.rect, QRect.ofXYWH, QRect.height]; ring
  by_cases hin : 0 ≤ x ∧ x < R.width ∧ 0 ≤ y ∧ y < R.height
  · rw [sample_of_inside _ c x y hin.1 (by simp only [cropPlane, hw]; exact hin.2.1) hin.2.2.1
      (by simp only [cropPlane, hh]; exact hin.2.2.2)]
    have hx1 : (R.rect).x1 = 0 := rfl
    have hy1 : (R.rect).y1 = 0 := rfl
    simp only [cropPlane, hx1, hy1, zero_add]
  · rw [sample_of_outside _ c x y (by simp only [cropPlane, hw, hh]; exact hin)]
    rw [Bool.eq_iff_iff, planeOpen_iff, decide_eq_true_eq]
    constructor
    · intro hc
      obtain ⟨bx, by_, h1, h2, h3, h4, h⟩ := brick_fits_outside R.width R.height brick hne x y hin
      refine ⟨bx, by_, h1, h2, h3, h4, ?_⟩
      intro dx dy k1 k2 k3 k4
      rw [sample_of_outside R c _ _ (h dx dy k1 k2 k3 k4)]
      exact decide_eq_true hc
    · rintro ⟨bx, by_, h1, h2, h3, h4, h⟩
      have h5 := h bx by_ h1 h2 h3 h4
      have e1 : x + bx - bx = x := by ring
      have e2 : y + by_ - by_ = y := by ring
      rw [e1, e2, sample_of_outside R c x y hin] at h5
      exact of_decide_eq_true h5

/-- The closed raster, continued by the colour of the surroundings, is the closing
of the continued source. -/
theorem sample_closed (R : BinaryImage) (brick : Brick) (c : BWColor)
    (hne : brick.isEmpty = false) (x y : Int) :
    (cropPlane (planeErode (planeDilate (R.sample c) brick) brick.flipped) R.rect).sample c
        x y
      = planeErode (planeDilate (R.sample c) brick) brick.flipped x y := by
  have hw : (R.rect).width = R.width := by
    simp only [BinaryImage.rect, QRect.ofXYWH, QRect.width]; ring
  have hh : (R.rect).height = R.height := by
    simp only [BinaryImage.rect, QRect.ofXYWH, QRect.height]; ring
  obtain ⟨hX, hY⟩ := (brick_isEmpty_eq_false brick).mp hne
  by_cases hin : 0 ≤ x ∧ x < R.width ∧ 0 ≤ y ∧ y < R.height
  · rw [sample_of_inside _ c x y hin.1 (by simp only [cropPlane, hw]; exact hin.2.1) hin.2.2.1
      (by simp only [cropPlane, hh]; exact hin.2.2.2)]
    have hx1 : (R.rect).x1 = 0 := rfl
    have hy1 : (R.rect).y1 = 0 := rfl
    simp only [cropPlane, hx1, hy1, zero_add]
  · rw [sample_of_outside _ c x y (by simp only [cropPlane, hw, hh]; exact hin)]
    rw [Bool.eq_iff_iff, planeClose_iff, decide_eq_true_eq]
    constructor
    · intro hc bx by_ h1 h2 h3 h4
      refine ⟨bx, by_, h1, h2, h3, h4, ?_⟩
      have e1 : x + bx - bx = x := by ring
      have e2 : y + by_ - by_ = y := by ring
      rw [e1, e2, sample_of_outside R c x y hin]
      exact decide_eq_true hc
    · intro h
      obtain ⟨bx, by_, h1, h2, h3, h4, hb⟩ :=
        brick_fits_outside R.width R.height brick hne x y hin
      obtain ⟨dx, dy, k1, k2, k3, k4, k⟩ := h bx by_ h1 h2 h3 h4
      rw [sample_of_outside R c _ _ (hb dx dy k1 k2 k3 k4)] at k
      exact of_decide_eq_true k

/-- C28: idempotence of opening and closing.  For every raster `R`, every brick
that is not empty (in particular `Brick(size)` for a size of at least 1 x 1)
and either colour of the surroundings, with the destination rectangle equal to
the rectangle of the raster, `openBrick` returns a raster that `openBrick`
returns unchanged, and `closeBrick` returns a raster that `closeBrick` returns
unchanged. -/
theorem open_close_idempotent (R : BinaryImage) (brick : Brick) (c : BWColor)
    (hne : brick.isEmpty = false) :
    (∃ r r2, openBrick R brick R.rect c = some r ∧ openBrick r brick r.rect c = some r2 ∧
      r2.SameAs r) ∧
    (∃ r r2, closeBrick R brick R.rect c = some r ∧ closeBrick r brick r.rect c = some r2 ∧
      r2.SameAs r) := by
  have hw : (R.rect).width = R.width := by
    simp only [BinaryImage.rect, QRect.ofXYWH, QRect.width]; ring
  have hh : (R.rect).height = R.height := by
    simp only [BinaryImage.rect, QRect.ofXYWH, QRect.height]; ring
  have hrect : ∀ f : Int → Int → Bool, (cropPlane f R.rect).rect = R.rect := by
    intro f
    have e : (cropPlane f R.rect).rect
        = QRect.ofXYWH 0 0 (R.rect).width (R.rect).height := rfl
    rw [e, hw, hh]
    rfl
  constructor
  · refine ⟨_, _, by simp only [openBrick, hne]; rfl, by simp only [openBrick, hne]; rfl, ?_⟩
    rw [hrect]
    refine ⟨rfl, rfl, ?_⟩
    intro x y _ _ _ _
    have hfun : (cropPlane (planeDilate (planeErode (R.sample c) brick) brick.flipped)
        R.rect).sample c = planeDilate (planeErode (R.sample c) brick) brick.flipped :=
      funext fun a => funext fun b => sample_opened R brick c hne a b
    rw [hfun]
    simp only [cropPlane]
    exact planeOpen_idempotent (R.sample c) brick _ _
  · refine ⟨_, _, by simp only [closeBrick, hne]; rfl, by simp only [closeBrick, hne]; rfl, ?_⟩
    rw [hrect]
    refine ⟨rfl, rfl, ?_⟩
    intro x y _ _ _ _
    have hfun : (cropPlane (planeErode (planeDilate (R.sample c) brick) brick.flipped)
        R.rect).sample c = planeErode (planeDilate (R.sample c) brick) brick.flipped :=
      funext fun a => funext fun b => sample_closed R brick c hne a b
    rw [hfun]
    simp only [cropPlane]
    exact planeClose_idempotent (R.sample c) brick _ _

/-- C28, at an input: the raster of `test_open_2x2_white` and the 2 x 2 brick. -/
theorem open_close_idempotent_witness :
    (∃ r r2, openBrick testOpenInput (Brick.ofSize ⟨2, 2⟩) testOpenInput.rect .WHITE = some r ∧
      openBrick r (Brick.ofSize ⟨2, 2⟩) r.rect .WHITE = some r2 ∧ r2.SameAs r) ∧
    (∃ r r2, closeBrick testOpenInput (Brick.ofSize ⟨2, 2⟩) testOpenInput.rect .WHITE
        = some r ∧
      closeBrick r (Brick.ofSize ⟨2, 2⟩) r.rect .WHITE = some r2 ∧ r2.SameAs r) :=
  open_close_idempotent testOpenInput (Brick.ofSize ⟨2, 2⟩) .WHITE (by decide)

/-- C21: the debug sink never affects the decision.  For all other arguments
equal, `selectSinglePageSplitLine` and `cutAtWhitespaceDeskewed150` return the
same layout for the null sink and for every sink, namely the layout of the
function without the sink; and so does `cutAtFoldingLine`, given that the
result of `VertLineFinder::findLines` (which is not among the sources and
receives the sink too) does not depend on the sink. -/
theorem dbg_never_affects_layout
    (findLines : QImage → Int → Option DebugImages → Bool →
      (List QLineF × QImage) × Option DebugImages)
    (hfind : ∀ input max_lines want sink,
      (findLines input max_lines (some sink) want).1 = (findLines input max_lines none want).1)
    (binarizeOtsu : QImage → BinaryImage)
    (connComps : BinaryImage → Connectivity → List ConnComp)
    (findSpans : Int → Int → BinaryImage → List Span)
    (sink : DebugImages) :
    (∀ ltr_lines image_size hor_shadows,
      (selectSinglePageSplitLineDbg binarizeOtsu ltr_lines image_size hor_shadows
          (some sink)).1
        = (selectSinglePageSplitLineDbg binarizeOtsu ltr_lines image_size hor_shadows none).1 ∧
      (selectSinglePageSplitLineDbg binarizeOtsu ltr_lines image_size hor_shadows none).1
        = selectSinglePageSplitLine binarizeOtsu ltr_lines image_size hor_shadows) ∧
    (∀ advised layout_type input,
      (cutAtFoldingLineDbg findLines binarizeOtsu advised layout_type input (some sink)).1
        = (cutAtFoldingLineDbg findLines binarizeOtsu advised layout_type input none).1 ∧
      (cutAtFoldingLineDbg findLines binarizeOtsu advised layout_type input none).1
        = cutAtFoldingLine (fun i n want => (findLines i n none want).1) binarizeOtsu advised
            layout_type input) ∧
    (∀ layout_type num_pages input left_offcut right_offcut,
      (cutAtWhitespaceDeskewed150Dbg connComps findSpans layout_type num_pages input
          left_offcut right_offcut (some sink)).1
        = (cutAtWhitespaceDeskewed150Dbg connComps findSpans layout_type num_pages input
          left_offcut right_offcut none).1 ∧
      (cutAtWhitespaceDeskewed150Dbg connComps findSpans layout_type num_pages input
          left_offcut right_offcut none).1
        = cutAtWhitespaceDeskewed150 connComps findSpans layout_type num_pages input
          left_offcut right_offcut) := by
  have hsel : ∀ (dbg : Option DebugImages) ltr_lines image_size hor_shadows,
      (selectSinglePageSplitLineDbg binarizeOtsu ltr_lines image_size hor_shadows dbg).1
        = selectSinglePageSplitLine binarizeOtsu ltr_lines image_size hor_shadows := by
    intro dbg ltr_lines image_size hor_shadows
    unfold selectSinglePageSplitLineDbg selectSinglePageSplitLine
    dsimp only
    split_ifs <;> rfl
  have hfold : ∀ (dbg : Option DebugImages) advised layout_type input,
      (cutAtFoldingLineDbg findLines binarizeOtsu advised layout_type input dbg).1
        = cutAtFoldingLine (fun i n want => (findLines i n none want).1) binarizeOtsu advised
            layout_type input := by
    intro dbg advised layout_type input
    have hf : ∀ i n want, (findLines i n dbg want).1 = (findLines i n none want).1 := by
      intro i n want
      cases dbg with
      | none => rfl
      | some s => exact hfind i n want s
    unfold cutAtFoldingLineDbg cutAtFoldingLine
    dsimp only
    rw [hf]
    split_ifs <;> first | rfl | exact congrArg some (hsel _ _ _ _)
  have hws : ∀ (dbg : Option DebugImages) layout_type num_pages input left_offcut right_offcut,
      (cutAtWhitespaceDeskewed150Dbg connComps findSpans layout_type num_pages input
          left_offcut right_offcut dbg).1
        = cutAtWhitespaceDeskewed150 connComps findSpans layout_type num_pages input
          left_offcut right_offcut := by
    intro dbg layout_type num_pages input left_offcut right_offcut
    unfold cutAtWhitespaceDeskewed150Dbg cutAtWhitespaceDeskewed150
    dsimp only
    split_ifs
    · rfl
    · cases removeInsignificantEdgeSpans (findSpans 2 8 (ccImg (connComps input .CONN8) input))
        <;> rfl
  refine ⟨?_, ?_, ?_⟩
  · intro a b c
    exact ⟨(hsel _ a b c).trans (hsel _ a b c).symm, hsel _ a b c⟩
  · intro a b c
    exact ⟨(hfold _ a b c).trans (hfold _ a b c).symm, hfold _ a b c⟩
  · intro a b c d e
    exact ⟨(hws _ a b c d e).trans (hws _ a b c d e).symm, hws _ a b c d e⟩

/-- C21, at an input: the line finder `exampleFindLines`, whose result does not
depend on the sink, and the empty sink. -/
theorem dbg_never_affects_layout_witness :
    (∀ input max_lines want sink,
      (exampleFindLines input max_lines (some sink) want).1
        = (exampleFindLines input max_lines none want).1) ∧
    ((∀ ltr_lines image_size hor_shadows,
      (selectSinglePageSplitLineDbg binarizeAt128 ltr_lines image_size hor_shadows
          (some ⟨[]⟩)).1
        = (selectSinglePageSplitLineDbg binarizeAt128 ltr_lines image_size hor_shadows none).1 ∧
      (selectSinglePageSplitLineDbg binarizeAt128 ltr_lines image_size hor_shadows none).1
        = selectSinglePageSplitLine binarizeAt128 ltr_lines image_size hor_shadows) ∧
    (∀ advised layout_type input,
      (cutAtFoldingLineDbg exampleFindLines binarizeAt128 advised layout_type input
          (some ⟨[]⟩)).1
        = (cutAtFoldingLineDbg exampleFindLines binarizeAt128 advised layout_type input none).1 ∧
      (cutAtFoldingLineDbg exampleFindLines binarizeAt128 advised layout_type input none).1
        = cutAtFoldingLine (fun i n want => (exampleFindLines i n none want).1) binarizeAt128
            advised layout_type input) ∧
    (∀ layout_type num_pages input left_offcut right_offcut,
      (cutAtWhitespaceDeskewed150Dbg (fun _ _ => []) (fun _ _ _ => [⟨10, 60⟩]) layout_type
          num_pages input left_offcut right_offcut (some ⟨[]⟩)).1
        = (cutAtWhitespaceDeskewed150Dbg (fun _ _ => []) (fun _ _ _ => [⟨10, 60⟩]) layout_type
          num_pages input left_offcut right_offcut none).1 ∧
      (cutAtWhitespaceDeskewed150Dbg (fun _ _ => []) (fun _ _ _ => [⟨10, 60⟩]) layout_type
          num_pages input left_offcut right_offcut none).1
        = cutAtWhitespaceDeskewed150 (fun _ _ => []) (fun _ _ _ => [⟨10, 60⟩]) layout_type
          num_pages input left_offcut right_offcut)) :=
  ⟨fun _ _ _ _ => rfl,
    dbg_never_affects_layout exampleFindLines (fun _ _ _ _ => rfl) binarizeAt128
      (fun _ _ => []) (fun _ _ _ => [⟨10, 60⟩]) ⟨[]⟩⟩

theorem processContentSpansSinglePage_some (layout_type : LayoutType) (spans : List Span)
    (width height : Int) (left_offcut right_offcut : Bool)
    (ht : layout_type = .AUTO_DETECT ∨ layout_type = .LEFT_PAGE_PLUS_OFFCUT
      ∨ layout_type = .RIGHT_PAGE_PLUS_OFFCUT) :
    ∃ l, processContentSpansSinglePage layout_type spans width height left_offcut
      right_offcut = some l := by
  unfold processContentSpansSinglePage
  rw [if_neg (not_not.mpr ht)]
  split_ifs
  · cases rightOffcutX layout_type spans width with
    | none => exact ⟨_, rfl⟩
    | some x => exact ⟨_, rfl⟩
  · exact ⟨_, rfl⟩

/-- C22: no assertion on the layout type can fail on a call that comes through
`estimatePageLayout`.  For every layout type other than `SINGLE_PAGE_UNCUT`
and every page count `numPages` returns for it (the advice in auto mode being
any integer): when the count is 1, the type is one of `AUTO_DETECT`,
`LEFT_PAGE_PLUS_OFFCUT`, `RIGHT_PAGE_PLUS_OFFCUT` and
`processContentSpansSinglePage` returns a layout for it; otherwise the type is
`AUTO_DETECT` or `TWO_PAGES` and `processContentSpansTwoPages` returns a layout
for it; hence `cutAtWhitespaceDeskewed150` and `cutAtWhitespace` return a
layout. -/
theorem dispatch_type_admissible
    (connComps : BinaryImage → Connectivity → List ConnComp)
    (findSpans : Int → Int → BinaryImage → List Span)
    (layout_type : LayoutType) (advised : Int) (input : BinaryImage)
    (left_offcut right_offcut : Bool)
    (huncut : layout_type ≠ .SINGLE_PAGE_UNCUT) :
    (numPages layout_type advised = 1 →
      (layout_type = .AUTO_DETECT ∨ layout_type = .LEFT_PAGE_PLUS_OFFCUT
        ∨ layout_type = .RIGHT_PAGE_PLUS_OFFCUT) ∧
      ∀ spans width height, ∃ l, processContentSpansSinglePage layout_type spans width height
        left_offcut right_offcut = some l) ∧
    (numPages layout_type advised ≠ 1 →
      (layout_type = .AUTO_DETECT ∨ layout_type = .TWO_PAGES) ∧
      ∀ spans width height, ∃ l, processContentSpansTwoPages layout_type spans width height
        = some l) ∧
    (∃ l, cutAtWhitespaceDeskewed150 connComps findSpans layout_type
      (numPages layout_type advised) input left_offcut right_offcut = some l) ∧
    (∀ (env : Imaging) (image : QImage), ∃ l,
      cutAtWhitespace env advised layout_type image = some l) := by
  have h1 : numPages layout_type advised = 1 →
      (layout_type = .AUTO_DETECT ∨ layout_type = .LEFT_PAGE_PLUS_OFFCUT
        ∨ layout_type = .RIGHT_PAGE_PLUS_OFFCUT) := by
    intro h
    cases layout_type with
    | AUTO_DETECT => exact Or.inl rfl
    | SINGLE_PAGE_UNCUT => exact absurd rfl huncut
    | LEFT_PAGE_PLUS_OFFCUT => exact Or.inr (Or.inl rfl)
    | RIGHT_PAGE_PLUS_OFFCUT => exact Or.inr (Or.inr rfl)
    | TWO_PAGES => exact absurd (show (2 : Int) = 1 from h) (by decide)
  have h2 : numPages layout_type advised ≠ 1 →
      (layout_type = .AUTO_DETECT ∨ layout_type = .TWO_PAGES) := by
    intro h
    cases layout_type with
    | AUTO_DETECT => exact Or.inl rfl
    | SINGLE_PAGE_UNCUT => exact absurd rfl huncut
    | LEFT_PAGE_PLUS_OFFCUT => exact absurd rfl h
    | RIGHT_PAGE_PLUS_OFFCUT => exact absurd rfl h
    | TWO_PAGES => exact Or.inr rfl
  have h3 : ∀ (cc : BinaryImage → Connectivity → List ConnComp)
      (fs : Int → Int → BinaryImage → List Span) (img : BinaryImage) (lo ro : Bool),
      ∃ l, cutAtWhitespaceDeskewed150 cc fs layout_type (numPages layout_type advised) img
        lo ro = some l := by
    intro cc fs img lo ro
    unfold cutAtWhitespaceDeskewed150
    dsimp only
    by_cases hn : numPages layout_type advised = 1
    · rw [if_pos hn]
      exact processContentSpansSinglePage_some _ _ _ _ _ _ (h1 hn)
    · rw [if_neg hn]
      obtain ⟨r, hr⟩ := removeInsignificantEdgeSpans_some
        (fs 2 8 (ccImg (cc img .CONN8) img))
      rw [hr]
      obtain ⟨x, hx⟩ := processContentSpansTwoPages_eq layout_type r img.width img.height
        (h2 hn)
      exact ⟨_, hx⟩
  refine ⟨fun h => ⟨h1 h, fun spans width height =>
      processContentSpansSinglePage_some _ _ _ _ _ _ (h1 h)⟩,
    fun h => ⟨h2 h, fun spans width height => ?_⟩, h3 _ _ _ _ _, ?_⟩
  · obtain ⟨x, hx⟩ := processContentSpansTwoPages_eq layout_type spans width height (h2 h)
    exact ⟨_, hx⟩
  · intro env image
    unfold cutAtWhitespace
    dsimp only
    obtain ⟨l, hl⟩ := h3 env.connComps env.findSpans
      (env.deskew (env.removeGarbageAnd2xDownscale
        (env.orthogonalRotation (env.to300DpiBinary image))))
      (checkForLeftOffcut (env.removeGarbageAnd2xDownscale
        (env.orthogonalRotation (env.to300DpiBinary image))))
      (checkForRightOffcut (env.removeGarbageAnd2xDownscale
        (env.orthogonalRotation (env.to300DpiBinary image))))
    rw [hl]
    exact ⟨_, rfl⟩

/-- C22, at an input: auto mode with the advice of two pages, on a white raster
100 pixels wide for which the span finder reports the span `[10, 60)`. -/
theorem dispatch_type_admissible_witness :
    (numPages .AUTO_DETECT 2 = 1 →
      (LayoutType.AUTO_DETECT = .AUTO_DETECT ∨ LayoutType.AUTO_DETECT = .LEFT_PAGE_PLUS_OFFCUT
        ∨ LayoutType.AUTO_DETECT = .RIGHT_PAGE_PLUS_OFFCUT) ∧
      ∀ spans width height, ∃ l, processContentSpansSinglePage .AUTO_DETECT spans width height
        false false = some l) ∧
    (numPages .AUTO_DETECT 2 ≠ 1 →
      (LayoutType.AUTO_DETECT = .AUTO_DETECT ∨ LayoutType.AUTO_DETECT = .TWO_PAGES) ∧
      ∀ spans width height, ∃ l, processContentSpansTwoPages .AUTO_DETECT spans width height
        = some l) ∧
    (∃ l, cutAtWhitespaceDeskewed150 (fun _ _ => []) (fun _ _ _ => [⟨10, 60⟩]) .AUTO_DETECT
      (numPages .AUTO_DETECT 2) (BinaryImage.white 100 100) false false = some l) ∧
    (∀ (env : Imaging) (image : QImage), ∃ l,
      cutAtWhitespace env 2 .AUTO_DETECT image = some l) :=
  dispatch_type_admissible (fun _ _ => []) (fun _ _ _ => [⟨10, 60⟩]) .AUTO_DETECT 2
    (BinaryImage.white 100 100) false false (by decide)

/-! ### The checks of `TestMorphology.cpp` on the model -/

set_option maxRecDepth 100000 in
/-- The check of `test_dilate_1x1` in `TestMorphology.cpp`, for either
colour of the surroundings (the call leaves it to the default argument). -/
theorem test_dilate_1x1 :
    (dilateBrick testDilateInput (Brick.ofSize ⟨1, 1⟩)
        testDilateInput.rect .WHITE).map BinaryImage.bits =
      some testDilateInput.bits ∧
    (dilateBrick testDilateInput (Brick.ofSize ⟨1, 1⟩)
        testDilateInput.rect .BLACK).map BinaryImage.bits =
      some testDilateInput.bits := by
  constructor <;> decide

set_option maxRecDepth 100000 in
/-- The check of `test_dilate_1x1_shift_black` in `TestMorphology.cpp`. -/
theorem test_dilate_1x1_shift_black :
    (dilateBrick testDilateInput (Brick.ofSize ⟨1, 1⟩)
        (testDilateInput.rect.translated 2 2) .BLACK).map BinaryImage.bits =
      some
        [0, 0, 0, 0, 0, 0, 0, 1, 1,
         0, 0, 0, 0, 0, 0, 0, 1, 1,
         1, 1, 0, 0, 0, 0, 0, 1, 1,
         0, 0, 0, 0, 0, 1, 0, 1, 1,
         0, 1, 0, 0, 0, 0, 0, 1, 1,
         0, 0, 0, 0, 0, 0, 0, 1, 1,
         0, 0, 0, 0, 0, 0, 0, 1, 1,
         1, 1, 1, 1, 1, 1, 1, 1, 1,
         1, 1, 1, 1, 1, 1, 1, 1, 1] := by
  decide

set_option maxRecDepth 100000 in
/-- The check of `test_dilate_3x3_white` in `TestMorphology.cpp`. -/
theorem test_dilate_3x3_white :
    (dilateBrick testDilateInput (Brick.ofSize ⟨3, 3⟩)
        testDilateInput.rect .WHITE).map BinaryImage.bits =
      some
        [0, 0, 0, 0, 0, 0, 0, 1, 1,
         1, 1, 1, 0, 0, 0, 0, 1, 1,
         1, 1, 1, 0, 0, 0, 0, 0, 0,
         1, 1, 1, 1, 1, 0, 0, 0, 0,
         0, 1, 1, 1, 1, 0, 1, 1, 1,
         0, 1, 1, 1, 1, 0, 1, 1, 1,
         0, 0, 1, 1, 1, 0, 1, 1, 1,
         0, 0, 1, 1, 1, 0, 0, 0, 0,
         0, 0, 0, 0, 0, 0, 0, 0, 0] := by
  decide

set_option maxRecDepth 100000 in
/-- The check of `test_dilate_5x5_white` in `TestMorphology.cpp`. -/
theorem test_dilate_5x5_white :
    (dilateBrick testDilateInput2 (Brick.ofSize ⟨5, 5⟩)
        testDilateInput2.rect .WHITE).map BinaryImage.bits =
      some
        [1, 1, 1, 1, 0, 0, 1, 1, 1,
         1, 1, 1, 1, 0, 0, 1, 1, 1,
         1, 1, 1, 1, 0, 0, 1, 1, 1,
         1, 1, 1, 1, 0, 0, 0, 0, 0,
         1, 1, 1, 1, 0, 0, 0, 0, 0,
         0, 0, 0, 0, 0, 1, 1, 1, 1,
         0, 0, 0, 0, 0, 1, 1, 1, 1,
         0, 0, 0, 0, 0, 1, 1, 1, 1,
         0, 0, 0, 0, 0, 1, 1, 1, 1] := by
  decide

set_option maxRecDepth 100000 in
/-- The check of `test_dilate_3x3_narrowing_white` in `TestMorphology.cpp`. -/
theorem test_dilate_3x3_narrowing_white :
    (dilateBrick testDilateInput (Brick.ofSize ⟨3, 3⟩)
        (QRect.ofXYWH 5 0 4 9) .WHITE).map BinaryImage.bits =
      some
        [0, 0, 1, 1,
         0, 0, 1, 1,
         0, 0, 0, 0,
         0, 0, 0, 0,
         0, 1, 1, 1,
         0, 1, 1, 1,
         0, 1, 1, 1,
         0, 0, 0, 0,
         0, 0, 0, 0] := by
  decide

set_option maxRecDepth 100000 in
/-- The check of `test_dilate_5x5_narrowing_white` in `TestMorphology.cpp`. -/
theorem test_dilate_5x5_narrowing_white :
    (dilateBrick testDilateInput3 (Brick.ofSize ⟨5, 5⟩)
        (QRect.ofXYWH 4 1 6 5) .WHITE).map BinaryImage.bits =
      some
        [1, 1, 0, 0, 1, 1,
         1, 1, 0, 0, 1, 1,
         1, 1, 0, 0, 0, 0,
         1, 1, 0, 0, 0, 0,
         0, 0, 0, 1, 1, 1] := by
  decide

set_option maxRecDepth 100000 in
/-- The check of `test_dilate_3x3_narrowing_black` in `TestMorphology.cpp`. -/
theorem test_dilate_3x3_narrowing_black :
    (dilateBrick testDilateInput (Brick.ofSize ⟨3, 3⟩)
        (QRect.ofXYWH 5 0 4 9) .BLACK).map BinaryImage.bits =
      some
        [1, 1, 1, 1,
         0, 0, 1, 1,
         0, 0, 0, 1,
         0, 0, 0, 1,
         0, 1, 1, 1,
         0, 1, 1, 1,
         0, 1, 1, 1,
         0, 0, 0, 1,
         1, 1, 1, 1] := by
  decide

set_option maxRecDepth 100000 in
/-- The check of `test_dilate_3x3_widening_white` in `TestMorphology.cpp`. -/
theorem test_dilate_3x3_widening_white :
    (dilateBrick testDilateInput (Brick.ofSize ⟨3, 3⟩)
        (testDilateInput.rect.adjusted (-1) (-1) 1 1) .WHITE).map BinaryImage.bits =
      some
        [0, 0, 0, 0, 0, 0, 0, 0, 1, 1, 1,
         0, 0, 0, 0, 0, 0, 0, 0, 1, 1, 1,
         0, 1, 1, 1, 0, 0, 0, 0, 1, 1, 1,
         0, 1, 1, 1, 0, 0, 0, 0, 0, 0, 0,
         0, 1, 1, 1, 1, 1, 0, 0, 0, 0, 0,
         0, 0, 1, 1, 1, 1, 0, 1, 1, 1, 0,
         0, 0, 1, 1, 1, 1, 0, 1, 1, 1, 0,
         0, 0, 0, 1, 1, 1, 0, 1, 1, 1, 0,
         0, 0, 0, 1, 1, 1, 0, 0, 0, 0, 0,
         0, 0, 0, 0, 0, 0, 0, 0, 0, 0, 0,
         0, 0, 0, 0, 0, 0, 0, 0, 0, 0, 0] := by
  decide

set_option maxRecDepth 100000 in
/-- The check of `test_dilate_3x3_widening_black` in `TestMorphology.cpp`. -/
theorem test_dilate_3x3_widening_black :
    (dilateBrick testDilateInput (Brick.ofSize ⟨3, 3⟩)
        (testDilateInput.rect.adjusted (-1) (-1) 1 1) .BLACK).map BinaryImage.bits =
      some
        [1, 1, 1, 1, 1, 1, 1, 1, 1, 1, 1,
         1, 1, 1, 1, 1, 1, 1, 1, 1, 1, 1,
         1, 1, 1, 1, 0, 0, 0, 0, 1, 1, 1,
         1, 1, 1, 1, 0, 0, 0, 0, 0, 1, 1,
         1, 1, 1, 1, 1, 1, 0, 0, 0, 1, 1,
         1, 1, 1, 1, 1, 1, 0, 1, 1, 1, 1,
         1, 1, 1, 1, 1, 1, 0, 1, 1, 1, 1,
         1, 1, 0, 1, 1, 1, 0, 1, 1, 1, 1,
         1, 1, 0, 1, 1, 1, 0, 0, 0, 1, 1,
         1, 1, 1, 1, 1, 1, 1, 1, 1, 1, 1,
         1, 1, 1, 1, 1, 1, 1, 1, 1, 1, 1] := by
  decide

set_option maxRecDepth 100000 in
/-- The check of `test_dilate_3x1_out_of_brick_white` in `TestMorphology.cpp`. -/
theorem test_dilate_3x1_out_of_brick_white :
    (dilateBrick testDilateInput (Brick.ofSizeOrigin ⟨3, 1⟩ ⟨-1, 0⟩)
        testDilateInput.rect .WHITE).map BinaryImage.bits =
      some
        [0, 0, 0, 0, 0, 0, 0, 0, 0,
         0, 0, 0, 0, 0, 0, 0, 0, 0,
         0, 0, 1, 1, 1, 0, 0, 0, 0,
         0, 0, 0, 0, 0, 0, 0, 0, 0,
         0, 0, 0, 1, 1, 1, 1, 0, 0,
         0, 0, 0, 0, 0, 0, 0, 0, 1,
         0, 0, 0, 0, 1, 1, 1, 0, 0,
         0, 0, 0, 0, 0, 0, 0, 0, 0,
         0, 0, 0, 0, 0, 0, 0, 0, 0] := by
  decide

set_option maxRecDepth 100000 in
/-- The check of `test_dilate_1x3_out_of_brick_black` in `TestMorphology.cpp`. -/
theorem test_dilate_1x3_out_of_brick_black :
    (dilateBrick testDilateInput (Brick.ofSizeOrigin ⟨1, 3⟩ ⟨0, -1⟩)
        testDilateInput.rect .BLACK).map BinaryImage.bits =
      some
        [1, 1, 1, 1, 1, 1, 1, 1, 1,
         1, 1, 1, 1, 1, 1, 1, 1, 1,
         1, 1, 1, 1, 1, 1, 1, 1, 1,
         0, 1, 0, 0, 0, 0, 0, 0, 1,
         0, 1, 0, 0, 0, 0, 0, 0, 0,
         0, 1, 1, 1, 0, 0, 0, 0, 0,
         0, 0, 1, 1, 0, 0, 0, 1, 0,
         0, 0, 1, 1, 0, 0, 0, 1, 0,
         0, 0, 0, 1, 0, 0, 0, 1, 0] := by
  decide

set_option maxRecDepth 100000 in
/-- The check of `test_erode_1x1` in `TestMorphology.cpp`, for either
colour of the surroundings (the call leaves it to the default argument). -/
theorem test_erode_1x1 :
    (erodeBrick testErodeInput (Brick.ofSize ⟨1, 1⟩)
        testErodeInput.rect .WHITE).map BinaryImage.bits =
      some testErodeInput.bits ∧
    (erodeBrick testErodeInput (Brick.ofSize ⟨1, 1⟩)
        testErodeInput.rect .BLACK).map BinaryImage.bits =
      some testErodeInput.bits := by
  constructor <;> decide

set_option maxRecDepth 100000 in
/-- The check of `test_erode_3x3_assymmetric_black` in `TestMorphology.cpp`. -/
theorem test_erode_3x3_assymmetric_black :
    (erodeBrick testErodeInput (Brick.ofSizeOrigin ⟨3, 3⟩ ⟨0, 1⟩)
        testErodeInput.rect .BLACK).map BinaryImage.bits =
      some
        [1, 1, 1, 1, 1, 1, 1, 1, 1,
         1, 1, 1, 1, 0, 0, 0, 1, 1,
         1, 1, 1, 1, 0, 0, 0, 1, 1,
         1, 1, 1, 1, 0, 0, 0, 1, 0,
         1, 1, 1, 1, 1, 1, 1, 1, 0,
         1, 1, 1, 1, 1, 1, 1, 1, 0,
         1, 1, 1, 1, 0, 0, 0, 0, 1,
         0, 0, 0, 1, 0, 0, 0, 0, 1,
         0, 0, 0, 1, 0, 0, 0, 0, 1] := by
  decide

set_option maxRecDepth 100000 in
/-- The check of `test_erode_3x3_assymmetric_white` in `TestMorphology.cpp`. -/
theorem test_erode_3x3_assymmetric_white :
    (erodeBrick testErodeInput (Brick.ofSizeOrigin ⟨3, 3⟩ ⟨0, 1⟩)
        testErodeInput.rect .WHITE).map BinaryImage.bits =
      some
        [0, 0, 0, 0, 0, 0, 0, 0, 0,
         0, 0, 1, 1, 0, 0, 0, 1, 1,
         0, 0, 1, 1, 0, 0, 0, 1, 1,
         0, 0, 1, 1, 0, 0, 0, 1, 0,
         0, 0, 1, 1, 1, 1, 1, 1, 0,
         0, 0, 1, 1, 1, 1, 1, 1, 0,
         0, 0, 1, 1, 0, 0, 0, 0, 1,
         0, 0, 0, 1, 0, 0, 0, 0, 1,
         0, 0, 0, 0, 0, 0, 0, 0, 0] := by
  decide

set_option maxRecDepth 100000 in
/-- The check of `test_erode_11x11_white` in `TestMorphology.cpp`. -/
theorem test_erode_11x11_white :
    (erodeBrick testErodeInput (Brick.ofSize ⟨11, 11⟩)
        testErodeInput.rect .WHITE).map BinaryImage.bits =
      some
        [0, 0, 0, 0, 0, 0, 0, 0, 0,
         0, 0, 0, 0, 0, 0, 0, 0, 0,
         0, 0, 0, 0, 0, 0, 0, 0, 0,
         0, 0, 0, 0, 0, 0, 0, 0, 0,
         0, 0, 0, 0, 0, 0, 0, 0, 0,
         0, 0, 0, 0, 0, 0, 0, 0, 0,
         0, 0, 0, 0, 0, 0, 0, 0, 0,
         0, 0, 0, 0, 0, 0, 0, 0, 0,
         0, 0, 0, 0, 0, 0, 0, 0, 0] := by
  decide

set_option maxRecDepth 100000 in
/-- The check of `test_open_2x2_white` in `TestMorphology.cpp`. -/
theorem test_open_2x2_white :
    (openBrick testOpenInput (Brick.ofSize ⟨2, 2⟩)
        testOpenInput.rect .WHITE).map BinaryImage.bits =
      some
        [0, 0, 0, 0, 0, 0, 0, 0, 0,
         0, 0, 0, 0, 0, 0, 0, 0, 0,
         0, 0, 0, 0, 0, 0, 0, 0, 0,
         0, 0, 0, 0, 0, 1, 1, 0, 0,
         0, 0, 0, 0, 0, 1, 1, 0, 0,
         0, 0, 0, 0, 0, 0, 0, 0, 0,
         0, 0, 0, 0, 0, 0, 0, 0, 0,
         1, 1, 0, 0, 0, 0, 0, 0, 0,
         1, 1, 0, 0, 0, 0, 0, 0, 0] := by
  decide

set_option maxRecDepth 100000 in
/-- The check of `test_open_2x2_black` in `TestMorphology.cpp`. -/
theorem test_open_2x2_black :
    (openBrick testOpenInput (Brick.ofSize ⟨2, 2⟩)
        testOpenInput.rect .BLACK).map BinaryImage.bits =
      some
        [0, 0, 0, 0, 0, 0, 0, 0, 1,
         0, 0, 0, 0, 0, 0, 0, 0, 1,
         0, 0, 0, 0, 0, 0, 0, 0, 0,
         0, 0, 0, 0, 0, 1, 1, 0, 0,
         0, 0, 0, 0, 0, 1, 1, 0, 0,
         0, 0, 0, 0, 0, 0, 0, 0, 0,
         0, 0, 0, 0, 0, 0, 0, 0, 0,
         1, 1, 0, 0, 0, 0, 0, 0, 0,
         1, 1, 0, 0, 0, 0, 0, 0, 1] := by
  decide

set_option maxRecDepth 100000 in
/-- The check of `test_open_2x2_shifted_white` in `TestMorphology.cpp`. -/
theorem test_open_2x2_shifted_white :
    (openBrick testOpenInput (Brick.ofSize ⟨2, 2⟩)
        (testOpenInput.rect.translated 2 1) .WHITE).map BinaryImage.bits =
      some
        [0, 0, 0, 0, 0, 0, 0, 0, 0,
         0, 0, 0, 0, 0, 0, 0, 0, 0,
         0, 0, 0, 1, 1, 0, 0, 0, 0,
         0, 0, 0, 1, 1, 0, 0, 0, 0,
         0, 0, 0, 0, 0, 0, 0, 0, 0,
         0, 0, 0, 0, 0, 0, 0, 0, 0,
         0, 0, 0, 0, 0, 0, 0, 0, 0,
         0, 0, 0, 0, 0, 0, 0, 0, 0,
         0, 0, 0, 0, 0, 0, 0, 0, 0] := by
  decide

set_option maxRecDepth 100000 in
/-- The check of `test_open_2x2_shifted_black` in `TestMorphology.cpp`. -/
theorem test_open_2x2_shifted_black :
    (openBrick testOpenInput (Brick.ofSize ⟨2, 2⟩)
        (testOpenInput.rect.translated 2 1) .BLACK).map BinaryImage.bits =
      some
        [0, 0, 0, 0, 0, 0, 1, 1, 1,
         0, 0, 0, 0, 0, 0, 0, 1, 1,
         0, 0, 0, 1, 1, 0, 0, 1, 1,
         0, 0, 0, 1, 1, 0, 0, 1, 1,
         0, 0, 0, 0, 0, 0, 0, 1, 1,
         0, 0, 0, 0, 0, 0, 0, 1, 1,
         0, 0, 0, 0, 0, 0, 0, 1, 1,
         0, 0, 0, 0, 0, 0, 1, 1, 1,
         1, 1, 1, 1, 1, 1, 1, 1, 1] := by
  decide

set_option maxRecDepth 100000 in
/-- The check of `test_open_2x2_narrowing` in `TestMorphology.cpp`. -/
theorem test_open_2x2_narrowing :
    (openBrick testOpenInput (Brick.ofSize ⟨2, 2⟩)
        (testOpenInput.rect.adjusted 2 2 (-3) (-3)) .WHITE).map BinaryImage.bits =
      some
        [0, 0, 0, 0,
         0, 0, 0, 1,
         0, 0, 0, 1,
         0, 0, 0, 0] ∧
    (openBrick testOpenInput (Brick.ofSize ⟨2, 2⟩)
        (testOpenInput.rect.adjusted 2 2 (-3) (-3)) .BLACK).map BinaryImage.bits =
      some
        [0, 0, 0, 0,
         0, 0, 0, 1,
         0, 0, 0, 1,
         0, 0, 0, 0] := by
  constructor <;> decide

set_option maxRecDepth 100000 in
/-- The check of `test_close_2x2_white` in `TestMorphology.cpp`. -/
theorem test_close_2x2_white :
    (closeBrick testCloseInput (Brick.ofSize ⟨2, 2⟩)
        testCloseInput.rect .WHITE).map BinaryImage.bits =
      some
        [1, 1, 1, 1, 1, 1, 1, 1, 1,
         1, 1, 1, 1, 1, 1, 1, 1, 1,
         1, 0, 0, 0, 1, 1, 1, 1, 1,
         1, 0, 0, 0, 1, 1, 1, 1, 1,
         1, 1, 1, 1, 1, 1, 1, 1, 1,
         0, 1, 0, 0, 1, 1, 1, 1, 1,
         0, 1, 0, 0, 1, 1, 1, 1, 1,
         0, 1, 0, 0, 1, 1, 1, 1, 1,
         0, 0, 0, 0, 1, 1, 1, 1, 0] := by
  decide

set_option maxRecDepth 100000 in
/-- The check of `test_close_2x2_black` in `TestMorphology.cpp`. -/
theorem test_close_2x2_black :
    (closeBrick testCloseInput (Brick.ofSize ⟨2, 2⟩)
        testCloseInput.rect .BLACK).map BinaryImage.bits =
      some
        [1, 1, 1, 1, 1, 1, 1, 1, 1,
         1, 1, 1, 1, 1, 1, 1, 1, 1,
         1, 0, 0, 0, 1, 1, 1, 1, 1,
         1, 0, 0, 0, 1, 1, 1, 1, 1,
         1, 1, 1, 1, 1, 1, 1, 1, 1,
         1, 1, 0, 0, 1, 1, 1, 1, 1,
         1, 1, 0, 0, 1, 1, 1, 1, 1,
         1, 1, 0, 0, 1, 1, 1, 1, 1,
         1, 1, 0, 0, 1, 1, 1, 1, 1] := by
  decide

set_option maxRecDepth 100000 in
/-- The check of `test_close_2x2_shifted_white` in `TestMorphology.cpp`. -/
theorem test_close_2x2_shifted_white :
    (closeBrick testCloseInput (Brick.ofSize ⟨2, 2⟩)
        (testCloseInput.rect.translated 2 1) .WHITE).map BinaryImage.bits =
      some
        [1, 1, 1, 1, 1, 1, 1, 0, 0,
         0, 0, 1, 1, 1, 1, 1, 0, 0,
         0, 0, 1, 1, 1, 1, 1, 0, 0,
         1, 1, 1, 1, 1, 1, 1, 0, 0,
         0, 0, 1, 1, 1, 1, 1, 0, 0,
         0, 0, 1, 1, 1, 1, 1, 0, 0,
         0, 0, 1, 1, 1, 1, 1, 0, 0,
         0, 0, 1, 1, 1, 1, 0, 0, 0,
         0, 0, 0, 0, 0, 0, 0, 0, 0] := by
  decide

set_option maxRecDepth 100000 in
/-- The check of `test_close_2x2_shifted_black` in `TestMorphology.cpp`. -/
theorem test_close_2x2_shifted_black :
    (closeBrick testCloseInput (Brick.ofSize ⟨2, 2⟩)
        (testCloseInput.rect.translated 2 1) .BLACK).map BinaryImage.bits =
      some
        [1, 1, 1, 1, 1, 1, 1, 1, 1,
         0, 0, 1, 1, 1, 1, 1, 1, 1,
         0, 0, 1, 1, 1, 1, 1, 1, 1,
         1, 1, 1, 1, 1, 1, 1, 1, 1,
         0, 0, 1, 1, 1, 1, 1, 1, 1,
         0, 0, 1, 1, 1, 1, 1, 1, 1,
         0, 0, 1, 1, 1, 1, 1, 1, 1,
         0, 0, 1, 1, 1, 1, 1, 1, 1,
         1, 1, 1, 1, 1, 1, 1, 1, 1] := by
  decide

set_option maxRecDepth 100000 in
/-- The check of `test_close_2x2_narrowing` in `TestMorphology.cpp`. -/
theorem test_close_2x2_narrowing :
    (closeBrick testCloseInput (Brick.ofSize ⟨2, 2⟩)
        (testCloseInput.rect.adjusted 2 2 (-3) (-3)) .WHITE).map BinaryImage.bits =
      some
        [0, 0, 1, 1,
         0, 0, 1, 1,
         1, 1, 1, 1,
         0, 0, 1, 1] ∧
    (closeBrick testCloseInput (Brick.ofSize ⟨2, 2⟩)
        (testCloseInput.rect.adjusted 2 2 (-3) (-3)) .BLACK).map BinaryImage.bits =
      some
        [0, 0, 1, 1,
         0, 0, 1, 1,
         1, 1, 1, 1,
         0, 0, 1, 1] := by
  constructor <;> decide

/-- C31 on the code: in `AUTO_DETECT` mode without off-cut evidence, for the span
`[60, 90)` of a raster 100 pixels wide there is more whitespace before the
content than after it (`60 > 100 - 90`), and the cut is made on the right, at
`x = width`; for the span `[10, 40)` there is less whitespace before the content
than after it, and the cut is made on the left, at `x = 0`.  The comment above
the comparison says the opposite. -/
theorem processContentSpansSinglePage_whitespace_sides :
    ((60 : Int) > 100 - 90 ∧
      processContentSpansSinglePage .AUTO_DETECT [⟨60, 90⟩] 100 100 false false
        = some (PageLayout.leftPagePlusOffcut (vertLine 100))) ∧
    (¬ ((10 : Int) > 100 - 40) ∧
      processContentSpansSinglePage .AUTO_DETECT [⟨10, 40⟩] 100 100 false false
        = some (PageLayout.rightPagePlusOffcut (vertLine 0))) := by
  refine ⟨⟨by decide, ?_⟩, ⟨by decide, ?_⟩⟩
  · simp [processContentSpansSinglePage, leftOffcutOrNone, noOffcutLayout, spanAt]
  · simp [processContentSpansSinglePage, leftOffcutOrNone, noOffcutLayout, spanAt]

/-- The loop of `removeInsignificantEdgeSpans` ends within `spans.length`
iterations and leaves a non-empty contiguous run of the deque it started from. -/
theorem removeLoop_infix (fuel : Nat) : ∀ (may_be_removed : Int) (spans : List Span),
    spans ≠ [] → spans.length ≤ fuel →
    ∃ r pre suf, removeLoop fuel may_be_removed spans = some r ∧ r ≠ [] ∧
      spans = pre ++ r ++ suf := by
  induction fuel with
  | zero =>
    intro _ spans hne hlen
    cases spans with
    | nil => exact absurd rfl hne
    | cons a t => simp at hlen
  | succ fuel ih =>
    intro mbr spans hne hlen
    have hself : ∃ r pre suf, some spans = some r ∧ r ≠ [] ∧ spans = pre ++ r ++ suf :=
      ⟨spans, [], [], rfl, hne, by simp⟩
    unfold removeLoop
    dsimp only
    split_ifs with h1 h2 h3 h4 h5 h6
    · exact hself
    · exact hself
    · exfalso
      have h := congrArg List.length (List.isEmpty_iff.mp h4)
      have hpos : 0 < spans.length := List.length_pos.mpr hne
      simp only [List.length_tail, List.length_nil] at h
      omega
    · obtain ⟨r, pre, suf, hr, hrne, hsplit⟩ := ih (mbr - (spanAt spans 0).width) spans.tail
        (by intro h; apply h4; simp [h]) (by simp only [List.length_tail]; omega)
      cases spans with
      | nil => exact absurd rfl hne
      | cons a t =>
        refine ⟨r, a :: pre, suf, hr, hrne, ?_⟩
        simp only [List.tail_cons] at hsplit
        rw [hsplit]
        simp
    · exact hself
    · exfalso
      have h := congrArg List.length (List.isEmpty_iff.mp h6)
      have hpos : 0 < spans.length := List.length_pos.mpr hne
      simp only [List.length_dropLast, List.length_nil] at h
      omega
    · obtain ⟨r, pre, suf, hr, hrne, hsplit⟩ :=
        ih (mbr - (spanAt spans (spans.length - 1)).width) spans.dropLast
          (by intro h; apply h6; simp [h]) (by simp only [List.length_dropLast]; omega)
      refine ⟨r, pre, suf ++ [spans.getLast hne], hr, hrne, ?_⟩
      have hd : spans = spans.dropLast ++ [spans.getLast hne] :=
        (List.dropLast_append_getLast hne).symm
      rw [← List.append_assoc, ← hsplit]
      exact hd

/-- C32: `removeInsignificantEdgeSpans` terminates on every span list and leaves a
contiguous run of it: the input is a removed prefix, followed by the spans that
are left, unchanged and in their order, followed by a removed suffix.  The run
is empty only when the input is: of a non-empty list at least one span
survives, and an empty list is left empty. -/
theorem removeInsignificantEdgeSpans_contiguous (spans : List Span) :
    ∃ r pre suf, removeInsignificantEdgeSpans spans = some r ∧
      spans = pre ++ r ++ suf ∧ (r = [] ↔ spans = []) := by
  unfold removeInsignificantEdgeSpans
  by_cases h : spans.isEmpty = true
  · rw [if_pos h]
    exact ⟨spans, [], [], rfl, by simp, Iff.rfl⟩
  · rw [if_neg h]
    have hne : spans ≠ [] := by
      intro h2
      apply h
      simp [h2]
    obtain ⟨r, pre, suf, hr, hrne, hsplit⟩ :=
      removeLoop_infix spans.length (Int.tdiv (totalWidth spans) 15) spans hne le_rfl
    exact ⟨r, pre, suf, hr, hsplit, ⟨fun h2 => absurd h2 hrne, fun h2 => absurd h2 hne⟩⟩

/-- C34: in `AUTO_DETECT` mode, off-cut evidence on both sides is treated exactly
like evidence on neither side.  For every span list, width and height,
`processContentSpansSinglePage` with `left_offcut = right_offcut = true`
returns the layout it returns with `left_offcut = right_offcut = false`, which
is the layout of the final branch. -/
theorem processContentSpansSinglePage_both_offcuts (spans : List Span)
    (width height : Int) :
    processContentSpansSinglePage .AUTO_DETECT spans width height true true
      = processContentSpansSinglePage .AUTO_DETECT spans width height false false ∧
    processContentSpansSinglePage .AUTO_DETECT spans width height false false
      = some (noOffcutLayout spans width) := by
  constructor <;> simp [processContentSpansSinglePage, leftOffcutOrNone]

end page_split
